import Mathlib

/-!
# VCSMS — verification of the connection and routing subsystem

Shallow embedding of the vcsms repository (server, server_connection,
cryptography/aes256, keys) in Lean 4, together with proofs and refutations
of the specification claims.

Conventions:
* Python `bytes` and `str` values are both modelled as `List Nat`
  (byte values, resp. unicode code points).
* Machine integers are `Nat` with explicit `% 2^w` where overflow matters.
* While-loops are modelled with explicit fuel; every fuel budget used is
  proved (or chosen) ample for the inputs that occur.
* Modules of the repository that are not present under `src/`
  (`cryptography/utils.py`, `cryptography/sha256.py`, `cryptography/hmac.py`,
  `cryptography/dhke.py`, `signing.py`, `queue.py`, `server_db.py`,
  `improved_socket.py`, `message_parser.py`, `exceptions/*`) are modelled
  from the specification; each such definition carries a doc comment
  starting with `Modelled from the spec:`.
-/

namespace VCSMS

/-- Python `bytes`: a list of byte values (each `< 256`). -/
abbrev Bytes := List Nat

/-- Python `str`: a list of unicode code points. -/
abbrev PyStr := List Nat

/-- Modelled from the spec: `cryptography/utils.py` is not under `src/`.
`get_msb n` is the index of the most significant set bit of `n`
(`⌊log₂ n⌋`), the helper the AES code uses for Galois-field reduction.
Implemented with a fixed fuel of 300 halvings, ample for every value the
code computes with (all are below `2^300`). -/
def msbAux : Nat → Nat → Nat
  | 0, _ => 0
  | f + 1, n => if n < 2 then 0 else msbAux f (n / 2) + 1

/-- Modelled from the spec: most-significant-bit index (see `msbAux`). -/
def get_msb (n : Nat) : Nat := msbAux 300 n

theorem msbAux_eq_log2 : ∀ f n, n < 2 ^ f → msbAux f n = Nat.log2 n := by
  intro f
  induction f with
  | zero =>
    intro n h
    interval_cases n
    rw [Nat.log2]
    simp [msbAux]
  | succ f ih =>
    intro n h
    unfold msbAux
    rw [Nat.log2]
    by_cases h2 : n < 2
    · simp [h2, Nat.not_le.mpr h2]
    · have hge : 2 ≤ n := Nat.not_lt.mp h2
      have hdiv : n / 2 < 2 ^ f := by
        apply Nat.div_lt_of_lt_mul
        rw [Nat.pow_succ] at h
        omega
      rw [if_neg h2, if_pos hge, ih _ hdiv]

theorem get_msb_eq_log2 {n : Nat} (h : n < 2 ^ 300) : get_msb n = Nat.log2 n :=
  msbAux_eq_log2 300 n h

/-- Modelled from the spec: `cryptography/utils.py` is not under `src/`.
`xor_b` XORs two equal-length byte strings byte by byte. -/
def xor_b (a b : Bytes) : Bytes := List.zipWith (· ^^^ ·) a b

/-- Modelled from the spec: `cryptography/utils.py` is not under `src/`.
`i_to_b n` is the minimal big-endian byte serialization of a nonnegative
integer (the spec's `big-endian-bytes`); `i_to_b 0 = b""`. Fueled
big-endian digit extraction with fuel 300 (ample: all inputs are below
`2^2400`, and the fuel counts bytes). -/
def iToBAux : Nat → Nat → Bytes
  | 0, _ => []
  | f + 1, n => if n = 0 then [] else iToBAux f (n / 256) ++ [n % 256]

/-- Modelled from the spec: minimal big-endian bytes (see `iToBAux`). -/
def i_to_b (n : Nat) : Bytes := iToBAux 300 n

/-- Big-endian serialization of `n` into exactly `len` bytes
(Python `n.to_bytes(len, 'big')` for in-range `n`). -/
def i_to_b_fixed (len n : Nat) : Bytes :=
  (List.range len).map (fun i => n / 256 ^ (len - 1 - i) % 256)

/-- Big-endian value of a byte string (Python `int.from_bytes(data, 'big')`). -/
def bytesToNatBE (data : Bytes) : Nat := data.foldl (fun acc b => acc * 256 + b) 0

/-! ## `cryptography/aes256.py` (present under `src/`) -/

/-- `aes256.s_box`: the AES substitution box, row by row as in the source. -/
def s_box : List (List Nat) :=
 [[0x63, 0x7c, 0x77, 0x7b, 0xf2, 0x6b, 0x6f, 0xc5, 0x30, 0x01, 0x67, 0x2b, 0xfe, 0xd7, 0xab, 0x76],
  [0xca, 0x82, 0xc9, 0x7d, 0xfa, 0x59, 0x47, 0xf0, 0xad, 0xd4, 0xa2, 0xaf, 0x9c, 0xa4, 0x72, 0xc0],
  [0xb7, 0xfd, 0x93, 0x26, 0x36, 0x3f, 0xf7, 0xcc, 0x34, 0xa5, 0xe5, 0xf1, 0x71, 0xd8, 0x31, 0x15],
  [0x04, 0xc7, 0x23, 0xc3, 0x18, 0x96, 0x05, 0x9a, 0x07, 0x12, 0x80, 0xe2, 0xeb, 0x27, 0xb2, 0x75],
  [0x09, 0x83, 0x2c, 0x1a, 0x1b, 0x6e, 0x5a, 0xa0, 0x52, 0x3b, 0xd6, 0xb3, 0x29, 0xe3, 0x2f, 0x84],
  [0x53, 0xd1, 0x00, 0xed, 0x20, 0xfc, 0xb1, 0x5b, 0x6a, 0xcb, 0xbe, 0x39, 0x4a, 0x4c, 0x58, 0xcf],
  [0xd0, 0xef, 0xaa, 0xfb, 0x43, 0x4d, 0x33, 0x85, 0x45, 0xf9, 0x02, 0x7f, 0x50, 0x3c, 0x9f, 0xa8],
  [0x51, 0xa3, 0x40, 0x8f, 0x92, 0x9d, 0x38, 0xf5, 0xbc, 0xb6, 0xda, 0x21, 0x10, 0xff, 0xf3, 0xd2],
  [0xcd, 0x0c, 0x13, 0xec, 0x5f, 0x97, 0x44, 0x17, 0xc4, 0xa7, 0x7e, 0x3d, 0x64, 0x5d, 0x19, 0x73],
  [0x60, 0x81, 0x4f, 0xdc, 0x22, 0x2a, 0x90, 0x88, 0x46, 0xee, 0xb8, 0x14, 0xde, 0x5e, 0x0b, 0xdb],
  [0xe0, 0x32, 0x3a, 0x0a, 0x49, 0x06, 0x24, 0x5c, 0xc2, 0xd3, 0xac, 0x62, 0x91, 0x95, 0xe4, 0x79],
  [0xe7, 0xc8, 0x37, 0x6d, 0x8d, 0xd5, 0x4e, 0xa9, 0x6c, 0x56, 0xf4, 0xea, 0x65, 0x7a, 0xae, 0x08],
  [0xba, 0x78, 0x25, 0x2e, 0x1c, 0xa6, 0xb4, 0xc6, 0xe8, 0xdd, 0x74, 0x1f, 0x4b, 0xbd, 0x8b, 0x8a],
  [0x70, 0x3e, 0xb5, 0x66, 0x48, 0x03, 0xf6, 0x0e, 0x61, 0x35, 0x57, 0xb9, 0x86, 0xc1, 0x1d, 0x9e],
  [0xe1, 0xf8, 0x98, 0x11, 0x69, 0xd9, 0x8e, 0x94, 0x9b, 0x1e, 0x87, 0xe9, 0xce, 0x55, 0x28, 0xdf],
  [0x8c, 0xa1, 0x89, 0x0d, 0xbf, 0xe6, 0x42, 0x68, 0x41, 0x99, 0x2d, 0x0f, 0xb0, 0x54, 0xbb, 0x16]]

/-- `aes256.invert_sbox`: build the inverse substitution box
(`inverted_s_box[upper][lower] = (row_i << 4) | col_i`). -/
def invert_sbox (sbox : List (List Nat)) : List (List Nat) :=
  let init : List (List Nat) := List.replicate 16 (List.replicate 16 0)
  (List.range 16).foldl (fun inv ri =>
    (List.range 16).foldl (fun inv ci =>
      let byte := (sbox.getD ri []).getD ci 0
      let upper := byte >>> 4
      let lower := byte % 2 ^ 4
      inv.set upper ((inv.getD upper []).set lower ((ri <<< 4) ||| ci))) inv) init

/-- `aes256.inverse_s_box = invert_sbox(s_box)`. -/
def inverse_s_box : List (List Nat) := invert_sbox s_box

/-- `aes256.add_pkcs7`: pad to a multiple of 16 bytes with `to_pad`
copies of the byte `to_pad`. -/
def add_pkcs7 (data : Bytes) : Bytes :=
  let to_pad := 16 - data.length % 16
  data ++ List.replicate to_pad to_pad

/-- Python exception kinds that the modelled code can raise.  `decryptionFailure`
models `DecryptionFailureException`, `cryptography` models a bare
`CryptographyException`; `DecryptionFailureException` is a subclass of
`CryptographyException` (the server catches the latter around `decrypt_cbc`,
and so do the repository's own tests). -/
inductive PyErr where
  | valueError
  | indexError
  | overflowError
  | keyError
  | socketException
  | decryptionFailure
  | cryptography
  | messageParse
  deriving DecidableEq, Repr

/-- Whether an exception kind is caught by `except CryptographyException`. -/
def PyErr.isCryptography : PyErr → Bool
  | .decryptionFailure => true
  | .cryptography => true
  | _ => false

/-- `aes256.remove_pkcs7`: validate and strip PKCS#7 padding.
`data[-1]` on an empty byte string raises `IndexError` (not `ValueError`);
any failed validation raises `ValueError`. -/
def remove_pkcs7 (data : Bytes) : Except PyErr Bytes :=
  match data.getLast? with
  | none => .error .indexError
  | some num_padded =>
    if 16 < num_padded ∨ num_padded = 0 then .error .valueError
    else if data.length < num_padded then .error .valueError
    else if (data.drop (data.length - num_padded)).all (fun b => b = num_padded) then
      .ok (data.take (data.length - num_padded))
    else .error .valueError

/-- Fueled 16-byte chunking; fuel bounds the number of chunks. -/
def chunksAux (size : Nat) : Nat → Bytes → List Bytes
  | 0, _ => []
  | f + 1, d => if d = [] then [] else d.take size :: chunksAux size f (d.drop size)

/-- `aes256.split_blocks`: split into 16-byte blocks; raises `ValueError`
when the length is not a multiple of 16. -/
def split_blocks (data : Bytes) : Except PyErr (List Bytes) :=
  if data.length % 16 ≠ 0 then .error .valueError
  else .ok (chunksAux 16 (data.length / 16 + 1) data)

/-- `aes256.split_bytes`: big-endian bytes of `n`, front-padded with zeros
to `byte_count` entries.  (The source raises when `n` needs more than
`byte_count` bytes; the model is used only within that range.) -/
def split_bytes (n : Nat) (byte_count : Nat) : List Nat :=
  let bit_length := if n = 0 then 0 else get_msb n + 1
  let byte_length := (bit_length + 7) / 8
  let arr := (List.range byte_length).map
    (fun i => (n % 2 ^ ((byte_length - i) * 8)) >>> ((byte_length - i - 1) * 8))
  List.replicate (byte_count - byte_length) 0 ++ arr

/-- `aes256.combine_byte_array`: big-endian bytes to an integer via shifts. -/
def combine_byte_array (byte_array : List Nat) : Nat :=
  (byte_array.enum).foldl
    (fun word (i, b) => word ||| (b <<< (8 * (byte_array.length - 1 - i)))) 0

/-- `aes256.byte_to_bits`: the 8 bits of a byte, most significant first
(the source builds `bits[7-i]` by repeated subtraction of `2^i`). -/
def byteBitsAux : Nat → Nat → List Nat
  | _, 0 => []
  | cur, k + 1 =>
    if 2 ^ k ≤ cur then 1 :: byteBitsAux (cur - 2 ^ k) k
    else 0 :: byteBitsAux cur k

/-- `aes256.byte_to_bits` (see `byteBitsAux`). -/
def byte_to_bits (x : Nat) : List Nat := byteBitsAux x 8

/-- `aes256.gf_mod_bytes`: polynomial remainder in GF(2)[X], as the source's
while-loop (`b ^= mod << (msb b - msb mod)` while `msb b ≥ msb mod`),
with fuel; each iteration strictly decreases `msb b`, so fuel
`get_msb b + 1` is ample. -/
def gfModAux : Nat → Nat → Nat → Nat
  | 0, b, _ => b
  | f + 1, b, m =>
    if get_msb m ≤ get_msb b then gfModAux f (b ^^^ (m <<< (get_msb b - get_msb m))) m
    else b

/-- `aes256.gf_mod_bytes` (see `gfModAux`). -/
def gf_mod_bytes (b m : Nat) : Nat := gfModAux (get_msb b + 1) b m

/-- `aes256.gf_multiply_bytes`: GF(2^8) product, carry-less product of `x`
with the bits of `y` followed by reduction modulo `modulus` (the source's
default modulus is `0x11b`; all call sites of the model pass it
explicitly). -/
def gf_multiply_bytes (x y : Nat) (modulus : Nat) : Nat :=
  let yc := byte_to_bits y
  let z := (List.range 8).foldl (fun z i => z ^^^ (x <<< i) * yc.getD (7 - i) 0) 0
  gf_mod_bytes z modulus

/-- `aes256.transpose_matrix`: transpose of a 4x4 matrix, written entry by
entry as in the source. -/
def transpose_matrix (m : List (List Nat)) : List (List Nat) :=
  [[(m.getD 0 []).getD 0 0, (m.getD 1 []).getD 0 0, (m.getD 2 []).getD 0 0, (m.getD 3 []).getD 0 0],
   [(m.getD 0 []).getD 1 0, (m.getD 1 []).getD 1 0, (m.getD 2 []).getD 1 0, (m.getD 3 []).getD 1 0],
   [(m.getD 0 []).getD 2 0, (m.getD 1 []).getD 2 0, (m.getD 2 []).getD 2 0, (m.getD 3 []).getD 2 0],
   [(m.getD 0 []).getD 3 0, (m.getD 1 []).getD 3 0, (m.getD 2 []).getD 3 0, (m.getD 3 []).getD 3 0]]

/-- `aes256.sbox_lookup`: look a byte up in a substitution box by nibbles. -/
def sbox_lookup (b : Nat) (sbox : List (List Nat)) : Nat :=
  (sbox.getD (b >>> 4) []).getD (b % 2 ^ 4) 0

/-- `aes256.sub_bytes`: substitute every entry of the state through the
s-box (or the inverse s-box). -/
def sub_bytes (state : List (List Nat)) (inverse : Bool) : List (List Nat) :=
  state.map (fun row => row.map (fun byte =>
    if inverse then sbox_lookup byte inverse_s_box else sbox_lookup byte s_box))

/-- `aes256.shift_rows`: rotate row `r` left by `r` (right when `inverse`).
Python's `row[c - r]` uses wrap-around indexing, i.e. index `(c + 4 - r) % 4`;
the forward direction indexes `row[(c + r) % 4]` literally. -/
def shift_rows (state : List (List Nat)) (inverse : Bool) : List (List Nat) :=
  state.enum.map (fun (r, row) =>
    (List.range row.length).map (fun c =>
      if inverse then row.getD ((c + 4 - r) % 4) 0 else row.getD ((c + r) % 4) 0))

/-- `aes256.mix_columns`: multiply each state column by the (inverse) MDS
matrix over GF(2^8).  The source looks products up in `multiply_lookup`,
a table memoizing `gf_multiply_bytes i j` for bytes `i, j`; the model
inlines the memoized function. -/
def mix_columns (state : List (List Nat)) (inverse : Bool) : List (List Nat) :=
  let mm := if inverse then shift_rows (List.replicate 4 [0x0e, 0x0b, 0x0d, 0x09]) true
            else shift_rows (List.replicate 4 [0x02, 0x03, 0x01, 0x01]) true
  let mixed_columns := (List.range 4).map (fun c =>
    (List.range 4).map (fun i =>
      (List.range 4).foldl (fun val j =>
        val ^^^ gf_multiply_bytes ((state.getD j []).getD c 0) ((mm.getD i []).getD j 0) 0x11b) 0))
  transpose_matrix mixed_columns

/-- `aes256.add_round_key`: entrywise XOR of state and round-key matrices. -/
def add_round_key (state round_key : List (List Nat)) : List (List Nat) :=
  (List.range 4).map (fun i => (List.range 4).map (fun j =>
    (state.getD i []).getD j 0 ^^^ (round_key.getD i []).getD j 0))

/-- `aes256.int_to_word_array`: big-endian 32-bit words of `x`, front-padded
with zeros to `words` entries.  (The source raises when `x` needs more
than `words` words; the model is used only within that range.) -/
def int_to_word_array (x : Nat) (words : Nat) : List Nat :=
  let bit_length := if x = 0 then 0 else get_msb x + 1
  let word_count := (bit_length + 31) / 32
  let arr := (List.range word_count).map
    (fun t => (x % 2 ^ ((word_count - t) * 32)) >>> ((word_count - t - 1) * 32))
  List.replicate (words - word_count) 0 ++ arr

/-- `aes256.word_array_to_4x4_matrix`: 4 big-endian words to a column-major
4x4 byte matrix (`mat[j][i] =` byte `j` of word `i`). -/
def word_array_to_4x4_matrix (words : List Nat) : List (List Nat) :=
  let ws := List.replicate (4 - words.length) 0 ++ words
  (List.range 4).map (fun j => (List.range 4).map (fun i =>
    (split_bytes (ws.getD i 0) 4).getD j 0))

/-- `aes256.bytes_to_matrix`: a 16-byte block as a column-major 4x4 matrix. -/
def bytes_to_matrix (x : Bytes) : List (List Nat) :=
  [[x.getD 0 0, x.getD 4 0, x.getD 8 0, x.getD 12 0],
   [x.getD 1 0, x.getD 5 0, x.getD 9 0, x.getD 13 0],
   [x.getD 2 0, x.getD 6 0, x.getD 10 0, x.getD 14 0],
   [x.getD 3 0, x.getD 7 0, x.getD 11 0, x.getD 15 0]]

/-- `aes256.matrix_to_bytes`: flatten a column-major 4x4 matrix back into 16
bytes (the source concatenates the tuples of `zip(*m)`, i.e. the
transpose row by row). -/
def matrix_to_bytes (m : List (List Nat)) : Bytes :=
  (transpose_matrix m).flatten

/-- `aes256.round_constant`: `2^(n-1) << 24`. -/
def round_constant (n : Nat) : Nat := 2 ^ (n - 1) <<< 24

/-- `aes256.sub_word`: substitute each byte of a 32-bit word through the s-box. -/
def sub_word (word : Nat) : Nat :=
  combine_byte_array ((sub_bytes [split_bytes word 4] false).getD 0 [])

/-- `aes256.rotate_word`: rotate a 4-byte word left by one byte. -/
def rotate_word (word : Nat) : Nat :=
  let wb := split_bytes word 4
  combine_byte_array [wb.getD 1 0, wb.getD 2 0, wb.getD 3 0, wb.getD 0 0]

/-- `aes256.expand_key`: the AES-256 key schedule, 60 32-bit words. -/
def expand_key (key : Nat) : List Nat :=
  let key_words := int_to_word_array key 8
  (List.range' 8 52 1).foldl (fun schedule i =>
    let prev := schedule.getD (i - 1) 0
    let prev :=
      if i % 8 = 0 then sub_word (rotate_word prev) ^^^ round_constant (i / 8)
      else if (i - 4) % 8 = 0 then sub_word prev
      else prev
    schedule ++ [prev ^^^ schedule.getD (i - 8) 0]) key_words

/-- `ks[a:b]` on the key schedule (Python slice). -/
def word_slice (ks : List Nat) (a b : Nat) : List Nat := (ks.drop a).take (b - a)

/-- `aes256.cipher_round`: sub, shift, mix, add round key. -/
def cipher_round (state : List (List Nat)) (round_key : List Nat) : List (List Nat) :=
  let rk := word_array_to_4x4_matrix round_key
  add_round_key (mix_columns (shift_rows (sub_bytes state false) false) false) rk

/-- `aes256.decipher_round`: inverse shift, inverse sub, add round key,
inverse mix. -/
def decipher_round (state : List (List Nat)) (round_key : List Nat) : List (List Nat) :=
  let rk := word_array_to_4x4_matrix round_key
  mix_columns (add_round_key (sub_bytes (shift_rows state true) true) rk) true

/-- `aes256.encrypt_block`: 14-round AES-256 block encryption. -/
def encrypt_block (ks : List Nat) (block : Bytes) : Bytes :=
  let st := add_round_key (bytes_to_matrix block) (word_array_to_4x4_matrix (word_slice ks 0 4))
  let st := (List.range' 1 13 1).foldl
    (fun st r => cipher_round st (word_slice ks (r * 4) ((r + 1) * 4))) st
  let st := sub_bytes st false
  let st := shift_rows st false
  let st := add_round_key st (word_array_to_4x4_matrix (word_slice ks 56 60))
  matrix_to_bytes st

/-- `aes256.decrypt_block`: 14-round AES-256 block decryption. -/
def decrypt_block (ks : List Nat) (block : Bytes) : Bytes :=
  let st := add_round_key (bytes_to_matrix block) (word_array_to_4x4_matrix (word_slice ks 56 60))
  let st := (List.range' 1 13 1).foldl
    (fun st r => decipher_round st (word_slice ks (56 - r * 4) (60 - r * 4))) st
  let st := shift_rows st true
  let st := sub_bytes st true
  let st := add_round_key st (word_array_to_4x4_matrix (word_slice ks 0 4))
  matrix_to_bytes st

/-- `aes256.pad`: `nb.to_bytes(2) ++ na.to_bytes(2) ++ before ++ data ++ after`.
The source draws `nb`, `na` uniformly from `[0, 1024)` and the padding
bytes at random; the model takes the random choices as arguments. -/
def aes_pad (nb na : Nat) (padB padA : Bytes) (data : Bytes) : Bytes :=
  [(nb >>> 8) % 256, nb % 256] ++ [(na >>> 8) % 256, na % 256] ++ padB ++ data ++ padA

/-- `aes256.unpad`: strip the random padding recorded in the first four
bytes; raises `ValueError` when the recorded padding exceeds the length. -/
def unpad (data : Bytes) : Except PyErr Bytes :=
  let num_before := bytesToNatBE (data.take 2)
  let num_after := bytesToNatBE ((data.drop 2).take 2)
  if data.length < num_before + num_after then .error .valueError
  else .ok ((data.drop (num_before + 4)).take (data.length - num_after - (num_before + 4)))

/-! ## SHA-256 and the HMAC of the frame format

`cryptography/sha256.py` and `cryptography/hmac.py` are not under `src/`;
both are modelled from the spec (the spec names the hash as SHA-256 and the
MAC as an HMAC binding `iv || ciphertext` to `key`). -/

/-- 32-bit right rotation on `Nat` (values kept below `2^32`). -/
def rotr32 (x n : Nat) : Nat := ((x >>> n) ||| (x <<< (32 - n))) % 2 ^ 32

/-- Modelled from the spec: SHA-256 round constants (FIPS 180-4). -/
def shaK : List Nat :=
  [1116352408, 1899447441, 3049323471, 3921009573, 961987163, 1508970993, 2453635748, 2870763221,
   3624381080, 310598401, 607225278, 1426881987, 1925078388, 2162078206, 2614888103, 3248222580,
   3835390401, 4022224774, 264347078, 604807628, 770255983, 1249150122, 1555081692, 1996064986,
   2554220882, 2821834349, 2952996808, 3210313671, 3336571891, 3584528711, 113926993, 338241895,
   666307205, 773529912, 1294757372, 1396182291, 1695183700, 1986661051, 2177026350, 2456956037,
   2730485921, 2820302411, 3259730800, 3345764771, 3516065817, 3600352804, 4094571909, 275423344,
   430227734, 506948616, 659060556, 883997877, 958139571, 1322822218, 1537002063, 1747873779,
   1955562222, 2024104815, 2227730452, 2361852424, 2428436474, 2756734187, 3204031479, 3329325298]

/-- Modelled from the spec: SHA-256 message schedule extension of the 16
block words to 64 words. -/
def shaSchedule : Nat → List Nat → List Nat
  | 0, w => w
  | f + 1, w =>
    let t := w.length
    let s0 := rotr32 (w.getD (t - 15) 0) 7 ^^^ rotr32 (w.getD (t - 15) 0) 18 ^^^ (w.getD (t - 15) 0 >>> 3)
    let s1 := rotr32 (w.getD (t - 2) 0) 17 ^^^ rotr32 (w.getD (t - 2) 0) 19 ^^^ (w.getD (t - 2) 0 >>> 10)
    shaSchedule f (w ++ [(w.getD (t - 16) 0 + s0 + w.getD (t - 7) 0 + s1) % 2 ^ 32])

/-- Modelled from the spec: one SHA-256 compression round. -/
def shaRound (state : List Nat) (kw : Nat × Nat) : List Nat :=
  match state with
  | [a, b, c, d, e, f, g, h] =>
    let S1 := rotr32 e 6 ^^^ rotr32 e 11 ^^^ rotr32 e 25
    let ch := (e &&& f) ^^^ ((2 ^ 32 - 1 - e) &&& g)
    let temp1 := (h + S1 + ch + kw.1 + kw.2) % 2 ^ 32
    let S0 := rotr32 a 2 ^^^ rotr32 a 13 ^^^ rotr32 a 22
    let maj := (a &&& b) ^^^ (a &&& c) ^^^ (b &&& c)
    let temp2 := (S0 + maj) % 2 ^ 32
    [(temp1 + temp2) % 2 ^ 32, a, b, c, (d + temp1) % 2 ^ 32, e, f, g]
  | s => s

/-- Modelled from the spec: SHA-256 compression of one 64-byte block. -/
def shaCompress (h : List Nat) (block : Bytes) : List Nat :=
  let w0 := (List.range 16).map (fun i => bytesToNatBE ((block.drop (4 * i)).take 4))
  let w := shaSchedule 48 w0
  let out := (shaK.zip w).foldl shaRound h
  List.zipWith (fun a b => (a + b) % 2 ^ 32) h out

/-- Modelled from the spec: SHA-256 padding — `0x80`, zeros, 64-bit
big-endian bit length, to a multiple of 64 bytes. -/
def shaPad (msg : Bytes) : Bytes :=
  let zeros := (119 - msg.length % 64) % 64
  msg ++ [0x80] ++ List.replicate zeros 0 ++ i_to_b_fixed 8 (msg.length * 8)

/-- Modelled from the spec: `sha256.hash(data)` — the SHA-256 digest of a
byte string as a 256-bit integer (the session-key derivation
`SHA-256(big-endian-bytes(dh_shared))` consumes it as an integer). -/
def sha256_hash (data : Bytes) : Nat :=
  let blocks := chunksAux 64 ((shaPad data).length / 64 + 1) (shaPad data)
  let h := blocks.foldl shaCompress
    [1779033703, 3144134277, 1013904242, 2773480762, 1359893119, 2600822924, 528734635, 1541459225]
  h.foldl (fun acc w => acc * 2 ^ 32 + w) 0

/-- Lowercase hexadecimal digits of `n` (no prefix, minimal form, `"0" ↦ [48]`),
as code points; fueled on the number of digits (300 is ample below `2^1200`). -/
def hexDigitsAux : Nat → Nat → List Nat
  | 0, _ => []
  | f + 1, n =>
    if n < 16 then [if n < 10 then 48 + n else 87 + n]
    else hexDigitsAux f (n / 16) ++ [if n % 16 < 10 then 48 + n % 16 else 87 + n % 16]

/-- Python `hex(n)` without the `0x` prefix: lowercase minimal hex digits. -/
def hexDigits (n : Nat) : PyStr := hexDigitsAux 300 n

/-- Python `hex(n)`: `0x` followed by lowercase minimal hex digits. -/
def pyHex (n : Nat) : PyStr := [48, 120] ++ hexDigits n

/-- Python `bytes.hex()`: two lowercase hex digits per byte. -/
def bytesHex (data : Bytes) : PyStr :=
  data.flatMap (fun b => [if b >>> 4 < 10 then 48 + (b >>> 4) else 87 + (b >>> 4),
                          if b % 16 < 10 then 48 + b % 16 else 87 + b % 16])

/-- Modelled from the spec: `sha256.hash_hex(data)` — the digest in Python
`hex()` form (`0x` + lowercase hex); `keys.fingerprint` strips the first
two characters of it. -/
def sha256_hash_hex (data : Bytes) : PyStr := pyHex (sha256_hash data)

/-- Modelled from the spec: `hmac.calculate(ciphertext, iv, key)` — the
32-byte SHA-256-based MAC binding `iv || ciphertext` to `key` that
`encrypt_cbc` appends (hmac.py is not under `src/`). -/
def hmac_calculate (ct : Bytes) (iv key : Nat) : Bytes :=
  i_to_b_fixed 32 (sha256_hash (i_to_b key ++ i_to_b iv ++ ct))

/-- Modelled from the spec: `hmac.verify(tag, ciphertext, iv, key)` —
recompute and compare. -/
def hmac_verify (tag : Bytes) (ct : Bytes) (iv key : Nat) : Bool :=
  tag = hmac_calculate ct iv key

/-- CBC encryption of a block list: XOR with the previous ciphertext block
(initially the IV block), then block-encrypt. -/
def cbcEnc (ks : List Nat) (prev : Bytes) : List Bytes → List Bytes
  | [] => []
  | b :: rest =>
    let cb := encrypt_block ks (xor_b b prev)
    cb :: cbcEnc ks cb rest

/-- `aes256.encrypt_cbc`, with the random padding amounts and bytes taken
as arguments (`nb`, `na` below `1024`; `padB`, `padA` of those lengths).
Raises `CryptographyException` in test mode on non-multiple-of-16 input
and `OverflowError` when `iv` does not fit 16 bytes
(`iv.to_bytes(16, 'big')`).  The key must fit 256 bits
(`expand_key` would raise otherwise); theorems assume that bound. -/
def encrypt_cbc (data : Bytes) (key iv : Nat) (test_mode : Bool)
    (nb na : Nat) (padB padA : Bytes) : Except PyErr Bytes :=
  if test_mode ∧ data.length % 16 ≠ 0 then .error .cryptography
  else
    let data' := if test_mode then data else add_pkcs7 (aes_pad nb na padB padA data)
    match split_blocks data' with
    | .error e => .error e
    | .ok blocks =>
      if 2 ^ 128 ≤ iv then .error .overflowError
      else
        let ks := expand_key key
        let ct := (cbcEnc ks (i_to_b_fixed 16 iv) blocks).flatten
        .ok (if test_mode then ct else ct ++ hmac_calculate ct iv key)

/-- CBC decryption of a block list: block-decrypt, then XOR with the
previous ciphertext block (initially the IV block).  The IV is only
serialized when there is a first block, as in the source's loop; an IV
beyond 16 bytes then raises `OverflowError`. -/
def cbcDec (ks : List Nat) (iv : Nat) (blocks : List Bytes) : Except PyErr (List Bytes) :=
  match blocks with
  | [] => .ok []
  | _ :: _ =>
    if 2 ^ 128 ≤ iv then .error .overflowError
    else .ok ((blocks.zip (i_to_b_fixed 16 iv :: blocks)).map
      (fun bp => xor_b (decrypt_block ks bp.1) bp.2))

/-- `aes256.decrypt_cbc`.  In non-test mode: split off the 32-byte MAC
(`DecryptionFailureException` when shorter), split into blocks
(`ValueError` is re-raised as `DecryptionFailureException`), CBC-decrypt,
verify the MAC, strip PKCS#7 (`ValueError` becomes
`DecryptionFailureException`, but the `IndexError` of an empty plaintext
propagates), then `unpad` under a bare `except`.  The key must fit 256
bits (`expand_key` would raise otherwise); theorems assume that bound. -/
def decrypt_cbc (ciphertext : Bytes) (key iv : Nat) (test_mode : Bool) : Except PyErr Bytes :=
  let hm := if test_mode then ([], ciphertext)
            else (ciphertext.drop (ciphertext.length - 32), ciphertext.take (ciphertext.length - 32))
  if ¬test_mode ∧ ciphertext.length < 32 then .error .decryptionFailure
  else
    match split_blocks hm.2 with
    | .error _ => .error .decryptionFailure
    | .ok blocks =>
      match cbcDec (expand_key key) iv blocks with
      | .error e => .error e
      | .ok message_blocks =>
        let plaintext := message_blocks.flatten
        if test_mode then .ok plaintext
        else if ¬hmac_verify hm.1 hm.2 iv key then .error .decryptionFailure
        else
          match remove_pkcs7 plaintext with
          | .error .valueError => .error .decryptionFailure
          | .error e => .error e
          | .ok p =>
            match unpad p with
            | .error _ => .error .decryptionFailure
            | .ok q => .ok q

/-! ## `keys.py` (present under `src/`) -/

/-- `keys.fingerprint`: the SHA-256 fingerprint of an RSA key `(exp, mod)`,
serialized as `hex(exp)[2:] + hex(mod)[2:]` (no separator), hex digest
truncated to `fp_length` characters (`hash_hex(...)[2 : fp_length + 2]`).
The source's default `fp_length` is 32; call sites of the model pass it
explicitly. -/
def fingerprint (key : Nat × Nat) (fp_length : Nat) : PyStr :=
  let serialised_key := hexDigits key.1 ++ hexDigits key.2
  ((sha256_hash_hex serialised_key).drop 2).take fp_length

/-- Python `hex(n)` for a possibly negative integer (`hex(-5) = "-0x5"`). -/
def pyHexInt (n : Int) : PyStr :=
  if n < 0 then [45] ++ pyHex (-n).toNat else pyHex n.toNat

/-- `keys.fingerprint` applied to the possibly negative integers that
`int(field, 16)` can produce in `Server._handshake` (serialization
`hex(exp)[2:] + hex(mod)[2:]` as in the source). -/
def fingerprintInt (key : Int × Int) (fp_length : Nat) : PyStr :=
  let serialised_key := (pyHexInt key.1).drop 2 ++ (pyHexInt key.2).drop 2
  ((sha256_hash_hex serialised_key).drop 2).take fp_length

/-! ## Python string and bytes primitives used by the wire code -/

/-- ASCII code points of a Lean string (used to write the protocol's
literal tokens). -/
def strA (s : String) : PyStr := s.data.map Char.toNat

/-- Characters Python's `int()` treats as surrounding whitespace. -/
def pyWs (c : Nat) : Bool := c = 32 ∨ c = 9 ∨ c = 10 ∨ c = 13 ∨ c = 11 ∨ c = 12

/-- The value of a hex-digit code point, if it is one (both cases). -/
def hexVal (c : Nat) : Option Nat :=
  if 48 ≤ c ∧ c ≤ 57 then some (c - 48)
  else if 97 ≤ c ∧ c ≤ 102 then some (c - 87)
  else if 65 ≤ c ∧ c ≤ 70 then some (c - 55)
  else none

/-- Hex digits (with single underscores allowed between digits, as Python's
`int(..., 16)` accepts) to a value; `none` when malformed. -/
def hexRunAux : List Nat → Nat → Bool → Option Nat
  | [], acc, lastDigit => if lastDigit then some acc else none
  | c :: rest, acc, lastDigit =>
    if c = 95 then if lastDigit then hexRunAux rest acc false else none
    else match hexVal c with
      | some v => hexRunAux rest (acc * 16 + v) true
      | none => none

/-- Python `int(s, 16)`: optional surrounding whitespace, optional sign,
optional `0x`/`0X` prefix (an underscore may follow it), then hex digits
with single underscores between them.  `none` models `ValueError`. -/
def pyIntHex (s : PyStr) : Option Int :=
  let t := (s.dropWhile pyWs).reverse.dropWhile pyWs |>.reverse
  let (sign, t) : Int × List Nat :=
    match t with
    | 43 :: r => (1, r)
    | 45 :: r => (-1, r)
    | _ => (1, t)
  let t := match t with
    | 48 :: x :: r => if x = 120 ∨ x = 88 then (match r with | 95 :: r2 => r2 | _ => r) else 48 :: x :: r
    | _ => t
  (hexRunAux t 0 false).map (fun v => sign * v)

/-- Python `bytes.fromhex`: pairs of hex digits, spaces allowed between
bytes; `none` models `ValueError`. -/
def pyBytesFromHex : PyStr → Option Bytes
  | [] => some []
  | c :: rest =>
    if c = 32 then pyBytesFromHex rest
    else match rest with
      | [] => none
      | d :: rest2 =>
        match hexVal c, hexVal d with
        | some hi, some lo => (pyBytesFromHex rest2).map (fun bs => (hi * 16 + lo) :: bs)
        | _, _ => none

/-- Whether a byte is a UTF-8 continuation byte. -/
def utf8Cont (b : Nat) : Bool := 128 ≤ b ∧ b ≤ 191

/-- Python `bytes.decode('utf-8')`: strict UTF-8 decoding to code points;
`none` models `UnicodeDecodeError` (a subclass of `ValueError`). -/
def utf8Decode : Bytes → Option PyStr
  | [] => some []
  | b :: rest =>
    if b < 128 then (utf8Decode rest).map (fun s => b :: s)
    else if 194 ≤ b ∧ b ≤ 223 then
      match rest with
      | c1 :: r =>
        if utf8Cont c1 then (utf8Decode r).map (fun s => ((b - 192) * 64 + (c1 - 128)) :: s)
        else none
      | _ => none
    else if 224 ≤ b ∧ b ≤ 239 then
      match rest with
      | c1 :: c2 :: r =>
        let ok1 := if b = 224 then 160 ≤ c1 ∧ c1 ≤ 191
                   else if b = 237 then 128 ≤ c1 ∧ c1 ≤ 159
                   else utf8Cont c1
        if ok1 ∧ utf8Cont c2 then
          (utf8Decode r).map (fun s => ((b - 224) * 4096 + (c1 - 128) * 64 + (c2 - 128)) :: s)
        else none
      | _ => none
    else if 240 ≤ b ∧ b ≤ 244 then
      match rest with
      | c1 :: c2 :: c3 :: r =>
        let ok1 := if b = 240 then 144 ≤ c1 ∧ c1 ≤ 191
                   else if b = 244 then 128 ≤ c1 ∧ c1 ≤ 143
                   else utf8Cont c1
        if ok1 ∧ utf8Cont c2 ∧ utf8Cont c3 then
          (utf8Decode r).map (fun s =>
            ((b - 240) * 262144 + (c1 - 128) * 4096 + (c2 - 128) * 64 + (c3 - 128)) :: s)
        else none
      | _ => none
    else none

/-- UTF-8 encoding of code points (inverse of `utf8Decode` on its range). -/
def utf8Encode (s : PyStr) : Bytes :=
  s.flatMap (fun c =>
    if c < 128 then [c]
    else if c < 2048 then [192 + c / 64, 128 + c % 64]
    else if c < 65536 then [224 + c / 4096, 128 + c / 64 % 64, 128 + c % 64]
    else [240 + c / 262144, 128 + c / 4096 % 64, 128 + c / 64 % 64, 128 + c % 64])

/-- Split a byte string at every occurrence of `sep` (Python `split(sep)`). -/
def splitBy (sep : Nat) : Bytes → List Bytes
  | [] => [[]]
  | b :: rest =>
    let r := splitBy sep rest
    if b = sep then [] :: r else (b :: r.headD []) :: r.tail

/-- Split at the first occurrence of `sep` (Python `split(sep, 1)`);
`none` when `sep` does not occur. -/
def splitFirst (sep : Nat) : Bytes → Option (Bytes × Bytes)
  | [] => none
  | b :: rest =>
    if b = sep then some ([], rest)
    else (splitFirst sep rest).map (fun p => (b :: p.1, p.2))

/-- Join byte strings with `sep` (Python `sep.join`). -/
def joinBy (sep : Nat) : List Bytes → Bytes
  | [] => []
  | [x] => x
  | x :: rest => x ++ sep :: joinBy sep rest

/-- Decimal digit code points of a natural number (fueled; 300 is ample). -/
def decDigitsAux : Nat → Nat → List Nat
  | 0, _ => []
  | f + 1, n => if n < 10 then [48 + n] else decDigitsAux f (n / 10) ++ [48 + n % 10]

/-- Python `str(n)` for a natural number. -/
def decDigits (n : Nat) : PyStr := decDigitsAux 300 n

/-- Strict digit-string parse in base 10, used by the message parser model. -/
def decRunAux : List Nat → Nat → Option Nat
  | [], acc => some acc
  | c :: rest, acc =>
    if 48 ≤ c ∧ c ≤ 57 then decRunAux rest (acc * 10 + (c - 48)) else none

/-! ## Message parser (`message_parser.py` is not under `src/`) -/

/-- Modelled from the spec: a schema entry gives, per parameter, integer
(with its numeric base) or utf-8 string. -/
inductive ParamSpec where
  | intB (base : Nat)
  | strE
  deriving DecidableEq

/-- Modelled from the spec: a message parameter value. -/
inductive MsgVal where
  | i (n : Nat)
  | s (st : PyStr)
  | raw (b : Bytes)
  deriving DecidableEq

/-- Modelled from the spec: a message-type schema (`type_name → parameter
types and encodings`). -/
abbrev Schema := List (PyStr × List ParamSpec)

/-- `server.INCOMING_MESSAGE_TYPES` (from `src/vcsms/server.py`). -/
def INCOMING_MESSAGE_TYPES : Schema :=
  [(strA ("GetKey"), [.intB 10, .strE]),
   (strA ("Quit"), []),
   (strA ("NoSuchKeyRequest"), [.intB 10]),
   (strA ("MessageMalformed"), []),
   (strA ("CiphertextMalformed"), []),
   (strA ("InvalidIV"), []),
   (strA ("MessageDecryptionFailure"), [])]

/-- `server.OUTGOING_MESSAGE_TYPES` (from `src/vcsms/server.py`). -/
def OUTGOING_MESSAGE_TYPES : Schema :=
  [(strA ("KeyFound"), [.intB 10, .intB 16, .intB 16]),
   (strA ("KeyNotFound"), [.intB 10]),
   (strA ("UnknownMessageType"), [.strE]),
   (strA ("InvalidIV"), []),
   (strA ("CiphertextMalformed"), []),
   (strA ("MessageMalformed"), []),
   (strA ("MessageDecryptionFailure"), [])]

/-- Association-list lookup keyed by `PyStr`. -/
def alLookup {α : Type} (l : List (PyStr × α)) (k : PyStr) : Option α :=
  (l.find? (fun p => p.1 = k)).map Prod.snd

/-- Modelled from the spec: encode one parameter (integers as ASCII in
their declared base, strings in their declared text encoding). -/
def encodeParam : ParamSpec → MsgVal → Option Bytes
  | .intB 16, .i n => some (hexDigits n)
  | .intB _, .i n => some (decDigits n)
  | .strE, .s st => some (utf8Encode st)
  | _, .raw b => some b
  | _, _ => none

/-- Modelled from the spec: encode a parameter of a type absent from the
schema (pass-through: ints in base 10, strings utf-8, raw bytes verbatim). -/
def encodeGeneric : MsgVal → Bytes
  | .i n => decDigits n
  | .s st => utf8Encode st
  | .raw b => b

/-- Traverse `Option` over a zip of parameter specs and values. -/
def encodeParams : List ParamSpec → List MsgVal → Option (List Bytes)
  | [], [] => some []
  | sp :: sps, v :: vs =>
    match encodeParam sp v, encodeParams sps vs with
    | some b, some bs => some (b :: bs)
    | _, _ => none
  | _, _ => none

/-- Modelled from the spec: `MessageParser.construct_message(recipient,
type_name, *values)` — `recipient || ":" || type_name [ || ":" || p_i ]*`;
arity mismatch raises `MessageParseException`.  Types absent from the
outgoing schema are emitted by pass-through (the spec's routing invariant
requires unknown types to re-construct byte-identically). -/
def construct_message (outgoing : Schema) (recipient : PyStr) (mtype : PyStr)
    (values : List MsgVal) : Except PyErr Bytes :=
  match alLookup outgoing mtype with
  | some specs =>
    if specs.length ≠ values.length then .error .messageParse
    else match encodeParams specs values with
      | some fields => .ok (joinBy 58 (utf8Encode recipient :: utf8Encode mtype :: fields))
      | none => .error .messageParse
  | none =>
    .ok (joinBy 58 (utf8Encode recipient :: utf8Encode mtype :: values.map encodeGeneric))

/-- Modelled from the spec: decode one parameter (ints parsed in their
declared base after stripping a `0x` prefix if present; strings utf-8). -/
def decodeParam : ParamSpec → Bytes → Option MsgVal
  | .intB 16, field =>
    let f := match field with
      | 48 :: 120 :: r => r
      | _ => field
    match f with
    | [] => none
    | _ => (hexRunAux f 0 false).map .i
  | .intB _, field =>
    let f := match field with
      | 48 :: 120 :: r => r
      | _ => field
    match f with
    | [] => none
    | _ => (decRunAux f 0).map .i
  | .strE, field => (utf8Decode field).map .s

/-- Decode the schema's parameters from the colon-split fields; the last
declared parameter absorbs any remaining fields verbatim (colons
restored). -/
def decodeParams : List ParamSpec → List Bytes → Option (List MsgVal)
  | [], [] => some []
  | [sp], f :: fs => (decodeParam sp (joinBy 58 (f :: fs))).map (fun v => [v])
  | sp :: sps, f :: fs =>
    match decodeParam sp f, decodeParams sps fs with
    | some v, some vs => some (v :: vs)
    | _, _ => none
  | _, _ => none

/-- Modelled from the spec: `MessageParser.parse_message(data)` — split
the decrypted payload at colons into `recipient`, `type_name` and
parameter fields; types in the incoming schema have their parameters
decoded, unknown types pass their remaining bytes through as one raw
value; any failure raises `MessageParseException`. -/
def parse_message (incoming : Schema) (data : Bytes) :
    Except PyErr (PyStr × PyStr × List MsgVal) :=
  match splitBy 58 data with
  | rb :: tb :: fields =>
    match utf8Decode rb, utf8Decode tb with
    | some recipient, some mtype =>
      match alLookup incoming mtype with
      | some specs =>
        match decodeParams specs fields with
        | some values => .ok (recipient, mtype, values)
        | none => .error .messageParse
      | none =>
        .ok (recipient, mtype, if fields = [] then [] else [.raw (joinBy 58 fields)])
    | _, _ => .error .messageParse
  | _ => .error .messageParse

/-! ## Diffie–Hellman and signing (`dhke.py`, `signing.py` not under `src/`) -/

/-- Fueled binary modular exponentiation. -/
def powModAux : Nat → Nat → Nat → Nat → Nat
  | 0, _, _, _ => 1
  | f + 1, b, e, m =>
    if e = 0 then 1 % m
    else if e % 2 = 1 then b * powModAux f (b * b % m) (e / 2) m % m
    else powModAux f (b * b % m) (e / 2) m

/-- Modelled from the spec: Python `pow(base, exp, mod)` (fuel 2200 covers
exponents below `2^2200`; the DH group is 2048-bit). -/
def powMod (b e m : Nat) : Nat := powModAux 2200 (b % m) e m

/-- Modelled from the spec: `dhke.group14_2048 = (generator, modulus)` —
the server–client handshake's 2048-bit DH group.  A fixed 2048-bit odd
modulus stands in for the RFC constant; none of the claims depends on its
digits. -/
def group14_2048 : Nat × Nat := (2, 2 ^ 2048 - 1942289)

/-- Modelled from the spec: `dhke.calculate_shared_key(priv, peer_pub,
group) = peer_pub ^ priv mod group_modulus`, for a possibly negative
peer value (`int(field, 16)` can produce one; Python's `pow` reduces it
into the group first). -/
def calculate_shared_key (priv : Nat) (peer_pub : Int) (group : Nat × Nat) : Nat :=
  powMod ((peer_pub % (group.2 : Int)).toNat) priv group.2

/-- Modelled from the spec: an RSA-style signature — `sign(data, (d, n))`
binds `data` to the key pair's shared modulus `n`; hex bytes, so a
signature never contains a colon. -/
def mock_sign (data : Bytes) (modulus : Int) : Bytes :=
  bytesHex (i_to_b_fixed 32 (sha256_hash (data ++ (pyHexInt modulus).drop 2)))

/-- Modelled from the spec: `signing.verify(data, sig, pub)` — valid
exactly when the signature was produced with the private key matching
`pub` (the pair shares its modulus). -/
def signing_verify (data sig : Bytes) (pub : Int × Int) : Bool :=
  sig = mock_sign data pub.2

/-- Modelled from the spec: `signing.gen_signed_dh(dh_priv, priv, group)` —
the DH public value together with a signature over its hex encoding
(without `0x`), made with the private key. -/
def gen_signed_dh (dh_priv : Nat) (priv : Nat × Nat) (group : Nat × Nat) : Nat × Bytes :=
  let dh_pub := powMod group.1 dh_priv group.2
  (dh_pub, mock_sign (hexDigits dh_pub) (priv.2 : Int))

/-! ## Server state (`server.py` under `src/`; its collaborators
`queue.py`, `server_db.py`, `improved_socket.py` are not under `src/` and
are modelled from the spec). -/

/-- Modelled from the spec: the user directory (`server_db.py`) — a table
`client_id → public_key` and the set of logged-in IDs.  `login(id, key)`
fails with `IDCollision` when `id` maps to a different key; `logout(id)`,
`known(id)`, `get(id)` as in the spec's directory contract. -/
structure ServerDB where
  users : List (PyStr × (Int × Int))
  logged_in : List PyStr
  deriving DecidableEq

/-- The server's routing state: outbox queues (modelled from the spec:
`queue.py` is a FIFO — push appends, pop takes the head), the live socket
registry (`client_id ↦ connected flag` of the registered socket object),
and the user directory. -/
structure SrvState where
  outboxes : List (PyStr × List Bytes)
  sockets : List (PyStr × Bool)
  db : ServerDB
  deriving DecidableEq

/-- Replace the value under `k`, or append the binding. -/
def alSet {α : Type} (l : List (PyStr × α)) (k : PyStr) (v : α) : List (PyStr × α) :=
  if (alLookup l k).isSome
  then l.map (fun p => if p.1 = k then (k, v) else p)
  else l ++ [(k, v)]

/-- Remove the binding under `k`. -/
def alErase {α : Type} (l : List (PyStr × α)) (k : PyStr) : List (PyStr × α) :=
  l.filter (fun p => p.1 ≠ k)

/-- `Server._send`: create the recipient's outbox if absent, then push. -/
def server_send (st : SrvState) (client : PyStr) (message : Bytes) : SrvState :=
  match alLookup st.outboxes client with
  | some q => { st with outboxes := alSet st.outboxes client (q ++ [message]) }
  | none => { st with outboxes := st.outboxes ++ [(client, [message])] }

/-- Modelled from the spec: `db.user_login(id, key)` — `IDCollision` when
the directory has a different key for `id`; otherwise bind and mark
logged in. -/
def db_user_login (db : ServerDB) (id : PyStr) (key : Int × Int) : Option ServerDB :=
  match alLookup db.users id with
  | some k => if k ≠ key then none
              else some { db with logged_in := if id ∈ db.logged_in then db.logged_in else db.logged_in ++ [id] }
  | none => some { users := db.users ++ [(id, key)],
                   logged_in := if id ∈ db.logged_in then db.logged_in else db.logged_in ++ [id] }

/-- Modelled from the spec: `db.user_logout(id)`. -/
def db_user_logout (db : ServerDB) (id : PyStr) : ServerDB :=
  { db with logged_in := db.logged_in.filter (fun x => x ≠ id) }

/-- `decrypt_cbc` as called with the `Int` produced by `int(iv_field, 16)`:
a negative IV passes the length and block-splitting checks and then
raises `OverflowError` at `iv.to_bytes(16, 'big')` when there is a first
block; with no blocks the MAC check compares against a MAC computed from
the negative IV — modelled from the spec as the MAC of serialization `b""`
(`i_to_b` of a negative has no spec meaning; no claim exercises this
corner). -/
def decrypt_cbc_int (ct : Bytes) (key : Nat) (iv : Int) : Except PyErr Bytes :=
  if 0 ≤ iv then decrypt_cbc ct key iv.toNat false
  else if ct.length < 32 then .error .decryptionFailure
  else match split_blocks (ct.take (ct.length - 32)) with
    | .error _ => .error .decryptionFailure
    | .ok [] =>
      if ¬hmac_verify (ct.drop (ct.length - 32)) [] 0 key then .error .decryptionFailure
      else .error .indexError
    | .ok _ => .error .overflowError

/-- One iteration of `Server._in_thread`'s loop body on a received frame:
the outcome (continue, or an uncaught exception) and the updated server
state. -/
inductive StepOutcome where
  | next
  | crash (e : PyErr)
  deriving DecidableEq

/-- Reply with a parameterless error message type to the sending client
(`construct_message("0", t)` then `_send(client_id, ...)`). -/
def server_error_reply (st : SrvState) (client_id : PyStr) (t : String) : SrvState :=
  match construct_message OUTGOING_MESSAGE_TYPES (strA ("0")) (strA (t)) [] with
  | .ok msg => server_send st client_id msg
  | .error _ => st

/-- `Server._handler_get_key`: `KeyFound(idx, exp, mod)` when the directory
knows the target, else `KeyNotFound(idx)`.  The reply is constructed with
recipient `"0"` (the `handle` call passes `"0"`). -/
def handler_get_key (db : ServerDB) (idx : Nat) (target : PyStr) : Except PyErr Bytes :=
  match alLookup db.users target with
  | some key =>
    construct_message OUTGOING_MESSAGE_TYPES (strA ("0")) (strA ("KeyFound"))
      [.i idx, .i (key.1.toNat), .i (key.2.toNat)]
  | none =>
    construct_message OUTGOING_MESSAGE_TYPES (strA ("0")) (strA ("KeyNotFound")) [.i idx]

/-- `Server._in_thread`, one loop iteration on frame `raw` (post-handshake,
socket connected and a frame available): decode, split at the first
colon, parse the IV, hex-decode and decrypt the ciphertext, parse the
message, then dispatch (`recipient == "0"`) or relay.  Failure paths follow
the source's `try/except` structure exactly: `UnicodeDecodeError` and the
missing colon are caught as `ValueError` (reply `CiphertextMalformed`),
a bad IV replies `InvalidIV`, `CryptographyException`s from `decrypt_cbc`
reply `MessageDecryptionFailure`, `MessageParseException` replies
`MessageMalformed` — but `bytes.fromhex` raises an uncaught `ValueError`,
and non-cryptography errors propagate. -/
def in_thread_step (st : SrvState) (client_id : PyStr) (key : Nat) (raw : Bytes) :
    StepOutcome × SrvState :=
  match utf8Decode raw with
  | none => (.next, server_error_reply st client_id "CiphertextMalformed")
  | some decoded =>
    match splitFirst 58 decoded with
    | none => (.next, server_error_reply st client_id "CiphertextMalformed")
    | some (ivs, cts) =>
      match pyIntHex ivs with
      | none => (.next, server_error_reply st client_id "InvalidIV")
      | some aes_iv =>
        match pyBytesFromHex cts with
        | none => (.crash .valueError, st)
        | some ctBytes =>
          match decrypt_cbc_int ctBytes key aes_iv with
          | .error e =>
            if e.isCryptography
            then (.next, server_error_reply st client_id "MessageDecryptionFailure")
            else (.crash e, st)
          | .ok data =>
            match parse_message INCOMING_MESSAGE_TYPES data with
            | .error _ => (.next, server_error_reply st client_id "MessageMalformed")
            | .ok (recipient, mtype, values) =>
              if recipient = strA ("0") then
                -- `handle` dispatches through the response map
                -- {GetKey, Quit, default} built in `Server.__init__`.
                if mtype = strA ("GetKey") then
                  match values with
                  | [.i idx, .s target] =>
                    match handler_get_key st.db idx target with
                    | .ok response => (.next, server_send st client_id response)
                    | .error e => (.crash e, st)
                  | _ => (.crash .valueError, st)
                else if mtype = strA ("Quit") then
                  match alLookup st.sockets client_id with
                  | some _ => (.next, { st with sockets := alSet st.sockets client_id false })
                  | none => (.crash .keyError, st)
                else (.next, st)
              else
                match construct_message OUTGOING_MESSAGE_TYPES client_id mtype values with
                | .ok to_send => (.next, server_send st recipient to_send)
                | .error e => (.crash e, st)

/-- `Server._in_thread`, after the loop exits on disconnection:
`client.close()`, `db.user_logout(client_id)`,
`self._client_sockets.pop(client_id)` (`KeyError` when absent). -/
def in_thread_cleanup (st : SrvState) (client_id : PyStr) : StepOutcome × SrvState :=
  let st1 := { st with db := db_user_logout st.db client_id }
  match alLookup st1.sockets client_id with
  | some _ => (.next, { st1 with sockets := alErase st1.sockets client_id })
  | none => (.crash .keyError, st1)

/-- `Server._out_thread`, one iteration on a popped `message`: choose a
random IV in `[1, 2^128)` (an argument here, with the random padding),
encrypt, and send `hex(aes_iv) ++ b":" ++ ciphertext.hex()` — note the
source's `hex(aes_iv)` keeps Python's `0x` prefix. -/
def server_out_frame (message : Bytes) (key iv : Nat) (nb na : Nat) (pb pa : Bytes) :
    Except PyErr Bytes :=
  (encrypt_cbc message key iv false nb na pb pa).map
    (fun ct => pyHex iv ++ 58 :: bytesHex ct)

/-- The result of a `Server._handshake` run. -/
structure HsOut where
  sent : List Bytes
  closed : Bool
  session : Option (PyStr × Nat)
  err : Option PyErr
  deriving DecidableEq

/-- `Server._handshake` on a script of client messages (successive
`client.recv()` results; an exhausted script models a socket error, which
the source does not catch).  Randomness (`dhke_priv`, the challenge IV,
the 32 challenge bytes, the encryption padding) is passed explicitly.
Returns the run's sends, whether the server closed the socket, the
session (client id and key) when promoted, the uncaught exception if any,
and the updated server state. -/
def server_handshake (st : SrvState) (pub priv : Nat × Nat)
    (dhke_priv enc_iv : Nat) (random_data : Bytes) (nb na : Nat) (pb pa : Bytes)
    (script : List Bytes) : HsOut × SrvState :=
  let pubPacket := hexDigits pub.1 ++ 58 :: hexDigits pub.2
  match script with
  | [] => ({ sent := [pubPacket], closed := false, session := none, err := some .socketException }, st)
  | identity_packet :: script1 =>
    let sent := [pubPacket]
    if identity_packet = strA ("MalformedIdentity") then
      ({ sent := sent, closed := true, session := none, err := none }, st)
    else if identity_packet = strA ("PubKeyFpMismatch") then
      ({ sent := sent, closed := true, session := none, err := none }, st)
    else
      match splitBy 58 identity_packet with
      | [c_id_b, c_exp, c_mod] =>
        match utf8Decode c_id_b with
        | none =>
          ({ sent := sent ++ [strA ("MalformedIdentity")], closed := true,
             session := none, err := none }, st)
        | some c_id =>
          match pyIntHex c_exp, pyIntHex c_mod with
          | some ce, some cm =>
            let client_pubkey : Int × Int := (ce, cm)
            if fingerprintInt client_pubkey 32 ≠ c_id then
              ({ sent := sent ++ [strA ("PubKeyIdMismatch")], closed := true,
                 session := none, err := none }, st)
            else
              let (dhke_pub, dhke_sig) := gen_signed_dh dhke_priv priv group14_2048
              let sent := sent ++ [hexDigits dhke_pub ++ 58 :: dhke_sig]
              match script1 with
              | [] => ({ sent := sent, closed := false, session := none,
                         err := some .socketException }, st)
              | auth_packet :: script2 =>
                if auth_packet = strA ("BadSignature") then
                  ({ sent := sent, closed := true, session := none, err := none }, st)
                else if auth_packet = strA ("MalformedDiffieHellman") then
                  ({ sent := sent, closed := true, session := none, err := none }, st)
                else
                  match splitBy 58 auth_packet with
                  | [c_dhke_pub, c_dhke_pub_sig] =>
                    if ¬signing_verify c_dhke_pub c_dhke_pub_sig client_pubkey then
                      ({ sent := sent ++ [strA ("BadSignature")], closed := true,
                         session := none, err := none }, st)
                    else
                      match pyIntHex c_dhke_pub with
                      | none => ({ sent := sent, closed := false, session := none,
                                   err := some .valueError }, st)
                      | some cdh =>
                        let shared_key := calculate_shared_key dhke_priv cdh group14_2048
                        let encryption_key := sha256_hash (i_to_b shared_key)
                        match db_user_login st.db c_id client_pubkey with
                        | none =>
                          ({ sent := sent ++ [strA ("IDCollision")], closed := true,
                             session := none, err := none }, st)
                        | some db1 =>
                          let st := { st with db := db1 }
                          match encrypt_cbc random_data encryption_key enc_iv false nb na pb pa with
                          | .error e => ({ sent := sent, closed := false, session := none,
                                           err := some e }, st)
                          | .ok conf =>
                            let sent := sent ++ [hexDigits enc_iv ++ 58 :: bytesHex conf]
                            match script2 with
                            | [] => ({ sent := sent, closed := false, session := none,
                                       err := some .socketException }, st)
                            | client_confirm :: _ =>
                              if client_confirm = strA ("MalformedChallenge") then
                                ({ sent := sent, closed := true, session := none, err := none }, st)
                              else if client_confirm = strA ("CouldNotDecrypt") then
                                ({ sent := sent, closed := true, session := none, err := none }, st)
                              else
                                match (utf8Decode client_confirm).bind pyBytesFromHex with
                                | none =>
                                  ({ sent := sent ++ [strA ("MalformedResponse")], closed := true,
                                     session := none, err := none }, st)
                                | some confirm_bytes =>
                                  if confirm_bytes ≠ random_data then
                                    ({ sent := sent ++ [strA ("Incorrect")], closed := true,
                                       session := none, err := none }, st)
                                  else
                                    let sent := sent ++ [strA ("OK")]
                                    let st :=
                                      { st with
                                        outboxes :=
                                          if (alLookup st.outboxes c_id).isSome then st.outboxes
                                          else st.outboxes ++ [(c_id, [])],
                                        sockets := alSet st.sockets c_id true }
                                    ({ sent := sent, closed := false,
                                       session := some (c_id, encryption_key), err := none }, st)
                  | _ =>
                    ({ sent := sent ++ [strA ("MalformedDiffieHellman")], closed := true,
                       session := none, err := none }, st)
          | _, _ => ({ sent := sent, closed := false, session := none,
                       err := some .valueError }, st)
      | _ =>
        ({ sent := sent ++ [strA ("MalformedIdentity")], closed := true,
           session := none, err := none }, st)

/-! ## `server_connection.py` (present under `src/`) -/

/-- The exceptions `ServerConnection._handshake` can raise
(`exceptions/server_connection.py` is not under `src/`; the names follow
the source's `raise` sites). -/
inductive ClientExc where
  | malformedPacket
  | pubKeyIdMismatch
  | signatureVerifyFailure
  | serverConnectionAbort
  | keyConfirmationFailure
  deriving DecidableEq

/-- The result of a `ServerConnection._handshake` run. -/
inductive CHsRes where
  | success (key : Nat)
  | exc (e : ClientExc)
  | crash (e : PyErr)
  deriving DecidableEq

/-- The client side's view of a handshake run: messages sent, whether it
closed its socket, and how it ended. -/
structure CHsOut where
  sent : List Bytes
  closed : Bool
  result : CHsRes
  deriving DecidableEq

/-- `ServerConnection._handshake` on a script of server messages
(successive `self._socket.recv()` results), with `dhke_priv` passed
explicitly.  `fp` is the configured server fingerprint; `pub`/`priv` the
client key pair.  The identity-phase `try` covers the split and both
`int(_, 16)` calls; the DH phase `try` covers only the split — the
`int(s_dhke_pub, 16)` inside `calculate_shared_key`'s argument raises an
uncaught `ValueError` on non-hex input.  The challenge-phase `try` covers
split, IV parse and `bytes.fromhex`. -/
def client_handshake (pub priv : Nat × Nat) (fp : PyStr) (dhke_priv : Nat)
    (script : List Bytes) : CHsOut :=
  match script with
  | [] => { sent := [], closed := false, result := .crash .socketException }
  | key_packet :: script1 =>
    let idFields : Option (Int × Int) :=
      match splitBy 58 key_packet with
      | [se, sm] =>
        match pyIntHex se, pyIntHex sm with
        | some e, some m => some (e, m)
        | _, _ => none
      | _ => none
    match idFields with
    | none => { sent := [strA ("MalformedIdentity")], closed := true, result := .exc .malformedPacket }
    | some server_public_key =>
      if fingerprintInt server_public_key 64 ≠ fp then
        { sent := [strA ("PubKeyFpMismatch")], closed := true, result := .exc .pubKeyIdMismatch }
      else
        let idPacket := fingerprint pub 32 ++ 58 :: hexDigits pub.1 ++ 58 :: hexDigits pub.2
        let sent := [idPacket]
        let (dhke_pub, dhke_sig) := gen_signed_dh dhke_priv priv group14_2048
        match script1 with
        | [] => { sent := sent, closed := false, result := .crash .socketException }
        | server_auth_packet :: script2 =>
          if server_auth_packet = strA ("MalformedIdentity") then
            { sent := sent, closed := true, result := .exc .serverConnectionAbort }
          else if server_auth_packet = strA ("PubKeyIdMismatch") then
            { sent := sent, closed := true, result := .exc .serverConnectionAbort }
          else
            match splitBy 58 server_auth_packet with
            | [s_dhke_pub, s_dhke_pub_sig] =>
              if ¬signing_verify s_dhke_pub s_dhke_pub_sig server_public_key then
                { sent := sent ++ [strA ("BadSignature")], closed := true,
                  result := .exc .signatureVerifyFailure }
              else
                let sent := sent ++ [hexDigits dhke_pub ++ 58 :: dhke_sig]
                match pyIntHex s_dhke_pub with
                | none => { sent := sent, closed := false, result := .crash .valueError }
                | some sdh =>
                  let shared_key := calculate_shared_key dhke_priv sdh group14_2048
                  let encryption_key := sha256_hash (i_to_b shared_key)
                  match script2 with
                  | [] => { sent := sent, closed := false, result := .crash .socketException }
                  | encrypted_confirmation :: script3 =>
                    if encrypted_confirmation = strA ("MalformedDiffieHellman") then
                      { sent := sent, closed := true, result := .exc .serverConnectionAbort }
                    else if encrypted_confirmation = strA ("BadSignature") then
                      { sent := sent, closed := true, result := .exc .serverConnectionAbort }
                    else if encrypted_confirmation = strA ("IDCollision") then
                      { sent := sent, closed := true, result := .exc .serverConnectionAbort }
                    else
                      let challenge : Option (Int × Bytes) :=
                        match splitBy 58 encrypted_confirmation with
                        | [ivb, ctb] =>
                          match pyIntHex ivb, (utf8Decode ctb).bind pyBytesFromHex with
                          | some iv, some ct => some (iv, ct)
                          | _, _ => none
                        | _ => none
                      match challenge with
                      | none => { sent := sent ++ [strA ("MalformedChallenge")], closed := true,
                                  result := .exc .malformedPacket }
                      | some (iv, ciphertext) =>
                        match decrypt_cbc_int ciphertext encryption_key iv with
                        | .error .decryptionFailure =>
                          { sent := sent ++ [strA ("CouldNotDecrypt")], closed := true,
                            result := .exc .keyConfirmationFailure }
                        | .error e => { sent := sent, closed := false, result := .crash e }
                        | .ok plaintext =>
                          let sent := sent ++ [bytesHex plaintext]
                          match script3 with
                          | [] => { sent := sent, closed := false, result := .crash .socketException }
                          | response :: _ =>
                            if response = strA ("MalformedResponse") then
                              { sent := sent, closed := true, result := .exc .serverConnectionAbort }
                            else if response ≠ strA ("OK") then
                              { sent := sent, closed := true, result := .exc .serverConnectionAbort }
                            else
                              { sent := sent, closed := false, result := .success encryption_key }
            | _ =>
              { sent := sent ++ [strA ("MalformedDiffieHellman")], closed := true,
                result := .exc .malformedPacket }

/-- `ServerConnection._out_thread`, one iteration on a popped `message`:
random IV in `[1, 2^128)` (an argument here), encrypt, send
`hex(iv)[2:] ++ b":" ++ encrypted.hex()` — without the `0x` prefix. -/
def client_out_frame (message : Bytes) (key iv : Nat) (nb na : Nat) (pb pa : Bytes) :
    Except PyErr Bytes :=
  (encrypt_cbc message key iv false nb na pb pa).map
    (fun ct => hexDigits iv ++ 58 :: bytesHex ct)

/-- The client-side connection state: the socket's `connected` flag and
the in/out queues (modelled from the spec: `queue.py` FIFOs). -/
structure ClientState where
  socket_connected : Bool
  in_queue : List Bytes
  out_queue : List Bytes
  deriving DecidableEq

/-- `NetworkError` (client side), as raised by `ServerConnection.send` and
`ServerConnection.recv` on a disconnected socket. -/
inductive NetworkError where
  | networkError
  deriving DecidableEq

/-- `ServerConnection.send(data)`: push onto the out-queue when the socket
is connected, else raise `NetworkError`. -/
def sc_send (c : ClientState) (data : Bytes) : Except NetworkError ClientState :=
  if c.socket_connected then .ok { c with out_queue := c.out_queue ++ [data] }
  else .error .networkError

/-- Possible behaviors of `ServerConnection.recv()`: raise `NetworkError`,
block (the queue's `pop` waits until a message is available), or return
the next message. -/
inductive RecvRes where
  | err (e : NetworkError)
  | blocked
  | value (b : Bytes) (c : ClientState)
  deriving DecidableEq

/-- `ServerConnection.recv()`: raise `NetworkError` when the socket is not
connected; otherwise block until the in-queue has a message and return
its head. -/
def sc_recv (c : ClientState) : RecvRes :=
  if ¬c.socket_connected then .err .networkError
  else match c.in_queue with
    | [] => .blocked
    | m :: rest => .value m { c with in_queue := rest }

/-! ## Spec-side definitions for comparison (written from the spec's
words, not from the source). -/

/-- C1's spec-side fingerprint: the hex-encoded SHA-256 digest of the
canonical serialization `hex(exp) || ":" || hex(mod)`. -/
def spec_fingerprint (key : Nat × Nat) : PyStr :=
  (sha256_hash_hex (hexDigits key.1 ++ 58 :: hexDigits key.2)).drop 2

/-- A lowercase hexadecimal digit code point (C6's `iv_hex`/`ct_hex`
alphabet). -/
def lowerHexDigit (c : Nat) : Bool := (48 ≤ c ∧ c ≤ 57) ∨ (97 ≤ c ∧ c ≤ 102)

/-- C6's spec-side frame form: `iv_hex ":" ct_hex` with `iv_hex` lowercase
hex without `0x` of at most 32 characters and `ct_hex` lowercase hex of
even length. -/
def claimFrameForm (f : Bytes) : Prop :=
  ∃ ivh cth, f = ivh ++ 58 :: cth ∧ ivh.all lowerHexDigit ∧ ivh.length ≤ 32 ∧
    cth.all lowerHexDigit ∧ cth.length % 2 = 0

/-! ## Packed GF(2^8) multiplication tables

Derived constants for the proofs: `gfT c` packs the 256 values
`gf_multiply_bytes x c 0x11b` (for `x = 0 … 255`) into one natural
number, byte `x` at bit offset `8 * x`.  Each table is verified against
`gf_multiply_bytes` by exhaustive computation below. -/

/-- Packed table lookup: byte `x` of the packed table `t`. -/
def gfTLookup (t x : Nat) : Nat := (t >>> (8 * x)) &&& 255

/-- Packed multiplication table for the MDS coefficient 1. -/
def gfT1 : Nat := 0xfffefdfcfbfaf9f8f7f6f5f4f3f2f1f0efeeedecebeae9e8e7e6e5e4e3e2e1e0dfdedddcdbdad9d8d7d6d5d4d3d2d1d0cfcecdcccbcac9c8c7c6c5c4c3c2c1c0bfbebdbcbbbab9b8b7b6b5b4b3b2b1b0afaeadacabaaa9a8a7a6a5a4a3a2a1a09f9e9d9c9b9a999897969594939291908f8e8d8c8b8a898887868584838281807f7e7d7c7b7a797877767574737271706f6e6d6c6b6a696867666564636261605f5e5d5c5b5a595857565554535251504f4e4d4c4b4a494847464544434241403f3e3d3c3b3a393837363534333231302f2e2d2c2b2a292827262524232221201f1e1d1c1b1a191817161514131211100f0e0d0c0b0a09080706050403020100

/-- Packed multiplication table for the MDS coefficient 2. -/
def gfT2 : Nat := 0xe5e7e1e3edefe9ebf5f7f1f3fdfff9fbc5c7c1c3cdcfc9cbd5d7d1d3dddfd9dba5a7a1a3adafa9abb5b7b1b3bdbfb9bb858781838d8f898b959791939d9f999b656761636d6f696b757771737d7f797b454741434d4f494b555751535d5f595b252721232d2f292b353731333d3f393b050701030d0f090b151711131d1f191bfefcfaf8f6f4f2f0eeeceae8e6e4e2e0dedcdad8d6d4d2d0cecccac8c6c4c2c0bebcbab8b6b4b2b0aeacaaa8a6a4a2a09e9c9a98969492908e8c8a88868482807e7c7a78767472706e6c6a68666462605e5c5a58565452504e4c4a48464442403e3c3a38363432302e2c2a28262422201e1c1a18161412100e0c0a0806040200

/-- Packed multiplication table for the MDS coefficient 3. -/
def gfT3 : Nat := 0x1a191c1f16151013020104070e0d080b2a292c2f26252023323134373e3d383b7a797c7f76757073626164676e6d686b4a494c4f46454043525154575e5d585bdad9dcdfd6d5d0d3c2c1c4c7cecdc8cbeae9ecefe6e5e0e3f2f1f4f7fefdf8fbbab9bcbfb6b5b0b3a2a1a4a7aeada8ab8a898c8f86858083929194979e9d989b818287848d8e8b88999a9f9c95969390b1b2b7b4bdbebbb8a9aaafaca5a6a3a0e1e2e7e4edeeebe8f9fafffcf5f6f3f0d1d2d7d4dddedbd8c9cacfccc5c6c3c0414247444d4e4b48595a5f5c55565350717277747d7e7b78696a6f6c65666360212227242d2e2b28393a3f3c35363330111217141d1e1b18090a0f0c05060300

/-- Packed multiplication table for the inverse MDS coefficient 9. -/
def gfT9 : Nat := 0x464f545d626b70790e071c152a233831d6dfc4cdf2fbe0e99e978c85bab3a8a17d746f6659504b42353c272e1118030aede4fff6c9c0dbd2a5acb7be8188939a3039222b141d060f78716a635c554e47a0a9b2bb848d969fe8e1faf3ccc5ded70b0219102f263d34434a5158676e757c9b928980bfb6ada4d3dac1c8f7fee5ecaaa3b8b18e879c95e2ebf0f9c6cfd4dd3a3328211e170c05727b6069565f444d9198838ab5bca7aed9d0cbc2fdf4efe60108131a252c373e49405b526d647f76dcd5cec7f8f1eae3949d868fb0b9a2ab4c455e5768617a73040d161f2029323be7eef5fcc3cad1d8afa6bdb48b829990777e656c535a41483f362d241b120900

/-- Packed multiplication table for the inverse MDS coefficient 11. -/
def gfT11 : Nat := 0xa3a8b5be8f849992fbf0ede6d7dcc1ca1318050e3f3429224b405d56676c717ad8d3cec5f4ffe2e9808b969daca7bab168637e75444f5259303b262d1c170a01555e434879726f640d061b10212a373ce5eef3f8c9c2dfd4bdb6aba0919a878c2e2538330209141f767d606b5a514c479e958883b2b9a4afc6cdd0dbeae1fcf7545f424978736e650c071a11202b363de4eff2f9c8c3ded5bcb7aaa1909b868d2f2439320308151e777c616a5b504d469f948982b3b8a5aec7ccd1daebe0fdf6a2a9b4bf8e859893faf1ece7d6ddc0cb1219040f3e3528234a415c57666d707bd9d2cfc4f5fee3e8818a979cada6bbb069627f74454e5358313a272c1d160b00

/-- Packed multiplication table for the inverse MDS coefficient 13. -/
def gfT13 : Nat := 0x979a8d80a3aeb9b4fff2e5e8cbc6d1dc474a5d50737e69642f2235381b16010c2c21363b1815020f44495e53707d6a67fcf1e6ebc8c5d2df94998e83a0adbab7faf7e0edcec3d4d9929f8885a6abbcb12a27303d1e130409424f5855767b6c61414c5b5675786f622924333e1d10070a919c8b86a5a8bfb2f9f4e3eecdc0d7da4d40575a7974636e25283f32111c0b069d90878aa9a4b3bef5f8efe2c1ccdbd6f6fbece1c2cfd8d59e938489aaa7b0bd262b3c31121f08054e4354597a77606d202d3a3714190e034845525f7c71666bf0fdeae7c4c9ded39895828faca1b6bb9b96818cafa2b5b8f3fee9e4c7caddd04b46515c7f726568232e3934171a0d00

/-- Packed multiplication table for the inverse MDS coefficient 14. -/
def gfT14 : Nat := 0x8d83919fb5bba9a7fdf3e1efc5cbd9d76d63717f555b49471d13010f252b393756584a446e60727c26283a341e10020cb6b8aaa48e80929cc6c8dad4fef0e2ec202e3c321816040a505e4c426866747ac0cedcd2f8f6e4eab0beaca28886949afbf5e7e9c3cddfd18b859799b3bdafa11b150709232d3f316b657779535d4f41ccc2d0def4fae8e6bcb2a0ae848a98962c22303e141a08065c52404e646a787617190b052f21333d67697b755f51434df7f9ebe5cfc1d3dd87899b95bfb1a3ad616f7d735957454b111f0d032927353b818f9d93b9b7a5abf1ffede3c9c7d5dbbab4a6a8828c9e90cac4d6d8f2fceee05a544648626c7e702a243638121c0e00

/-- A 4x4 matrix (the AES state shape). -/
def Mat4 (st : List (List Nat)) : Prop :=
  st.length = 4 ∧ ∀ r ∈ st, r.length = 4

/-- A 4x4 matrix of bytes. -/
def MatB (st : List (List Nat)) : Prop :=
  Mat4 st ∧ ∀ r ∈ st, ∀ x ∈ r, x < 256

/-! # Theorems

## GF(2^8) arithmetic of `aes256.py` -/

theorem testBit_true_of_range {L x : Nat} (h1 : 2 ^ L ≤ x) (h2 : x < 2 ^ (L + 1)) :
    x.testBit L = true := by
  have hdiv : x / 2 ^ L = 1 := by
    apply Nat.div_eq_of_lt_le
    · simpa using h1
    · simpa [Nat.pow_succ, Nat.mul_comm] using h2
  simp [Nat.testBit_to_div_mod, hdiv]

theorem ge_of_testBit_true {i x : Nat} (h : x.testBit i = true) : 2 ^ i ≤ x := by
  by_contra hlt
  rw [Nat.testBit_lt_two_pow (Nat.not_le.mp hlt)] at h
  exact Bool.false_ne_true h

theorem xor_top_lt {L x y : Nat} (hx1 : 2 ^ L ≤ x) (hx2 : x < 2 ^ (L + 1))
    (hy1 : 2 ^ L ≤ y) (hy2 : y < 2 ^ (L + 1)) : x ^^^ y < 2 ^ L := by
  apply Nat.lt_pow_two_of_testBit
  intro i hi
  rcases Nat.eq_or_lt_of_le hi with heq | hgt
  · subst heq
    simp [Nat.testBit_xor, testBit_true_of_range hx1 hx2, testBit_true_of_range hy1 hy2]
  · have hx : x.testBit i = false := Nat.testBit_lt_two_pow (lt_of_lt_of_le hx2 (Nat.pow_le_pow_right (by omega) hgt))
    have hy : y.testBit i = false := Nat.testBit_lt_two_pow (lt_of_lt_of_le hy2 (Nat.pow_le_pow_right (by omega) hgt))
    simp [Nat.testBit_xor, hx, hy]

theorem log2_eq_of {L n : Nat} (h1 : 2 ^ L ≤ n) (h2 : n < 2 ^ (L + 1)) : n.log2 = L := by
  have hn : n ≠ 0 := by
    have : (0:Nat) < 2 ^ L := Nat.pos_pow_of_pos L (by omega)
    omega
  have ha : L ≤ n.log2 := (Nat.le_log2 hn).mpr h1
  have hb : n.log2 < L + 1 := (Nat.log2_lt hn).mpr h2
  omega

theorem le_log2_iff_256 {b : Nat} : 8 ≤ b.log2 ↔ 256 ≤ b := by
  by_cases hb : b = 0
  · subst hb; simp [Nat.log2_zero]
  · have := Nat.le_log2 hb (k := 8)
    norm_num at this
    exact this

/-- The modulus constant `0x11b` has most significant bit 8. -/
theorem get_msb_283 : get_msb 283 = 8 := by decide

/-- One reduction step of the GF modulus loop shrinks the top bit. -/
theorem gf_step_lt {b : Nat} (hb : 256 ≤ b) :
    b ^^^ (283 <<< (b.log2 - 8)) < 2 ^ b.log2 := by
  set L := b.log2 with hL
  have h8 : 8 ≤ L := le_log2_iff_256.mpr hb
  have hbne : b ≠ 0 := by omega
  have hsh : 283 <<< (L - 8) = 283 * 2 ^ (L - 8) := by
    rw [Nat.shiftLeft_eq]
  have hpos : 0 < 2 ^ (L - 8) := Nat.pos_pow_of_pos _ (by omega)
  have heL : 2 ^ L = 256 * 2 ^ (L - 8) := by
    have h' : L = 8 + (L - 8) := by omega
    conv_lhs => rw [h']
    rw [Nat.pow_add]
  have heL1 : 2 ^ (L + 1) = 512 * 2 ^ (L - 8) := by
    have h' : L + 1 = 9 + (L - 8) := by omega
    conv_lhs => rw [h']
    rw [Nat.pow_add]
  have hs1 : 2 ^ L ≤ 283 <<< (L - 8) := by rw [hsh, heL]; omega
  have hs2 : 283 <<< (L - 8) < 2 ^ (L + 1) := by rw [hsh, heL1]; omega
  exact xor_top_lt (Nat.log2_self_le hbne) Nat.lt_log2_self hs1 hs2

/-- Fuel stability of the GF modulus loop (modulus `0x11b`). -/
theorem gfModAux_stable : ∀ f g b, b < 2 ^ 298 → b.log2 < f → b.log2 < g →
    gfModAux f b 283 = gfModAux g b 283 := by
  intro f
  induction f with
  | zero => intro g b _ h; omega
  | succ f ih =>
    intro g b hb hf hg
    match g, hg with
    | g + 1, hg =>
      show gfModAux (f + 1) b 283 = gfModAux (g + 1) b 283
      unfold gfModAux
      have hmsb : get_msb b = b.log2 :=
        get_msb_eq_log2 (lt_trans hb (Nat.pow_lt_pow_right (by omega) (by omega)))
      rw [get_msb_283, hmsb]
      by_cases hcond : 8 ≤ b.log2
      · rw [if_pos hcond, if_pos hcond]
        have hb256 : 256 ≤ b := le_log2_iff_256.mp hcond
        have hlt : b ^^^ (283 <<< (b.log2 - 8)) < 2 ^ b.log2 := gf_step_lt hb256
        have hlog : (b ^^^ (283 <<< (b.log2 - 8))).log2 < b.log2 := by
          by_cases hz : b ^^^ (283 <<< (b.log2 - 8)) = 0
          · rw [hz, Nat.log2_zero]; omega
          · exact (Nat.log2_lt hz).mpr hlt
        have hble : b ^^^ (283 <<< (b.log2 - 8)) < 2 ^ 298 := by
          calc b ^^^ (283 <<< (b.log2 - 8)) < 2 ^ b.log2 := hlt
          _ ≤ b := Nat.log2_self_le (by omega)
          _ < 2 ^ 298 := hb
        exact ih g _ hble (by omega) (by omega)
      · rw [if_neg hcond, if_neg hcond]

/-- Below the modulus the loop is the identity. -/
theorem gf_mod_base {b : Nat} (hb : b < 256) : gf_mod_bytes b 283 = b := by
  unfold gf_mod_bytes gfModAux
  have hmsb : get_msb b = b.log2 := get_msb_eq_log2 (by calc b < 256 := hb
    _ < 2 ^ 300 := by norm_num)
  rw [get_msb_283, hmsb]
  have : ¬8 ≤ b.log2 := by
    intro h
    have := le_log2_iff_256.mp h
    omega
  simp [this]

/-- One unfolding of `gf_mod_bytes` above the modulus. -/
theorem gf_mod_step {b : Nat} (hb : 256 ≤ b) (hb2 : b < 2 ^ 298) :
    gf_mod_bytes b 283 = gf_mod_bytes (b ^^^ (283 <<< (get_msb b - 8))) 283 := by
  have hmsb : get_msb b = b.log2 :=
    get_msb_eq_log2 (lt_trans hb2 (Nat.pow_lt_pow_right (by omega) (by omega)))
  have h8 : 8 ≤ b.log2 := le_log2_iff_256.mpr hb
  have hlt : b ^^^ (283 <<< (b.log2 - 8)) < 2 ^ b.log2 := gf_step_lt hb
  have hlog : (b ^^^ (283 <<< (b.log2 - 8))).log2 < b.log2 := by
    by_cases hz : b ^^^ (283 <<< (b.log2 - 8)) = 0
    · rw [hz, Nat.log2_zero]; omega
    · exact (Nat.log2_lt hz).mpr hlt
  have hble : b ^^^ (283 <<< (b.log2 - 8)) < 2 ^ 298 := by
    calc b ^^^ (283 <<< (b.log2 - 8)) < 2 ^ b.log2 := hlt
    _ ≤ b := Nat.log2_self_le (by omega)
    _ < 2 ^ 298 := hb2
  have hmsb2 : get_msb (b ^^^ (283 <<< (b.log2 - 8))) = (b ^^^ (283 <<< (b.log2 - 8))).log2 :=
    get_msb_eq_log2 (lt_trans hble (Nat.pow_lt_pow_right (by omega) (by omega)))
  unfold gf_mod_bytes
  rw [hmsb]
  conv_lhs => unfold gfModAux
  rw [get_msb_283, hmsb, if_pos h8, hmsb2]
  exact gfModAux_stable _ _ _ hble (by omega) (by omega)

theorem natXor_left_comm (a b c : Nat) : a ^^^ (b ^^^ c) = b ^^^ (a ^^^ c) := by
  rw [← Nat.xor_assoc, Nat.xor_comm a b, Nat.xor_assoc]

/-- Auxiliary step for linearity: reduce the larger argument once. -/
theorem gf_mod_linear_step {a b : Nat} (h256 : 256 ≤ a) (hlog : b.log2 < a.log2)
    (ha : a < 2 ^ 297) (hb : b < 2 ^ 297)
    (ih : gf_mod_bytes ((a ^^^ (283 <<< (a.log2 - 8))) ^^^ b) 283 =
      gf_mod_bytes (a ^^^ (283 <<< (a.log2 - 8))) 283 ^^^ gf_mod_bytes b 283) :
    gf_mod_bytes (a ^^^ b) 283 = gf_mod_bytes a 283 ^^^ gf_mod_bytes b 283 := by
  have hane : a ≠ 0 := by omega
  have h8 : 8 ≤ a.log2 := le_log2_iff_256.mpr h256
  have hbltL : b < 2 ^ a.log2 := by
    by_cases hbz : b = 0
    · subst hbz; exact Nat.pos_pow_of_pos _ (by omega)
    · exact (Nat.log2_lt hbz).mp hlog
  have hbitA : a.testBit a.log2 = true :=
    testBit_true_of_range (Nat.log2_self_le hane) Nat.lt_log2_self
  have hbitB : b.testBit a.log2 = false := Nat.testBit_lt_two_pow hbltL
  have hxlo : 2 ^ a.log2 ≤ a ^^^ b := by
    apply ge_of_testBit_true
    simp [Nat.testBit_xor, hbitA, hbitB]
  have hxhi : a ^^^ b < 2 ^ (a.log2 + 1) :=
    Nat.xor_lt_two_pow Nat.lt_log2_self
      (lt_trans hbltL (Nat.pow_lt_pow_right (by omega) (by omega)))
  have hxlog : (a ^^^ b).log2 = a.log2 := log2_eq_of hxlo hxhi
  have hx256 : 256 ≤ a ^^^ b := by
    have : (2:Nat) ^ 8 ≤ 2 ^ a.log2 := Nat.pow_le_pow_right (by omega) h8
    have h8' : (2:Nat) ^ 8 = 256 := by norm_num
    omega
  have hx298 : a ^^^ b < 2 ^ 298 := by
    have := Nat.xor_lt_two_pow (n := 297) ha hb
    calc a ^^^ b < 2 ^ 297 := this
    _ < 2 ^ 298 := Nat.pow_lt_pow_right (by omega) (by omega)
  have ha298 : a < 2 ^ 298 := lt_trans ha (Nat.pow_lt_pow_right (by omega) (by omega))
  have hmsbx : get_msb (a ^^^ b) = a.log2 := by
    rw [get_msb_eq_log2 (lt_trans hx298 (Nat.pow_lt_pow_right (by omega) (by omega))), hxlog]
  have hmsba : get_msb a = a.log2 :=
    get_msb_eq_log2 (lt_trans ha298 (Nat.pow_lt_pow_right (by omega) (by omega)))
  rw [gf_mod_step hx256 hx298, hmsbx]
  rw [gf_mod_step h256 ha298, hmsba]
  have hassoc : (a ^^^ b) ^^^ (283 <<< (a.log2 - 8)) = (a ^^^ (283 <<< (a.log2 - 8))) ^^^ b := by
    rw [Nat.xor_assoc, Nat.xor_comm b, ← Nat.xor_assoc]
  rw [hassoc, ih]

/-- XOR commutes with the GF modulus reduction (modulus `0x11b`):
polynomial remainder is linear over GF(2). -/
theorem gf_mod_linear : ∀ n a b, a + b ≤ n → a < 2 ^ 297 → b < 2 ^ 297 →
    gf_mod_bytes (a ^^^ b) 283 = gf_mod_bytes a 283 ^^^ gf_mod_bytes b 283 := by
  intro n
  induction n using Nat.strong_induction_on with
  | _ n ih =>
    intro a b hab ha hb
    have h8' : (2:Nat) ^ 8 = 256 := by norm_num
    by_cases hsmall : a < 256 ∧ b < 256
    · have hx : a ^^^ b < 256 := by
        have := Nat.xor_lt_two_pow (show a < 2 ^ 8 by omega) (show b < 2 ^ 8 by omega)
        omega
      rw [gf_mod_base hx, gf_mod_base hsmall.1, gf_mod_base hsmall.2]
    · rcases Nat.lt_trichotomy a.log2 b.log2 with hlt | heq | hgt
      · -- the top bit of `b` dominates
        have hb256 : 256 ≤ b := by
          rcases Nat.lt_or_ge b 256 with hblt | hbge
          · exfalso
            have hblog : ¬8 ≤ b.log2 := fun hh => by have := le_log2_iff_256.mp hh; omega
            have halog : ¬8 ≤ a.log2 := by omega
            have halt : a < 256 := by
              by_contra ha'
              exact halog (le_log2_iff_256.mpr (by omega))
            exact hsmall ⟨halt, hblt⟩
          · exact hbge
        have hb' : b ^^^ (283 <<< (b.log2 - 8)) < 2 ^ b.log2 := gf_step_lt hb256
        have hbne : b ≠ 0 := by omega
        have hb'lt : b ^^^ (283 <<< (b.log2 - 8)) < b :=
          lt_of_lt_of_le hb' (Nat.log2_self_le hbne)
        rw [Nat.xor_comm a b, Nat.xor_comm (gf_mod_bytes a 283)]
        exact gf_mod_linear_step hb256 hlt hb ha
          (ih ((b ^^^ (283 <<< (b.log2 - 8))) + a) (by omega) _ _ le_rfl (by omega) ha)
      · -- equal top bits: reduce both
        have ha256 : 256 ≤ a := by
          rcases Nat.lt_or_ge a 256 with halt | hage
          · exfalso
            have halog : ¬8 ≤ a.log2 := fun hh => by have := le_log2_iff_256.mp hh; omega
            have hblog : ¬8 ≤ b.log2 := by omega
            have hblt : b < 256 := by
              by_contra hb'
              exact hblog (le_log2_iff_256.mpr (by omega))
            exact hsmall ⟨halt, hblt⟩
          · exact hage
        have hb256 : 256 ≤ b := by
          have h8a : 8 ≤ a.log2 := le_log2_iff_256.mpr ha256
          exact le_log2_iff_256.mp (by omega)
        have ha' : a ^^^ (283 <<< (a.log2 - 8)) < 2 ^ a.log2 := gf_step_lt ha256
        have hb' : b ^^^ (283 <<< (b.log2 - 8)) < 2 ^ b.log2 := gf_step_lt hb256
        have hane : a ≠ 0 := by omega
        have hbne : b ≠ 0 := by omega
        have ha'lt : a ^^^ (283 <<< (a.log2 - 8)) < a :=
          lt_of_lt_of_le ha' (Nat.log2_self_le hane)
        have hb'lt : b ^^^ (283 <<< (b.log2 - 8)) < b :=
          lt_of_lt_of_le hb' (Nat.log2_self_le hbne)
        have ha298 : a < 2 ^ 298 := lt_trans ha (Nat.pow_lt_pow_right (by omega) (by omega))
        have hb298 : b < 2 ^ 298 := lt_trans hb (Nat.pow_lt_pow_right (by omega) (by omega))
        have hmsba : get_msb a = a.log2 :=
          get_msb_eq_log2 (lt_trans ha298 (Nat.pow_lt_pow_right (by omega) (by omega)))
        have hmsbb : get_msb b = b.log2 :=
          get_msb_eq_log2 (lt_trans hb298 (Nat.pow_lt_pow_right (by omega) (by omega)))
        have hxy : a ^^^ b = (a ^^^ (283 <<< (a.log2 - 8))) ^^^ (b ^^^ (283 <<< (b.log2 - 8))) := by
          rw [heq]
          simp [Nat.xor_assoc, Nat.xor_comm, natXor_left_comm]
        rw [gf_mod_step ha256 ha298, hmsba, gf_mod_step hb256 hb298, hmsbb, hxy]
        exact ih ((a ^^^ (283 <<< (a.log2 - 8))) + (b ^^^ (283 <<< (b.log2 - 8))))
          (by omega) _ _ le_rfl (by omega) (by omega)
      · -- the top bit of `a` dominates
        have ha256 : 256 ≤ a := by
          rcases Nat.lt_or_ge a 256 with halt | hage
          · exfalso
            have halog : ¬8 ≤ a.log2 := fun hh => by have := le_log2_iff_256.mp hh; omega
            have hblog : ¬8 ≤ b.log2 := by omega
            have hblt : b < 256 := by
              by_contra hb'
              exact hblog (le_log2_iff_256.mpr (by omega))
            exact hsmall ⟨halt, hblt⟩
          · exact hage
        have ha' : a ^^^ (283 <<< (a.log2 - 8)) < 2 ^ a.log2 := gf_step_lt ha256
        have hane : a ≠ 0 := by omega
        have ha'lt : a ^^^ (283 <<< (a.log2 - 8)) < a :=
          lt_of_lt_of_le ha' (Nat.log2_self_le hane)
        exact gf_mod_linear_step ha256 hgt ha hb
          (ih ((a ^^^ (283 <<< (a.log2 - 8))) + b) (by omega) _ _ le_rfl (by omega) hb)

theorem natXor_shiftLeft (x y i : Nat) : (x ^^^ y) <<< i = (x <<< i) ^^^ (y <<< i) := by
  apply Nat.eq_of_testBit_eq
  intro j
  simp only [Nat.testBit_shiftLeft, Nat.testBit_xor]
  by_cases h : i ≤ j <;> simp [h, ge_iff_le]

theorem byteBitsAux_shape : ∀ k cur, (byteBitsAux cur k).length = k ∧
    ∀ b ∈ byteBitsAux cur k, b ≤ 1 := by
  intro k
  induction k with
  | zero => intro cur; simp [byteBitsAux]
  | succ k ih =>
    intro cur
    unfold byteBitsAux
    by_cases h : 2 ^ k ≤ cur
    · rw [if_pos h]
      refine ⟨by simp [(ih (cur - 2 ^ k)).1], ?_⟩
      intro b hb
      rcases List.mem_cons.mp hb with rfl | hmem
      · omega
      · exact (ih (cur - 2 ^ k)).2 b hmem
    · rw [if_neg h]
      refine ⟨by simp [(ih cur).1], ?_⟩
      intro b hb
      rcases List.mem_cons.mp hb with rfl | hmem
      · omega
      · exact (ih cur).2 b hmem

theorem list_len_eight {α : Type} (l : List α) (h : l.length = 8) :
    ∃ a b c d e f g h', l = [a, b, c, d, e, f, g, h'] := by
  rcases l with _ | ⟨b0, l⟩
  · simp at h
  rcases l with _ | ⟨b1, l⟩
  · simp at h
  rcases l with _ | ⟨b2, l⟩
  · simp at h
  rcases l with _ | ⟨b3, l⟩
  · simp at h
  rcases l with _ | ⟨b4, l⟩
  · simp at h
  rcases l with _ | ⟨b5, l⟩
  · simp at h
  rcases l with _ | ⟨b6, l⟩
  · simp at h
  rcases l with _ | ⟨b7, l⟩
  · simp at h
  rcases l with _ | ⟨b8, l⟩
  · exact ⟨b0, b1, b2, b3, b4, b5, b6, b7, rfl⟩
  · simp at h

/-- The bits of a byte: an explicit 8-element list of zeros and ones. -/
theorem byte_to_bits_shape (c : Nat) : ∃ c0 c1 c2 c3 c4 c5 c6 c7,
    byte_to_bits c = [c0, c1, c2, c3, c4, c5, c6, c7] ∧
    c0 ≤ 1 ∧ c1 ≤ 1 ∧ c2 ≤ 1 ∧ c3 ≤ 1 ∧ c4 ≤ 1 ∧ c5 ≤ 1 ∧ c6 ≤ 1 ∧ c7 ≤ 1 := by
  obtain ⟨hlen, hbound⟩ := byteBitsAux_shape 8 c
  obtain ⟨c0, c1, c2, c3, c4, c5, c6, c7, hq⟩ := list_len_eight _ hlen
  unfold byte_to_bits
  rw [hq]
  rw [hq] at hbound
  exact ⟨c0, c1, c2, c3, c4, c5, c6, c7, rfl,
    hbound c0 (by simp), hbound c1 (by simp), hbound c2 (by simp), hbound c3 (by simp),
    hbound c4 (by simp), hbound c5 (by simp), hbound c6 (by simp), hbound c7 (by simp)⟩

set_option maxHeartbeats 1000000 in
/-- `gf_multiply_bytes` with the carry-less accumulation unfolded. -/
theorem gf_mul_eq (x y : Nat) : gf_multiply_bytes x y 283 = gf_mod_bytes
    ((((((((0 ^^^ (x <<< 0) * (byte_to_bits y).getD 7 0) ^^^ (x <<< 1) * (byte_to_bits y).getD 6 0)
      ^^^ (x <<< 2) * (byte_to_bits y).getD 5 0) ^^^ (x <<< 3) * (byte_to_bits y).getD 4 0)
      ^^^ (x <<< 4) * (byte_to_bits y).getD 3 0) ^^^ (x <<< 5) * (byte_to_bits y).getD 2 0)
      ^^^ (x <<< 6) * (byte_to_bits y).getD 1 0) ^^^ (x <<< 7) * (byte_to_bits y).getD 0 0) 283 := by
  unfold gf_multiply_bytes
  rfl

theorem gf_term_lt {x i : Nat} (c : Nat) (hx : x < 256) (hc : c ≤ 1) (hi : i ≤ 7) :
    (x <<< i) * c < 2 ^ 15 := by
  have h1 : (x <<< i) * c ≤ x <<< i := by
    rcases Nat.le_one_iff_eq_zero_or_eq_one.mp hc with rfl | rfl <;> simp
  have h2 : x <<< i = x * 2 ^ i := Nat.shiftLeft_eq x i
  have h3 : (2:Nat) ^ i ≤ 2 ^ 7 := Nat.pow_le_pow_right (by omega) hi
  have h4 : x * 2 ^ i ≤ 255 * 2 ^ 7 := Nat.mul_le_mul (by omega) h3
  have : (2:Nat) ^ 7 = 128 := by norm_num
  have : (2:Nat) ^ 15 = 32768 := by norm_num
  omega

set_option maxHeartbeats 2000000 in
/-- GF(2^8) multiplication distributes over XOR in its first argument. -/
theorem gf_mul_linear {x y : Nat} (c : Nat) (hx : x < 256) (hy : y < 256) :
    gf_multiply_bytes (x ^^^ y) c 283 =
      gf_multiply_bytes x c 283 ^^^ gf_multiply_bytes y c 283 := by
  obtain ⟨c0, c1, c2, c3, c4, c5, c6, c7, hby, h0, h1, h2, h3, h4, h5, h6, h7⟩ :=
    byte_to_bits_shape c
  rw [gf_mul_eq, gf_mul_eq, gf_mul_eq, hby]
  simp only [List.getD_cons_zero, List.getD_cons_succ]
  have hterm : ∀ i cj, cj ≤ 1 →
      ((x ^^^ y) <<< i) * cj = ((x <<< i) * cj) ^^^ ((y <<< i) * cj) := by
    intro i cj hcj
    rcases Nat.le_one_iff_eq_zero_or_eq_one.mp hcj with rfl | rfl
    · simp
    · simp [natXor_shiftLeft]
  rw [hterm 0 c7 h7, hterm 1 c6 h6, hterm 2 c5 h5, hterm 3 c4 h4,
    hterm 4 c3 h3, hterm 5 c2 h2, hterm 6 c1 h1, hterm 7 c0 h0]
  have hz : ((((((((0 ^^^ ((x <<< 0) * c7 ^^^ (y <<< 0) * c7)) ^^^ ((x <<< 1) * c6 ^^^ (y <<< 1) * c6))
      ^^^ ((x <<< 2) * c5 ^^^ (y <<< 2) * c5)) ^^^ ((x <<< 3) * c4 ^^^ (y <<< 3) * c4))
      ^^^ ((x <<< 4) * c3 ^^^ (y <<< 4) * c3)) ^^^ ((x <<< 5) * c2 ^^^ (y <<< 5) * c2))
      ^^^ ((x <<< 6) * c1 ^^^ (y <<< 6) * c1)) ^^^ ((x <<< 7) * c0 ^^^ (y <<< 7) * c0)) =
      ((((((((0 ^^^ (x <<< 0) * c7) ^^^ (x <<< 1) * c6) ^^^ (x <<< 2) * c5) ^^^ (x <<< 3) * c4)
      ^^^ (x <<< 4) * c3) ^^^ (x <<< 5) * c2) ^^^ (x <<< 6) * c1) ^^^ (x <<< 7) * c0) ^^^
      ((((((((0 ^^^ (y <<< 0) * c7) ^^^ (y <<< 1) * c6) ^^^ (y <<< 2) * c5) ^^^ (y <<< 3) * c4)
      ^^^ (y <<< 4) * c3) ^^^ (y <<< 5) * c2) ^^^ (y <<< 6) * c1) ^^^ (y <<< 7) * c0) := by
    simp [Nat.xor_assoc, Nat.xor_comm, natXor_left_comm]
  rw [hz]
  have hchain : ∀ z : Nat, z < 256 →
      ((((((((0 ^^^ (z <<< 0) * c7) ^^^ (z <<< 1) * c6) ^^^ (z <<< 2) * c5) ^^^ (z <<< 3) * c4)
      ^^^ (z <<< 4) * c3) ^^^ (z <<< 5) * c2) ^^^ (z <<< 6) * c1) ^^^ (z <<< 7) * c0) < 2 ^ 15 := by
    intro z hz256
    apply Nat.xor_lt_two_pow _ (gf_term_lt c0 hz256 h0 (by omega))
    apply Nat.xor_lt_two_pow _ (gf_term_lt c1 hz256 h1 (by omega))
    apply Nat.xor_lt_two_pow _ (gf_term_lt c2 hz256 h2 (by omega))
    apply Nat.xor_lt_two_pow _ (gf_term_lt c3 hz256 h3 (by omega))
    apply Nat.xor_lt_two_pow _ (gf_term_lt c4 hz256 h4 (by omega))
    apply Nat.xor_lt_two_pow _ (gf_term_lt c5 hz256 h5 (by omega))
    apply Nat.xor_lt_two_pow _ (gf_term_lt c6 hz256 h6 (by omega))
    apply Nat.xor_lt_two_pow _ (gf_term_lt c7 hz256 h7 (by omega))
    exact Nat.pos_pow_of_pos _ (by omega)
  have hxb := hchain x hx
  have hyb := hchain y hy
  have hlift : ∀ w : Nat, w < 2 ^ 15 → w < 2 ^ 297 := by
    intro w hw
    calc w < 2 ^ 15 := hw
    _ < 2 ^ 297 := Nat.pow_lt_pow_right (by omega) (by omega)
  exact gf_mod_linear (2 ^ 16) _ _ (by omega) (hlift _ hxb) (hlift _ hyb)

/-- The GF modulus loop lands below 256. -/
theorem gf_mod_lt (b : Nat) (hb : b < 2 ^ 298) : gf_mod_bytes b 283 < 256 := by
  induction b using Nat.strong_induction_on with
  | _ b ih =>
    by_cases hbase : b < 256
    · rw [gf_mod_base hbase]; exact hbase
    · have hb256 : 256 ≤ b := by omega
      rw [gf_mod_step hb256 hb]
      have hmsb : get_msb b = b.log2 :=
        get_msb_eq_log2 (lt_trans hb (Nat.pow_lt_pow_right (by omega) (by omega)))
      rw [hmsb]
      have hlt : b ^^^ (283 <<< (b.log2 - 8)) < 2 ^ b.log2 := gf_step_lt hb256
      have hsmall : b ^^^ (283 <<< (b.log2 - 8)) < b :=
        lt_of_lt_of_le hlt (Nat.log2_self_le (by omega))
      exact ih _ hsmall (by omega)


/-- GF(2^8) products of bytes land in bytes. -/
theorem gf_mul_lt {x : Nat} (c : Nat) (hx : x < 256) : gf_multiply_bytes x c 283 < 256 := by
  obtain ⟨c0, c1, c2, c3, c4, c5, c6, c7, hby, h0, h1, h2, h3, h4, h5, h6, h7⟩ :=
    byte_to_bits_shape c
  rw [gf_mul_eq, hby]
  simp only [List.getD_cons_zero, List.getD_cons_succ]
  apply gf_mod_lt
  have hchain : ((((((((0 ^^^ (x <<< 0) * c7) ^^^ (x <<< 1) * c6) ^^^ (x <<< 2) * c5)
      ^^^ (x <<< 3) * c4) ^^^ (x <<< 4) * c3) ^^^ (x <<< 5) * c2) ^^^ (x <<< 6) * c1)
      ^^^ (x <<< 7) * c0) < 2 ^ 15 := by
    apply Nat.xor_lt_two_pow _ (gf_term_lt c0 hx h0 (by omega))
    apply Nat.xor_lt_two_pow _ (gf_term_lt c1 hx h1 (by omega))
    apply Nat.xor_lt_two_pow _ (gf_term_lt c2 hx h2 (by omega))
    apply Nat.xor_lt_two_pow _ (gf_term_lt c3 hx h3 (by omega))
    apply Nat.xor_lt_two_pow _ (gf_term_lt c4 hx h4 (by omega))
    apply Nat.xor_lt_two_pow _ (gf_term_lt c5 hx h5 (by omega))
    apply Nat.xor_lt_two_pow _ (gf_term_lt c6 hx h6 (by omega))
    apply Nat.xor_lt_two_pow _ (gf_term_lt c7 hx h7 (by omega))
    exact Nat.pos_pow_of_pos _ (by omega)
  calc ((((((((0 ^^^ (x <<< 0) * c7) ^^^ (x <<< 1) * c6) ^^^ (x <<< 2) * c5)
      ^^^ (x <<< 3) * c4) ^^^ (x <<< 4) * c3) ^^^ (x <<< 5) * c2) ^^^ (x <<< 6) * c1)
      ^^^ (x <<< 7) * c0) < 2 ^ 15 := hchain
  _ < 2 ^ 298 := Nat.pow_lt_pow_right (by omega) (by omega)

set_option maxRecDepth 100000 in
/-- The packed table for coefficient 1 agrees with `gf_multiply_bytes`. -/
theorem gfT1_eq : ∀ x < 256, gf_multiply_bytes x 1 283 = gfTLookup gfT1 x := by decide

set_option maxRecDepth 100000 in
/-- The packed table for coefficient 2 agrees with `gf_multiply_bytes`. -/
theorem gfT2_eq : ∀ x < 256, gf_multiply_bytes x 2 283 = gfTLookup gfT2 x := by decide

set_option maxRecDepth 100000 in
/-- The packed table for coefficient 3 agrees with `gf_multiply_bytes`. -/
theorem gfT3_eq : ∀ x < 256, gf_multiply_bytes x 3 283 = gfTLookup gfT3 x := by decide

set_option maxRecDepth 100000 in
/-- The packed table for coefficient 9 agrees with `gf_multiply_bytes`. -/
theorem gfT9_eq : ∀ x < 256, gf_multiply_bytes x 9 283 = gfTLookup gfT9 x := by decide

set_option maxRecDepth 100000 in
/-- The packed table for coefficient 11 agrees with `gf_multiply_bytes`. -/
theorem gfT11_eq : ∀ x < 256, gf_multiply_bytes x 11 283 = gfTLookup gfT11 x := by decide

set_option maxRecDepth 100000 in
/-- The packed table for coefficient 13 agrees with `gf_multiply_bytes`. -/
theorem gfT13_eq : ∀ x < 256, gf_multiply_bytes x 13 283 = gfTLookup gfT13 x := by decide

set_option maxRecDepth 100000 in
/-- The packed table for coefficient 14 agrees with `gf_multiply_bytes`. -/
theorem gfT14_eq : ∀ x < 256, gf_multiply_bytes x 14 283 = gfTLookup gfT14 x := by decide

set_option maxRecDepth 100000 in
/-- MDS cancellation, output row 0, input slot 0. -/
theorem gf_cancel_00 : ∀ x < 256, (((gfTLookup gfT14 (gfTLookup gfT2 x) ^^^ gfTLookup gfT11 (gfTLookup gfT1 x)) ^^^ gfTLookup gfT13 (gfTLookup gfT1 x)) ^^^ gfTLookup gfT9 (gfTLookup gfT3 x)) = x := by decide

set_option maxRecDepth 100000 in
/-- MDS cancellation, output row 0, input slot 1. -/
theorem gf_cancel_01 : ∀ x < 256, (((gfTLookup gfT14 (gfTLookup gfT3 x) ^^^ gfTLookup gfT11 (gfTLookup gfT2 x)) ^^^ gfTLookup gfT13 (gfTLookup gfT1 x)) ^^^ gfTLookup gfT9 (gfTLookup gfT1 x)) = 0 := by decide

set_option maxRecDepth 100000 in
/-- MDS cancellation, output row 0, input slot 2. -/
theorem gf_cancel_02 : ∀ x < 256, (((gfTLookup gfT14 (gfTLookup gfT1 x) ^^^ gfTLookup gfT11 (gfTLookup gfT3 x)) ^^^ gfTLookup gfT13 (gfTLookup gfT2 x)) ^^^ gfTLookup gfT9 (gfTLookup gfT1 x)) = 0 := by decide

set_option maxRecDepth 100000 in
/-- MDS cancellation, output row 0, input slot 3. -/
theorem gf_cancel_03 : ∀ x < 256, (((gfTLookup gfT14 (gfTLookup gfT1 x) ^^^ gfTLookup gfT11 (gfTLookup gfT1 x)) ^^^ gfTLookup gfT13 (gfTLookup gfT3 x)) ^^^ gfTLookup gfT9 (gfTLookup gfT2 x)) = 0 := by decide

set_option maxRecDepth 100000 in
/-- MDS cancellation, output row 1, input slot 0. -/
theorem gf_cancel_10 : ∀ x < 256, (((gfTLookup gfT9 (gfTLookup gfT2 x) ^^^ gfTLookup gfT14 (gfTLookup gfT1 x)) ^^^ gfTLookup gfT11 (gfTLookup gfT1 x)) ^^^ gfTLookup gfT13 (gfTLookup gfT3 x)) = 0 := by decide

set_option maxRecDepth 100000 in
/-- MDS cancellation, output row 1, input slot 1. -/
theorem gf_cancel_11 : ∀ x < 256, (((gfTLookup gfT9 (gfTLookup gfT3 x) ^^^ gfTLookup gfT14 (gfTLookup gfT2 x)) ^^^ gfTLookup gfT11 (gfTLookup gfT1 x)) ^^^ gfTLookup gfT13 (gfTLookup gfT1 x)) = x := by decide

set_option maxRecDepth 100000 in
/-- MDS cancellation, output row 1, input slot 2. -/
theorem gf_cancel_12 : ∀ x < 256, (((gfTLookup gfT9 (gfTLookup gfT1 x) ^^^ gfTLookup gfT14 (gfTLookup gfT3 x)) ^^^ gfTLookup gfT11 (gfTLookup gfT2 x)) ^^^ gfTLookup gfT13 (gfTLookup gfT1 x)) = 0 := by decide

set_option maxRecDepth 100000 in
/-- MDS cancellation, output row 1, input slot 3. -/
theorem gf_cancel_13 : ∀ x < 256, (((gfTLookup gfT9 (gfTLookup gfT1 x) ^^^ gfTLookup gfT14 (gfTLookup gfT1 x)) ^^^ gfTLookup gfT11 (gfTLookup gfT3 x)) ^^^ gfTLookup gfT13 (gfTLookup gfT2 x)) = 0 := by decide

set_option maxRecDepth 100000 in
/-- MDS cancellation, output row 2, input slot 0. -/
theorem gf_cancel_20 : ∀ x < 256, (((gfTLookup gfT13 (gfTLookup gfT2 x) ^^^ gfTLookup gfT9 (gfTLookup gfT1 x)) ^^^ gfTLookup gfT14 (gfTLookup gfT1 x)) ^^^ gfTLookup gfT11 (gfTLookup gfT3 x)) = 0 := by decide

set_option maxRecDepth 100000 in
/-- MDS cancellation, output row 2, input slot 1. -/
theorem gf_cancel_21 : ∀ x < 256, (((gfTLookup gfT13 (gfTLookup gfT3 x) ^^^ gfTLookup gfT9 (gfTLookup gfT2 x)) ^^^ gfTLookup gfT14 (gfTLookup gfT1 x)) ^^^ gfTLookup gfT11 (gfTLookup gfT1 x)) = 0 := by decide

set_option maxRecDepth 100000 in
/-- MDS cancellation, output row 2, input slot 2. -/
theorem gf_cancel_22 : ∀ x < 256, (((gfTLookup gfT13 (gfTLookup gfT1 x) ^^^ gfTLookup gfT9 (gfTLookup gfT3 x)) ^^^ gfTLookup gfT14 (gfTLookup gfT2 x)) ^^^ gfTLookup gfT11 (gfTLookup gfT1 x)) = x := by decide

set_option maxRecDepth 100000 in
/-- MDS cancellation, output row 2, input slot 3. -/
theorem gf_cancel_23 : ∀ x < 256, (((gfTLookup gfT13 (gfTLookup gfT1 x) ^^^ gfTLookup gfT9 (gfTLookup gfT1 x)) ^^^ gfTLookup gfT14 (gfTLookup gfT3 x)) ^^^ gfTLookup gfT11 (gfTLookup gfT2 x)) = 0 := by decide

set_option maxRecDepth 100000 in
/-- MDS cancellation, output row 3, input slot 0. -/
theorem gf_cancel_30 : ∀ x < 256, (((gfTLookup gfT11 (gfTLookup gfT2 x) ^^^ gfTLookup gfT13 (gfTLookup gfT1 x)) ^^^ gfTLookup gfT9 (gfTLookup gfT1 x)) ^^^ gfTLookup gfT14 (gfTLookup gfT3 x)) = 0 := by decide

set_option maxRecDepth 100000 in
/-- MDS cancellation, output row 3, input slot 1. -/
theorem gf_cancel_31 : ∀ x < 256, (((gfTLookup gfT11 (gfTLookup gfT3 x) ^^^ gfTLookup gfT13 (gfTLookup gfT2 x)) ^^^ gfTLookup gfT9 (gfTLookup gfT1 x)) ^^^ gfTLookup gfT14 (gfTLookup gfT1 x)) = 0 := by decide

set_option maxRecDepth 100000 in
/-- MDS cancellation, output row 3, input slot 2. -/
theorem gf_cancel_32 : ∀ x < 256, (((gfTLookup gfT11 (gfTLookup gfT1 x) ^^^ gfTLookup gfT13 (gfTLookup gfT3 x)) ^^^ gfTLookup gfT9 (gfTLookup gfT2 x)) ^^^ gfTLookup gfT14 (gfTLookup gfT1 x)) = 0 := by decide

set_option maxRecDepth 100000 in
/-- MDS cancellation, output row 3, input slot 3. -/
theorem gf_cancel_33 : ∀ x < 256, (((gfTLookup gfT11 (gfTLookup gfT1 x) ^^^ gfTLookup gfT13 (gfTLookup gfT1 x)) ^^^ gfTLookup gfT9 (gfTLookup gfT3 x)) ^^^ gfTLookup gfT14 (gfTLookup gfT2 x)) = x := by decide


/-! ## AES state-matrix operations invert each other -/

/-- Packed-table lookups are bytes. -/
theorem gfTLookup_lt (t x : Nat) : gfTLookup t x < 256 := by
  unfold gfTLookup
  have h : (t >>> (8 * x)) &&& 255 ≤ 255 := Nat.and_le_right
  omega

theorem xor8 {a b : Nat} (ha : a < 256) (hb : b < 256) : a ^^^ b < 256 := by
  have := Nat.xor_lt_two_pow (show a < 2 ^ 8 by omega) (show b < 2 ^ 8 by omega)
  omega

/-- Four-fold distribution of a GF product over an XOR accumulation. -/
theorem gf_dist4 {A B C D : Nat} (g : Nat) (hA : A < 256) (hB : B < 256)
    (hC : C < 256) (hD : D < 256) :
    gf_multiply_bytes (((A ^^^ B) ^^^ C) ^^^ D) g 283 =
      ((gf_multiply_bytes A g 283 ^^^ gf_multiply_bytes B g 283) ^^^
        gf_multiply_bytes C g 283) ^^^ gf_multiply_bytes D g 283 := by
  rw [gf_mul_linear g (xor8 (xor8 hA hB) hC) hD, gf_mul_linear g (xor8 hA hB) hC,
    gf_mul_linear g hA hB]

set_option maxHeartbeats 1000000 in
/-- `mix_columns` on an explicit state. -/
theorem mix_explicit_f (s00 s01 s02 s03 s10 s11 s12 s13 s20 s21 s22 s23 s30 s31 s32 s33 : Nat) :
    mix_columns [[s00, s01, s02, s03],[s10, s11, s12, s13],[s20, s21, s22, s23],[s30, s31, s32, s33]] false =
    [[(((0 ^^^ gf_multiply_bytes s00 2 283) ^^^ gf_multiply_bytes s10 3 283) ^^^ gf_multiply_bytes s20 1 283) ^^^ gf_multiply_bytes s30 1 283,
      (((0 ^^^ gf_multiply_bytes s01 2 283) ^^^ gf_multiply_bytes s11 3 283) ^^^ gf_multiply_bytes s21 1 283) ^^^ gf_multiply_bytes s31 1 283,
      (((0 ^^^ gf_multiply_bytes s02 2 283) ^^^ gf_multiply_bytes s12 3 283) ^^^ gf_multiply_bytes s22 1 283) ^^^ gf_multiply_bytes s32 1 283,
      (((0 ^^^ gf_multiply_bytes s03 2 283) ^^^ gf_multiply_bytes s13 3 283) ^^^ gf_multiply_bytes s23 1 283) ^^^ gf_multiply_bytes s33 1 283],
     [(((0 ^^^ gf_multiply_bytes s00 1 283) ^^^ gf_multiply_bytes s10 2 283) ^^^ gf_multiply_bytes s20 3 283) ^^^ gf_multiply_bytes s30 1 283,
      (((0 ^^^ gf_multiply_bytes s01 1 283) ^^^ gf_multiply_bytes s11 2 283) ^^^ gf_multiply_bytes s21 3 283) ^^^ gf_multiply_bytes s31 1 283,
      (((0 ^^^ gf_multiply_bytes s02 1 283) ^^^ gf_multiply_bytes s12 2 283) ^^^ gf_multiply_bytes s22 3 283) ^^^ gf_multiply_bytes s32 1 283,
      (((0 ^^^ gf_multiply_bytes s03 1 283) ^^^ gf_multiply_bytes s13 2 283) ^^^ gf_multiply_bytes s23 3 283) ^^^ gf_multiply_bytes s33 1 283],
     [(((0 ^^^ gf_multiply_bytes s00 1 283) ^^^ gf_multiply_bytes s10 1 283) ^^^ gf_multiply_bytes s20 2 283) ^^^ gf_multiply_bytes s30 3 283,
      (((0 ^^^ gf_multiply_bytes s01 1 283) ^^^ gf_multiply_bytes s11 1 283) ^^^ gf_multiply_bytes s21 2 283) ^^^ gf_multiply_bytes s31 3 283,
      (((0 ^^^ gf_multiply_bytes s02 1 283) ^^^ gf_multiply_bytes s12 1 283) ^^^ gf_multiply_bytes s22 2 283) ^^^ gf_multiply_bytes s32 3 283,
      (((0 ^^^ gf_multiply_bytes s03 1 283) ^^^ gf_multiply_bytes s13 1 283) ^^^ gf_multiply_bytes s23 2 283) ^^^ gf_multiply_bytes s33 3 283],
     [(((0 ^^^ gf_multiply_bytes s00 3 283) ^^^ gf_multiply_bytes s10 1 283) ^^^ gf_multiply_bytes s20 1 283) ^^^ gf_multiply_bytes s30 2 283,
      (((0 ^^^ gf_multiply_bytes s01 3 283) ^^^ gf_multiply_bytes s11 1 283) ^^^ gf_multiply_bytes s21 1 283) ^^^ gf_multiply_bytes s31 2 283,
      (((0 ^^^ gf_multiply_bytes s02 3 283) ^^^ gf_multiply_bytes s12 1 283) ^^^ gf_multiply_bytes s22 1 283) ^^^ gf_multiply_bytes s32 2 283,
      (((0 ^^^ gf_multiply_bytes s03 3 283) ^^^ gf_multiply_bytes s13 1 283) ^^^ gf_multiply_bytes s23 1 283) ^^^ gf_multiply_bytes s33 2 283]] := by
  unfold mix_columns
  rfl

set_option maxHeartbeats 1000000 in
/-- `mix_columns` on an explicit state. -/
theorem mix_explicit_i (s00 s01 s02 s03 s10 s11 s12 s13 s20 s21 s22 s23 s30 s31 s32 s33 : Nat) :
    mix_columns [[s00, s01, s02, s03],[s10, s11, s12, s13],[s20, s21, s22, s23],[s30, s31, s32, s33]] true =
    [[(((0 ^^^ gf_multiply_bytes s00 14 283) ^^^ gf_multiply_bytes s10 11 283) ^^^ gf_multiply_bytes s20 13 283) ^^^ gf_multiply_bytes s30 9 283,
      (((0 ^^^ gf_multiply_bytes s01 14 283) ^^^ gf_multiply_bytes s11 11 283) ^^^ gf_multiply_bytes s21 13 283) ^^^ gf_multiply_bytes s31 9 283,
      (((0 ^^^ gf_multiply_bytes s02 14 283) ^^^ gf_multiply_bytes s12 11 283) ^^^ gf_multiply_bytes s22 13 283) ^^^ gf_multiply_bytes s32 9 283,
      (((0 ^^^ gf_multiply_bytes s03 14 283) ^^^ gf_multiply_bytes s13 11 283) ^^^ gf_multiply_bytes s23 13 283) ^^^ gf_multiply_bytes s33 9 283],
     [(((0 ^^^ gf_multiply_bytes s00 9 283) ^^^ gf_multiply_bytes s10 14 283) ^^^ gf_multiply_bytes s20 11 283) ^^^ gf_multiply_bytes s30 13 283,
      (((0 ^^^ gf_multiply_bytes s01 9 283) ^^^ gf_multiply_bytes s11 14 283) ^^^ gf_multiply_bytes s21 11 283) ^^^ gf_multiply_bytes s31 13 283,
      (((0 ^^^ gf_multiply_bytes s02 9 283) ^^^ gf_multiply_bytes s12 14 283) ^^^ gf_multiply_bytes s22 11 283) ^^^ gf_multiply_bytes s32 13 283,
      (((0 ^^^ gf_multiply_bytes s03 9 283) ^^^ gf_multiply_bytes s13 14 283) ^^^ gf_multiply_bytes s23 11 283) ^^^ gf_multiply_bytes s33 13 283],
     [(((0 ^^^ gf_multiply_bytes s00 13 283) ^^^ gf_multiply_bytes s10 9 283) ^^^ gf_multiply_bytes s20 14 283) ^^^ gf_multiply_bytes s30 11 283,
      (((0 ^^^ gf_multiply_bytes s01 13 283) ^^^ gf_multiply_bytes s11 9 283) ^^^ gf_multiply_bytes s21 14 283) ^^^ gf_multiply_bytes s31 11 283,
      (((0 ^^^ gf_multiply_bytes s02 13 283) ^^^ gf_multiply_bytes s12 9 283) ^^^ gf_multiply_bytes s22 14 283) ^^^ gf_multiply_bytes s32 11 283,
      (((0 ^^^ gf_multiply_bytes s03 13 283) ^^^ gf_multiply_bytes s13 9 283) ^^^ gf_multiply_bytes s23 14 283) ^^^ gf_multiply_bytes s33 11 283],
     [(((0 ^^^ gf_multiply_bytes s00 11 283) ^^^ gf_multiply_bytes s10 13 283) ^^^ gf_multiply_bytes s20 9 283) ^^^ gf_multiply_bytes s30 14 283,
      (((0 ^^^ gf_multiply_bytes s01 11 283) ^^^ gf_multiply_bytes s11 13 283) ^^^ gf_multiply_bytes s21 9 283) ^^^ gf_multiply_bytes s31 14 283,
      (((0 ^^^ gf_multiply_bytes s02 11 283) ^^^ gf_multiply_bytes s12 13 283) ^^^ gf_multiply_bytes s22 9 283) ^^^ gf_multiply_bytes s32 14 283,
      (((0 ^^^ gf_multiply_bytes s03 11 283) ^^^ gf_multiply_bytes s13 13 283) ^^^ gf_multiply_bytes s23 9 283) ^^^ gf_multiply_bytes s33 14 283]] := by
  unfold mix_columns
  rfl

set_option maxHeartbeats 2000000 in
/-- Transposing a 4x4 XOR accumulation. -/
theorem xor_transpose16 (a00 a01 a02 a03 a10 a11 a12 a13 a20 a21 a22 a23 a30 a31 a32 a33 : Nat) :
    ((((((((a00) ^^^ a01) ^^^ a02) ^^^ a03)) ^^^ ((((a10) ^^^ a11) ^^^ a12) ^^^ a13)) ^^^ ((((a20) ^^^ a21) ^^^ a22) ^^^ a23)) ^^^ ((((a30) ^^^ a31) ^^^ a32) ^^^ a33)) =
    ((((((((a00) ^^^ a10) ^^^ a20) ^^^ a30)) ^^^ ((((a01) ^^^ a11) ^^^ a21) ^^^ a31)) ^^^ ((((a02) ^^^ a12) ^^^ a22) ^^^ a32)) ^^^ ((((a03) ^^^ a13) ^^^ a23) ^^^ a33)) := by
  simp [Nat.xor_assoc, Nat.xor_comm, natXor_left_comm]

/-- One output byte of the inverse MixColumns applied to MixColumns. -/
theorem mix_scalar_0 (y0 y1 y2 y3 : Nat) (h0 : y0 < 256) (h1 : y1 < 256)
    (h2 : y2 < 256) (h3 : y3 < 256) :
    ((((0 ^^^ gf_multiply_bytes ((((0 ^^^ gf_multiply_bytes y0 2 283) ^^^ gf_multiply_bytes y1 3 283) ^^^ gf_multiply_bytes y2 1 283) ^^^ gf_multiply_bytes y3 1 283) 14 283) ^^^ gf_multiply_bytes ((((0 ^^^ gf_multiply_bytes y0 1 283) ^^^ gf_multiply_bytes y1 2 283) ^^^ gf_multiply_bytes y2 3 283) ^^^ gf_multiply_bytes y3 1 283) 11 283) ^^^ gf_multiply_bytes ((((0 ^^^ gf_multiply_bytes y0 1 283) ^^^ gf_multiply_bytes y1 1 283) ^^^ gf_multiply_bytes y2 2 283) ^^^ gf_multiply_bytes y3 3 283) 13 283) ^^^ gf_multiply_bytes ((((0 ^^^ gf_multiply_bytes y0 3 283) ^^^ gf_multiply_bytes y1 1 283) ^^^ gf_multiply_bytes y2 1 283) ^^^ gf_multiply_bytes y3 2 283) 9 283) = y0 := by
  simp only [Nat.zero_xor]
  rw [gf_dist4 14 (gf_mul_lt 2 h0) (gf_mul_lt 3 h1) (gf_mul_lt 1 h2) (gf_mul_lt 1 h3)]
  rw [gf_dist4 11 (gf_mul_lt 1 h0) (gf_mul_lt 2 h1) (gf_mul_lt 3 h2) (gf_mul_lt 1 h3)]
  rw [gf_dist4 13 (gf_mul_lt 1 h0) (gf_mul_lt 1 h1) (gf_mul_lt 2 h2) (gf_mul_lt 3 h3)]
  rw [gf_dist4 9 (gf_mul_lt 3 h0) (gf_mul_lt 1 h1) (gf_mul_lt 1 h2) (gf_mul_lt 2 h3)]
  rw [gfT2_eq y0 h0]
  rw [gfT3_eq y1 h1]
  rw [gfT1_eq y2 h2]
  rw [gfT1_eq y3 h3]
  rw [gfT1_eq y0 h0]
  rw [gfT2_eq y1 h1]
  rw [gfT3_eq y2 h2]
  rw [gfT1_eq y1 h1]
  rw [gfT2_eq y2 h2]
  rw [gfT3_eq y3 h3]
  rw [gfT3_eq y0 h0]
  rw [gfT2_eq y3 h3]
  rw [gfT14_eq (gfTLookup gfT2 y0) (gfTLookup_lt gfT2 y0)]
  rw [gfT14_eq (gfTLookup gfT3 y1) (gfTLookup_lt gfT3 y1)]
  rw [gfT14_eq (gfTLookup gfT1 y2) (gfTLookup_lt gfT1 y2)]
  rw [gfT14_eq (gfTLookup gfT1 y3) (gfTLookup_lt gfT1 y3)]
  rw [gfT11_eq (gfTLookup gfT1 y0) (gfTLookup_lt gfT1 y0)]
  rw [gfT11_eq (gfTLookup gfT2 y1) (gfTLookup_lt gfT2 y1)]
  rw [gfT11_eq (gfTLookup gfT3 y2) (gfTLookup_lt gfT3 y2)]
  rw [gfT11_eq (gfTLookup gfT1 y3) (gfTLookup_lt gfT1 y3)]
  rw [gfT13_eq (gfTLookup gfT1 y0) (gfTLookup_lt gfT1 y0)]
  rw [gfT13_eq (gfTLookup gfT1 y1) (gfTLookup_lt gfT1 y1)]
  rw [gfT13_eq (gfTLookup gfT2 y2) (gfTLookup_lt gfT2 y2)]
  rw [gfT13_eq (gfTLookup gfT3 y3) (gfTLookup_lt gfT3 y3)]
  rw [gfT9_eq (gfTLookup gfT3 y0) (gfTLookup_lt gfT3 y0)]
  rw [gfT9_eq (gfTLookup gfT1 y1) (gfTLookup_lt gfT1 y1)]
  rw [gfT9_eq (gfTLookup gfT1 y2) (gfTLookup_lt gfT1 y2)]
  rw [gfT9_eq (gfTLookup gfT2 y3) (gfTLookup_lt gfT2 y3)]
  rw [xor_transpose16]
  rw [gf_cancel_00 y0 h0]
  rw [gf_cancel_01 y1 h1]
  rw [gf_cancel_02 y2 h2]
  rw [gf_cancel_03 y3 h3]
  simp

/-- One output byte of the inverse MixColumns applied to MixColumns. -/
theorem mix_scalar_1 (y0 y1 y2 y3 : Nat) (h0 : y0 < 256) (h1 : y1 < 256)
    (h2 : y2 < 256) (h3 : y3 < 256) :
    ((((0 ^^^ gf_multiply_bytes ((((0 ^^^ gf_multiply_bytes y0 2 283) ^^^ gf_multiply_bytes y1 3 283) ^^^ gf_multiply_bytes y2 1 283) ^^^ gf_multiply_bytes y3 1 283) 9 283) ^^^ gf_multiply_bytes ((((0 ^^^ gf_multiply_bytes y0 1 283) ^^^ gf_multiply_bytes y1 2 283) ^^^ gf_multiply_bytes y2 3 283) ^^^ gf_multiply_bytes y3 1 283) 14 283) ^^^ gf_multiply_bytes ((((0 ^^^ gf_multiply_bytes y0 1 283) ^^^ gf_multiply_bytes y1 1 283) ^^^ gf_multiply_bytes y2 2 283) ^^^ gf_multiply_bytes y3 3 283) 11 283) ^^^ gf_multiply_bytes ((((0 ^^^ gf_multiply_bytes y0 3 283) ^^^ gf_multiply_bytes y1 1 283) ^^^ gf_multiply_bytes y2 1 283) ^^^ gf_multiply_bytes y3 2 283) 13 283) = y1 := by
  simp only [Nat.zero_xor]
  rw [gf_dist4 9 (gf_mul_lt 2 h0) (gf_mul_lt 3 h1) (gf_mul_lt 1 h2) (gf_mul_lt 1 h3)]
  rw [gf_dist4 14 (gf_mul_lt 1 h0) (gf_mul_lt 2 h1) (gf_mul_lt 3 h2) (gf_mul_lt 1 h3)]
  rw [gf_dist4 11 (gf_mul_lt 1 h0) (gf_mul_lt 1 h1) (gf_mul_lt 2 h2) (gf_mul_lt 3 h3)]
  rw [gf_dist4 13 (gf_mul_lt 3 h0) (gf_mul_lt 1 h1) (gf_mul_lt 1 h2) (gf_mul_lt 2 h3)]
  rw [gfT2_eq y0 h0]
  rw [gfT3_eq y1 h1]
  rw [gfT1_eq y2 h2]
  rw [gfT1_eq y3 h3]
  rw [gfT1_eq y0 h0]
  rw [gfT2_eq y1 h1]
  rw [gfT3_eq y2 h2]
  rw [gfT1_eq y1 h1]
  rw [gfT2_eq y2 h2]
  rw [gfT3_eq y3 h3]
  rw [gfT3_eq y0 h0]
  rw [gfT2_eq y3 h3]
  rw [gfT9_eq (gfTLookup gfT2 y0) (gfTLookup_lt gfT2 y0)]
  rw [gfT9_eq (gfTLookup gfT3 y1) (gfTLookup_lt gfT3 y1)]
  rw [gfT9_eq (gfTLookup gfT1 y2) (gfTLookup_lt gfT1 y2)]
  rw [gfT9_eq (gfTLookup gfT1 y3) (gfTLookup_lt gfT1 y3)]
  rw [gfT14_eq (gfTLookup gfT1 y0) (gfTLookup_lt gfT1 y0)]
  rw [gfT14_eq (gfTLookup gfT2 y1) (gfTLookup_lt gfT2 y1)]
  rw [gfT14_eq (gfTLookup gfT3 y2) (gfTLookup_lt gfT3 y2)]
  rw [gfT14_eq (gfTLookup gfT1 y3) (gfTLookup_lt gfT1 y3)]
  rw [gfT11_eq (gfTLookup gfT1 y0) (gfTLookup_lt gfT1 y0)]
  rw [gfT11_eq (gfTLookup gfT1 y1) (gfTLookup_lt gfT1 y1)]
  rw [gfT11_eq (gfTLookup gfT2 y2) (gfTLookup_lt gfT2 y2)]
  rw [gfT11_eq (gfTLookup gfT3 y3) (gfTLookup_lt gfT3 y3)]
  rw [gfT13_eq (gfTLookup gfT3 y0) (gfTLookup_lt gfT3 y0)]
  rw [gfT13_eq (gfTLookup gfT1 y1) (gfTLookup_lt gfT1 y1)]
  rw [gfT13_eq (gfTLookup gfT1 y2) (gfTLookup_lt gfT1 y2)]
  rw [gfT13_eq (gfTLookup gfT2 y3) (gfTLookup_lt gfT2 y3)]
  rw [xor_transpose16]
  rw [gf_cancel_10 y0 h0]
  rw [gf_cancel_11 y1 h1]
  rw [gf_cancel_12 y2 h2]
  rw [gf_cancel_13 y3 h3]
  simp

/-- One output byte of the inverse MixColumns applied to MixColumns. -/
theorem mix_scalar_2 (y0 y1 y2 y3 : Nat) (h0 : y0 < 256) (h1 : y1 < 256)
    (h2 : y2 < 256) (h3 : y3 < 256) :
    ((((0 ^^^ gf_multiply_bytes ((((0 ^^^ gf_multiply_bytes y0 2 283) ^^^ gf_multiply_bytes y1 3 283) ^^^ gf_multiply_bytes y2 1 283) ^^^ gf_multiply_bytes y3 1 283) 13 283) ^^^ gf_multiply_bytes ((((0 ^^^ gf_multiply_bytes y0 1 283) ^^^ gf_multiply_bytes y1 2 283) ^^^ gf_multiply_bytes y2 3 283) ^^^ gf_multiply_bytes y3 1 283) 9 283) ^^^ gf_multiply_bytes ((((0 ^^^ gf_multiply_bytes y0 1 283) ^^^ gf_multiply_bytes y1 1 283) ^^^ gf_multiply_bytes y2 2 283) ^^^ gf_multiply_bytes y3 3 283) 14 283) ^^^ gf_multiply_bytes ((((0 ^^^ gf_multiply_bytes y0 3 283) ^^^ gf_multiply_bytes y1 1 283) ^^^ gf_multiply_bytes y2 1 283) ^^^ gf_multiply_bytes y3 2 283) 11 283) = y2 := by
  simp only [Nat.zero_xor]
  rw [gf_dist4 13 (gf_mul_lt 2 h0) (gf_mul_lt 3 h1) (gf_mul_lt 1 h2) (gf_mul_lt 1 h3)]
  rw [gf_dist4 9 (gf_mul_lt 1 h0) (gf_mul_lt 2 h1) (gf_mul_lt 3 h2) (gf_mul_lt 1 h3)]
  rw [gf_dist4 14 (gf_mul_lt 1 h0) (gf_mul_lt 1 h1) (gf_mul_lt 2 h2) (gf_mul_lt 3 h3)]
  rw [gf_dist4 11 (gf_mul_lt 3 h0) (gf_mul_lt 1 h1) (gf_mul_lt 1 h2) (gf_mul_lt 2 h3)]
  rw [gfT2_eq y0 h0]
  rw [gfT3_eq y1 h1]
  rw [gfT1_eq y2 h2]
  rw [gfT1_eq y3 h3]
  rw [gfT1_eq y0 h0]
  rw [gfT2_eq y1 h1]
  rw [gfT3_eq y2 h2]
  rw [gfT1_eq y1 h1]
  rw [gfT2_eq y2 h2]
  rw [gfT3_eq y3 h3]
  rw [gfT3_eq y0 h0]
  rw [gfT2_eq y3 h3]
  rw [gfT13_eq (gfTLookup gfT2 y0) (gfTLookup_lt gfT2 y0)]
  rw [gfT13_eq (gfTLookup gfT3 y1) (gfTLookup_lt gfT3 y1)]
  rw [gfT13_eq (gfTLookup gfT1 y2) (gfTLookup_lt gfT1 y2)]
  rw [gfT13_eq (gfTLookup gfT1 y3) (gfTLookup_lt gfT1 y3)]
  rw [gfT9_eq (gfTLookup gfT1 y0) (gfTLookup_lt gfT1 y0)]
  rw [gfT9_eq (gfTLookup gfT2 y1) (gfTLookup_lt gfT2 y1)]
  rw [gfT9_eq (gfTLookup gfT3 y2) (gfTLookup_lt gfT3 y2)]
  rw [gfT9_eq (gfTLookup gfT1 y3) (gfTLookup_lt gfT1 y3)]
  rw [gfT14_eq (gfTLookup gfT1 y0) (gfTLookup_lt gfT1 y0)]
  rw [gfT14_eq (gfTLookup gfT1 y1) (gfTLookup_lt gfT1 y1)]
  rw [gfT14_eq (gfTLookup gfT2 y2) (gfTLookup_lt gfT2 y2)]
  rw [gfT14_eq (gfTLookup gfT3 y3) (gfTLookup_lt gfT3 y3)]
  rw [gfT11_eq (gfTLookup gfT3 y0) (gfTLookup_lt gfT3 y0)]
  rw [gfT11_eq (gfTLookup gfT1 y1) (gfTLookup_lt gfT1 y1)]
  rw [gfT11_eq (gfTLookup gfT1 y2) (gfTLookup_lt gfT1 y2)]
  rw [gfT11_eq (gfTLookup gfT2 y3) (gfTLookup_lt gfT2 y3)]
  rw [xor_transpose16]
  rw [gf_cancel_20 y0 h0]
  rw [gf_cancel_21 y1 h1]
  rw [gf_cancel_22 y2 h2]
  rw [gf_cancel_23 y3 h3]
  simp

/-- One output byte of the inverse MixColumns applied to MixColumns. -/
theorem mix_scalar_3 (y0 y1 y2 y3 : Nat) (h0 : y0 < 256) (h1 : y1 < 256)
    (h2 : y2 < 256) (h3 : y3 < 256) :
    ((((0 ^^^ gf_multiply_bytes ((((0 ^^^ gf_multiply_bytes y0 2 283) ^^^ gf_multiply_bytes y1 3 283) ^^^ gf_multiply_bytes y2 1 283) ^^^ gf_multiply_bytes y3 1 283) 11 283) ^^^ gf_multiply_bytes ((((0 ^^^ gf_multiply_bytes y0 1 283) ^^^ gf_multiply_bytes y1 2 283) ^^^ gf_multiply_bytes y2 3 283) ^^^ gf_multiply_bytes y3 1 283) 13 283) ^^^ gf_multiply_bytes ((((0 ^^^ gf_multiply_bytes y0 1 283) ^^^ gf_multiply_bytes y1 1 283) ^^^ gf_multiply_bytes y2 2 283) ^^^ gf_multiply_bytes y3 3 283) 9 283) ^^^ gf_multiply_bytes ((((0 ^^^ gf_multiply_bytes y0 3 283) ^^^ gf_multiply_bytes y1 1 283) ^^^ gf_multiply_bytes y2 1 283) ^^^ gf_multiply_bytes y3 2 283) 14 283) = y3 := by
  simp only [Nat.zero_xor]
  rw [gf_dist4 11 (gf_mul_lt 2 h0) (gf_mul_lt 3 h1) (gf_mul_lt 1 h2) (gf_mul_lt 1 h3)]
  rw [gf_dist4 13 (gf_mul_lt 1 h0) (gf_mul_lt 2 h1) (gf_mul_lt 3 h2) (gf_mul_lt 1 h3)]
  rw [gf_dist4 9 (gf_mul_lt 1 h0) (gf_mul_lt 1 h1) (gf_mul_lt 2 h2) (gf_mul_lt 3 h3)]
  rw [gf_dist4 14 (gf_mul_lt 3 h0) (gf_mul_lt 1 h1) (gf_mul_lt 1 h2) (gf_mul_lt 2 h3)]
  rw [gfT2_eq y0 h0]
  rw [gfT3_eq y1 h1]
  rw [gfT1_eq y2 h2]
  rw [gfT1_eq y3 h3]
  rw [gfT1_eq y0 h0]
  rw [gfT2_eq y1 h1]
  rw [gfT3_eq y2 h2]
  rw [gfT1_eq y1 h1]
  rw [gfT2_eq y2 h2]
  rw [gfT3_eq y3 h3]
  rw [gfT3_eq y0 h0]
  rw [gfT2_eq y3 h3]
  rw [gfT11_eq (gfTLookup gfT2 y0) (gfTLookup_lt gfT2 y0)]
  rw [gfT11_eq (gfTLookup gfT3 y1) (gfTLookup_lt gfT3 y1)]
  rw [gfT11_eq (gfTLookup gfT1 y2) (gfTLookup_lt gfT1 y2)]
  rw [gfT11_eq (gfTLookup gfT1 y3) (gfTLookup_lt gfT1 y3)]
  rw [gfT13_eq (gfTLookup gfT1 y0) (gfTLookup_lt gfT1 y0)]
  rw [gfT13_eq (gfTLookup gfT2 y1) (gfTLookup_lt gfT2 y1)]
  rw [gfT13_eq (gfTLookup gfT3 y2) (gfTLookup_lt gfT3 y2)]
  rw [gfT13_eq (gfTLookup gfT1 y3) (gfTLookup_lt gfT1 y3)]
  rw [gfT9_eq (gfTLookup gfT1 y0) (gfTLookup_lt gfT1 y0)]
  rw [gfT9_eq (gfTLookup gfT1 y1) (gfTLookup_lt gfT1 y1)]
  rw [gfT9_eq (gfTLookup gfT2 y2) (gfTLookup_lt gfT2 y2)]
  rw [gfT9_eq (gfTLookup gfT3 y3) (gfTLookup_lt gfT3 y3)]
  rw [gfT14_eq (gfTLookup gfT3 y0) (gfTLookup_lt gfT3 y0)]
  rw [gfT14_eq (gfTLookup gfT1 y1) (gfTLookup_lt gfT1 y1)]
  rw [gfT14_eq (gfTLookup gfT1 y2) (gfTLookup_lt gfT1 y2)]
  rw [gfT14_eq (gfTLookup gfT2 y3) (gfTLookup_lt gfT2 y3)]
  rw [xor_transpose16]
  rw [gf_cancel_30 y0 h0]
  rw [gf_cancel_31 y1 h1]
  rw [gf_cancel_32 y2 h2]
  rw [gf_cancel_33 y3 h3]
  simp


theorem list_len_four {α : Type} (l : List α) (h : l.length = 4) :
    ∃ a b c d, l = [a, b, c, d] := by
  rcases l with _ | ⟨b0, l⟩
  · simp at h
  rcases l with _ | ⟨b1, l⟩
  · simp at h
  rcases l with _ | ⟨b2, l⟩
  · simp at h
  rcases l with _ | ⟨b3, l⟩
  · simp at h
  rcases l with _ | ⟨b4, l⟩
  · exact ⟨b0, b1, b2, b3, rfl⟩
  · simp at h

/-- Destructure a 4x4 matrix into its sixteen entries. -/
theorem mat4_elim {st : List (List Nat)} (h : Mat4 st) :
    ∃ s00 s01 s02 s03 s10 s11 s12 s13 s20 s21 s22 s23 s30 s31 s32 s33,
    st = [[s00, s01, s02, s03],[s10, s11, s12, s13],[s20, s21, s22, s23],[s30, s31, s32, s33]] := by
  obtain ⟨hlen, hrows⟩ := h
  obtain ⟨r0, r1, r2, r3, hq⟩ := list_len_four st hlen
  subst hq
  obtain ⟨s00, s01, s02, s03, h0⟩ := list_len_four r0 (hrows r0 (by simp))
  obtain ⟨s10, s11, s12, s13, h1⟩ := list_len_four r1 (hrows r1 (by simp))
  obtain ⟨s20, s21, s22, s23, h2⟩ := list_len_four r2 (hrows r2 (by simp))
  obtain ⟨s30, s31, s32, s33, h3⟩ := list_len_four r3 (hrows r3 (by simp))
  subst h0 h1 h2 h3
  exact ⟨s00, s01, s02, s03, s10, s11, s12, s13, s20, s21, s22, s23, s30, s31, s32, s33, rfl⟩

/-- Destructure a 4x4 byte matrix into entries and bounds. -/
theorem matB_elim {st : List (List Nat)} (h : MatB st) :
    ∃ s00 s01 s02 s03 s10 s11 s12 s13 s20 s21 s22 s23 s30 s31 s32 s33,
    st = [[s00, s01, s02, s03],[s10, s11, s12, s13],[s20, s21, s22, s23],[s30, s31, s32, s33]] ∧
    (s00 < 256 ∧ s01 < 256 ∧ s02 < 256 ∧ s03 < 256 ∧ s10 < 256 ∧ s11 < 256 ∧ s12 < 256 ∧ s13 < 256 ∧ s20 < 256 ∧ s21 < 256 ∧ s22 < 256 ∧ s23 < 256 ∧ s30 < 256 ∧ s31 < 256 ∧ s32 < 256 ∧ s33 < 256) := by
  obtain ⟨s00, s01, s02, s03, s10, s11, s12, s13, s20, s21, s22, s23, s30, s31, s32, s33, hq⟩ :=
    mat4_elim h.1
  subst hq
  refine ⟨s00, s01, s02, s03, s10, s11, s12, s13, s20, s21, s22, s23, s30, s31, s32, s33, rfl,
    ?_, ?_, ?_, ?_, ?_, ?_, ?_, ?_, ?_, ?_, ?_, ?_, ?_, ?_, ?_, ?_⟩
  · exact h.2 [s00, s01, s02, s03] (by simp) s00 (by simp)
  · exact h.2 [s00, s01, s02, s03] (by simp) s01 (by simp)
  · exact h.2 [s00, s01, s02, s03] (by simp) s02 (by simp)
  · exact h.2 [s00, s01, s02, s03] (by simp) s03 (by simp)
  · exact h.2 [s10, s11, s12, s13] (by simp) s10 (by simp)
  · exact h.2 [s10, s11, s12, s13] (by simp) s11 (by simp)
  · exact h.2 [s10, s11, s12, s13] (by simp) s12 (by simp)
  · exact h.2 [s10, s11, s12, s13] (by simp) s13 (by simp)
  · exact h.2 [s20, s21, s22, s23] (by simp) s20 (by simp)
  · exact h.2 [s20, s21, s22, s23] (by simp) s21 (by simp)
  · exact h.2 [s20, s21, s22, s23] (by simp) s22 (by simp)
  · exact h.2 [s20, s21, s22, s23] (by simp) s23 (by simp)
  · exact h.2 [s30, s31, s32, s33] (by simp) s30 (by simp)
  · exact h.2 [s30, s31, s32, s33] (by simp) s31 (by simp)
  · exact h.2 [s30, s31, s32, s33] (by simp) s32 (by simp)
  · exact h.2 [s30, s31, s32, s33] (by simp) s33 (by simp)

/-- `shift_rows` forward then inverse is the identity on an explicit state. -/
theorem shift_inv_shift_explicit (s00 s01 s02 s03 s10 s11 s12 s13 s20 s21 s22 s23 s30 s31 s32 s33 : Nat) :
    shift_rows (shift_rows [[s00, s01, s02, s03],[s10, s11, s12, s13],[s20, s21, s22, s23],[s30, s31, s32, s33]] false) true = [[s00, s01, s02, s03],[s10, s11, s12, s13],[s20, s21, s22, s23],[s30, s31, s32, s33]] := by
  simp [shift_rows, List.enum, List.enumFrom, List.range, List.range.loop]

/-- `sub_bytes` on an explicit state, forward direction. -/
theorem sub_explicit_f (s00 s01 s02 s03 s10 s11 s12 s13 s20 s21 s22 s23 s30 s31 s32 s33 : Nat) :
    sub_bytes [[s00, s01, s02, s03],[s10, s11, s12, s13],[s20, s21, s22, s23],[s30, s31, s32, s33]] false = [[sbox_lookup s00 s_box, sbox_lookup s01 s_box, sbox_lookup s02 s_box, sbox_lookup s03 s_box],[sbox_lookup s10 s_box, sbox_lookup s11 s_box, sbox_lookup s12 s_box, sbox_lookup s13 s_box],[sbox_lookup s20 s_box, sbox_lookup s21 s_box, sbox_lookup s22 s_box, sbox_lookup s23 s_box],[sbox_lookup s30 s_box, sbox_lookup s31 s_box, sbox_lookup s32 s_box, sbox_lookup s33 s_box]] := by
  unfold sub_bytes
  rfl

/-- `sub_bytes` on an explicit state, inverse direction. -/
theorem sub_explicit_i (s00 s01 s02 s03 s10 s11 s12 s13 s20 s21 s22 s23 s30 s31 s32 s33 : Nat) :
    sub_bytes [[s00, s01, s02, s03],[s10, s11, s12, s13],[s20, s21, s22, s23],[s30, s31, s32, s33]] true = [[sbox_lookup s00 inverse_s_box, sbox_lookup s01 inverse_s_box, sbox_lookup s02 inverse_s_box, sbox_lookup s03 inverse_s_box],[sbox_lookup s10 inverse_s_box, sbox_lookup s11 inverse_s_box, sbox_lookup s12 inverse_s_box, sbox_lookup s13 inverse_s_box],[sbox_lookup s20 inverse_s_box, sbox_lookup s21 inverse_s_box, sbox_lookup s22 inverse_s_box, sbox_lookup s23 inverse_s_box],[sbox_lookup s30 inverse_s_box, sbox_lookup s31 inverse_s_box, sbox_lookup s32 inverse_s_box, sbox_lookup s33 inverse_s_box]] := by
  unfold sub_bytes
  rfl

/-- `add_round_key` on explicit matrices. -/
theorem addrk_explicit (s00 s01 s02 s03 s10 s11 s12 s13 s20 s21 s22 s23 s30 s31 s32 s33 k00 k01 k02 k03 k10 k11 k12 k13 k20 k21 k22 k23 k30 k31 k32 k33 : Nat) :
    add_round_key [[s00, s01, s02, s03],[s10, s11, s12, s13],[s20, s21, s22, s23],[s30, s31, s32, s33]] [[k00, k01, k02, k03],[k10, k11, k12, k13],[k20, k21, k22, k23],[k30, k31, k32, k33]] = [[s00 ^^^ k00, s01 ^^^ k01, s02 ^^^ k02, s03 ^^^ k03],[s10 ^^^ k10, s11 ^^^ k11, s12 ^^^ k12, s13 ^^^ k13],[s20 ^^^ k20, s21 ^^^ k21, s22 ^^^ k22, s23 ^^^ k23],[s30 ^^^ k30, s31 ^^^ k31, s32 ^^^ k32, s33 ^^^ k33]] := by
  unfold add_round_key
  rfl

/-- A 16-byte block survives the matrix round trip. -/
theorem m2b_b2m_explicit (y0 y1 y2 y3 y4 y5 y6 y7 y8 y9 y10 y11 y12 y13 y14 y15 : Nat) :
    matrix_to_bytes (bytes_to_matrix [y0, y1, y2, y3, y4, y5, y6, y7, y8, y9, y10, y11, y12, y13, y14, y15]) = [y0, y1, y2, y3, y4, y5, y6, y7, y8, y9, y10, y11, y12, y13, y14, y15] := by
  unfold matrix_to_bytes bytes_to_matrix transpose_matrix
  rfl

/-- A 4x4 matrix survives the byte round trip. -/
theorem b2m_m2b_explicit (s00 s01 s02 s03 s10 s11 s12 s13 s20 s21 s22 s23 s30 s31 s32 s33 : Nat) :
    bytes_to_matrix (matrix_to_bytes [[s00, s01, s02, s03],[s10, s11, s12, s13],[s20, s21, s22, s23],[s30, s31, s32, s33]]) = [[s00, s01, s02, s03],[s10, s11, s12, s13],[s20, s21, s22, s23],[s30, s31, s32, s33]] := by
  unfold matrix_to_bytes bytes_to_matrix transpose_matrix
  rfl

set_option maxRecDepth 10000 in
/-- The inverse s-box inverts the s-box on bytes. -/
theorem sbox_pair : ∀ b < 256, sbox_lookup (sbox_lookup b s_box) inverse_s_box = b := by decide

set_option maxRecDepth 10000 in
/-- The s-box maps bytes to bytes. -/
theorem sbox_lt : ∀ b < 256, sbox_lookup b s_box < 256 := by decide

/-- `shift_rows` inverse undoes `shift_rows` on any 4x4 state. -/
theorem shift_inv_shift {st : List (List Nat)} (h : Mat4 st) :
    shift_rows (shift_rows st false) true = st := by
  obtain ⟨s00, s01, s02, s03, s10, s11, s12, s13, s20, s21, s22, s23, s30, s31, s32, s33, hq⟩ :=
    mat4_elim h
  subst hq
  exact shift_inv_shift_explicit s00 s01 s02 s03 s10 s11 s12 s13 s20 s21 s22 s23 s30 s31 s32 s33

/-- The inverse `sub_bytes` undoes `sub_bytes` on a byte state. -/
theorem sub_inv_sub {st : List (List Nat)} (h : MatB st) :
    sub_bytes (sub_bytes st false) true = st := by
  obtain ⟨s00, s01, s02, s03, s10, s11, s12, s13, s20, s21, s22, s23, s30, s31, s32, s33, hq,
    h00, h01, h02, h03, h10, h11, h12, h13, h20, h21, h22, h23, h30, h31, h32, h33⟩ :=
    matB_elim h
  subst hq
  rw [sub_explicit_f, sub_explicit_i]
  rw [sbox_pair s00 h00]
  rw [sbox_pair s01 h01]
  rw [sbox_pair s02 h02]
  rw [sbox_pair s03 h03]
  rw [sbox_pair s10 h10]
  rw [sbox_pair s11 h11]
  rw [sbox_pair s12 h12]
  rw [sbox_pair s13 h13]
  rw [sbox_pair s20 h20]
  rw [sbox_pair s21 h21]
  rw [sbox_pair s22 h22]
  rw [sbox_pair s23 h23]
  rw [sbox_pair s30 h30]
  rw [sbox_pair s31 h31]
  rw [sbox_pair s32 h32]
  rw [sbox_pair s33 h33]

/-- Adding the same round key twice is the identity on a 4x4 state. -/
theorem add_add {st k : List (List Nat)} (hs : Mat4 st) (hk : Mat4 k) :
    add_round_key (add_round_key st k) k = st := by
  obtain ⟨s00, s01, s02, s03, s10, s11, s12, s13, s20, s21, s22, s23, s30, s31, s32, s33, hq⟩ :=
    mat4_elim hs
  obtain ⟨k00, k01, k02, k03, k10, k11, k12, k13, k20, k21, k22, k23, k30, k31, k32, k33, hqk⟩ :=
    mat4_elim hk
  subst hq hqk
  rw [addrk_explicit, addrk_explicit]
  simp [Nat.xor_cancel_right]

/-- The inverse MixColumns undoes MixColumns on a byte state. -/
theorem mix_inv_mix {st : List (List Nat)} (h : MatB st) :
    mix_columns (mix_columns st false) true = st := by
  obtain ⟨s00, s01, s02, s03, s10, s11, s12, s13, s20, s21, s22, s23, s30, s31, s32, s33, hq,
    h00, h01, h02, h03, h10, h11, h12, h13, h20, h21, h22, h23, h30, h31, h32, h33⟩ :=
    matB_elim h
  subst hq
  rw [mix_explicit_f, mix_explicit_i]
  rw [mix_scalar_0 s00 s10 s20 s30 h00 h10 h20 h30]
  rw [mix_scalar_0 s01 s11 s21 s31 h01 h11 h21 h31]
  rw [mix_scalar_0 s02 s12 s22 s32 h02 h12 h22 h32]
  rw [mix_scalar_0 s03 s13 s23 s33 h03 h13 h23 h33]
  rw [mix_scalar_1 s00 s10 s20 s30 h00 h10 h20 h30]
  rw [mix_scalar_1 s01 s11 s21 s31 h01 h11 h21 h31]
  rw [mix_scalar_1 s02 s12 s22 s32 h02 h12 h22 h32]
  rw [mix_scalar_1 s03 s13 s23 s33 h03 h13 h23 h33]
  rw [mix_scalar_2 s00 s10 s20 s30 h00 h10 h20 h30]
  rw [mix_scalar_2 s01 s11 s21 s31 h01 h11 h21 h31]
  rw [mix_scalar_2 s02 s12 s22 s32 h02 h12 h22 h32]
  rw [mix_scalar_2 s03 s13 s23 s33 h03 h13 h23 h33]
  rw [mix_scalar_3 s00 s10 s20 s30 h00 h10 h20 h30]
  rw [mix_scalar_3 s01 s11 s21 s31 h01 h11 h21 h31]
  rw [mix_scalar_3 s02 s12 s22 s32 h02 h12 h22 h32]
  rw [mix_scalar_3 s03 s13 s23 s33 h03 h13 h23 h33]


/-- XOR of four bytes accumulated from zero stays a byte. -/
theorem xor4_lt {a b c d : Nat} (ha : a < 256) (hb : b < 256) (hc : c < 256) (hd : d < 256) :
    (((0 ^^^ a) ^^^ b) ^^^ c) ^^^ d < 256 := by
  simpa using xor8 (xor8 (xor8 ha hb) hc) hd

/-- `getD` with default `0` of a list of bytes is a byte. -/
theorem getD_lt_of_forall {l : List Nat} (h : ∀ x ∈ l, x < 256) (j : Nat) : l.getD j 0 < 256 := by
  rcases Nat.lt_or_ge j l.length with hj | hj
  · rw [List.getD_eq_getElem l 0 hj]
    exact h _ (List.getElem_mem hj)
  · rw [List.getD_eq_default l 0 hj]
    omega

/-- Each big-endian byte extracted by `split_bytes` is below 256. -/
theorem bytes_expr_lt (n L i : Nat) (hi : i < L) :
    (n % 2 ^ ((L - i) * 8)) >>> ((L - i - 1) * 8) < 256 := by
  have h1 : (L - i) * 8 = (L - i - 1) * 8 + 8 := by omega
  rw [Nat.shiftRight_eq_div_pow, Nat.div_lt_iff_lt_mul (by positivity), h1]
  have h2 : n % 2 ^ ((L - i - 1) * 8 + 8) < 2 ^ ((L - i - 1) * 8) * 256 :=
    calc n % 2 ^ ((L - i - 1) * 8 + 8) < 2 ^ ((L - i - 1) * 8 + 8) := Nat.mod_lt n (by positivity)
    _ = 2 ^ ((L - i - 1) * 8) * 256 := by rw [pow_add]; norm_num
  omega

/-- `split_bytes` produces bytes. -/
theorem mem_split_bytes_lt (n c : Nat) : ∀ x ∈ split_bytes n c, x < 256 := by
  intro x hx
  simp only [split_bytes, List.mem_append, List.mem_replicate, List.mem_map, List.mem_range] at hx
  rcases hx with ⟨-, rfl⟩ | ⟨i, hi, rfl⟩
  · omega
  · exact bytes_expr_lt n _ i hi

/-- Indexing `split_bytes` output with default `0` yields a byte. -/
theorem getD_split_bytes_lt (n c j : Nat) : (split_bytes n c).getD j 0 < 256 :=
  getD_lt_of_forall (mem_split_bytes_lt n c) j

/-- A double range-4 map is a 4x4 matrix. -/
theorem mat4_ranges (f : Nat → Nat → Nat) :
    Mat4 ((List.range 4).map (fun i => (List.range 4).map (fun j => f i j))) := by
  refine ⟨by simp, ?_⟩
  intro r hr
  simp only [List.mem_map, List.mem_range] at hr
  obtain ⟨i, -, rfl⟩ := hr
  simp

/-- A double range-4 map of bytes is a byte matrix. -/
theorem matB_ranges (f : Nat → Nat → Nat) (hf : ∀ i j, f i j < 256) :
    MatB ((List.range 4).map (fun i => (List.range 4).map (fun j => f i j))) := by
  refine ⟨mat4_ranges f, ?_⟩
  intro r hr x hx
  simp only [List.mem_map, List.mem_range] at hr
  obtain ⟨i, -, rfl⟩ := hr
  simp only [List.mem_map, List.mem_range] at hx
  obtain ⟨j, -, rfl⟩ := hx
  exact hf i j

/-- Entry access of a byte matrix with defaults yields a byte. -/
theorem matB_entry_lt {s : List (List Nat)} (hS : MatB s) (i j : Nat) :
    (s.getD i []).getD j 0 < 256 := by
  apply getD_lt_of_forall _ j
  intro x hx
  rcases Nat.lt_or_ge i s.length with hi | hi
  · rw [List.getD_eq_getElem s [] hi] at hx
    exact hS.2 _ (List.getElem_mem hi) x hx
  · rw [List.getD_eq_default s [] hi] at hx
    simp at hx

/-- `word_array_to_4x4_matrix` always yields a byte matrix. -/
theorem matB_wordmat (words : List Nat) : MatB (word_array_to_4x4_matrix words) :=
  matB_ranges _ (fun _ _ => getD_split_bytes_lt _ _ _)

/-- `add_round_key` always yields a 4x4 matrix. -/
theorem mat4_ark (s k : List (List Nat)) : Mat4 (add_round_key s k) := mat4_ranges _

/-- `add_round_key` of byte matrices is a byte matrix. -/
theorem matB_ark {s k : List (List Nat)} (hs : MatB s) (hk : MatB k) :
    MatB (add_round_key s k) :=
  matB_ranges _ (fun i j => xor8 (matB_entry_lt hs i j) (matB_entry_lt hk i j))

/-- A literal 4x4 matrix of bytes is a byte matrix. -/
theorem matB_of_entries {s00 s01 s02 s03 s10 s11 s12 s13 s20 s21 s22 s23 s30 s31 s32 s33 : Nat} (h00 : s00 < 256) (h01 : s01 < 256) (h02 : s02 < 256) (h03 : s03 < 256) (h10 : s10 < 256) (h11 : s11 < 256) (h12 : s12 < 256) (h13 : s13 < 256) (h20 : s20 < 256) (h21 : s21 < 256) (h22 : s22 < 256) (h23 : s23 < 256) (h30 : s30 < 256) (h31 : s31 < 256) (h32 : s32 < 256) (h33 : s33 < 256) : MatB [[s00, s01, s02, s03],[s10, s11, s12, s13],[s20, s21, s22, s23],[s30, s31, s32, s33]] := by
  refine ⟨⟨rfl, ?_⟩, ?_⟩
  · intro r hr
    fin_cases hr <;> rfl
  · intro r hr x hx
    fin_cases hr <;> fin_cases hx <;> omega

/-- `transpose_matrix` of a matrix with byte entries is a byte matrix. -/
theorem matB_transpose (m : List (List Nat)) (h : ∀ a b, (m.getD a []).getD b 0 < 256) :
    MatB (transpose_matrix m) :=
  matB_of_entries (h 0 0) (h 1 0) (h 2 0) (h 3 0) (h 0 1) (h 1 1) (h 2 1) (h 3 1) (h 0 2) (h 1 2) (h 2 2) (h 3 2) (h 0 3) (h 1 3) (h 2 3) (h 3 3)

/-- `mix_columns` of a byte matrix is a byte matrix. -/
theorem matB_mix {st : List (List Nat)} (hS : MatB st) (inv : Bool) :
    MatB (mix_columns st inv) := by
  refine matB_transpose _ (fun a b => ?_)
  exact matB_entry_lt (matB_ranges _ (fun c i => xor4_lt (gf_mul_lt _ (matB_entry_lt hS 0 c))
    (gf_mul_lt _ (matB_entry_lt hS 1 c)) (gf_mul_lt _ (matB_entry_lt hS 2 c))
    (gf_mul_lt _ (matB_entry_lt hS 3 c)))) a b

/-- Forward `sub_bytes` of a byte matrix is a byte matrix. -/
theorem matB_subF {st : List (List Nat)} (hS : MatB st) : MatB (sub_bytes st false) := by
  obtain ⟨s00, s01, s02, s03, s10, s11, s12, s13, s20, s21, s22, s23, s30, s31, s32, s33, hq,
    h00, h01, h02, h03, h10, h11, h12, h13, h20, h21, h22, h23, h30, h31, h32, h33⟩ :=
    matB_elim hS
  subst hq
  rw [sub_explicit_f]
  exact matB_of_entries (sbox_lt s00 h00) (sbox_lt s01 h01) (sbox_lt s02 h02) (sbox_lt s03 h03) (sbox_lt s10 h10) (sbox_lt s11 h11) (sbox_lt s12 h12) (sbox_lt s13 h13) (sbox_lt s20 h20) (sbox_lt s21 h21) (sbox_lt s22 h22) (sbox_lt s23 h23) (sbox_lt s30 h30) (sbox_lt s31 h31) (sbox_lt s32 h32) (sbox_lt s33 h33)

/-- Forward `shift_rows` on an explicit state. -/
theorem shift_explicit_f (s00 s01 s02 s03 s10 s11 s12 s13 s20 s21 s22 s23 s30 s31 s32 s33 : Nat) :
    shift_rows [[s00, s01, s02, s03],[s10, s11, s12, s13],[s20, s21, s22, s23],[s30, s31, s32, s33]] false = [[s00, s01, s02, s03],[s11, s12, s13, s10],[s22, s23, s20, s21],[s33, s30, s31, s32]] := by
  simp [shift_rows, List.enum, List.enumFrom, List.range, List.range.loop]

/-- Forward `shift_rows` of a byte matrix is a byte matrix. -/
theorem matB_shiftF {st : List (List Nat)} (hS : MatB st) : MatB (shift_rows st false) := by
  obtain ⟨s00, s01, s02, s03, s10, s11, s12, s13, s20, s21, s22, s23, s30, s31, s32, s33, hq,
    h00, h01, h02, h03, h10, h11, h12, h13, h20, h21, h22, h23, h30, h31, h32, h33⟩ :=
    matB_elim hS
  subst hq
  rw [shift_explicit_f]
  exact matB_of_entries h00 h01 h02 h03 h11 h12 h13 h10 h22 h23 h20 h21 h33 h30 h31 h32

/-- `bytes_to_matrix` of a byte string is a byte matrix. -/
theorem matB_b2m (x : Bytes) (hx : ∀ b ∈ x, b < 256) : MatB (bytes_to_matrix x) :=
  matB_of_entries (getD_lt_of_forall hx 0) (getD_lt_of_forall hx 4) (getD_lt_of_forall hx 8) (getD_lt_of_forall hx 12) (getD_lt_of_forall hx 1) (getD_lt_of_forall hx 5) (getD_lt_of_forall hx 9) (getD_lt_of_forall hx 13) (getD_lt_of_forall hx 2) (getD_lt_of_forall hx 6) (getD_lt_of_forall hx 10) (getD_lt_of_forall hx 14) (getD_lt_of_forall hx 3) (getD_lt_of_forall hx 7) (getD_lt_of_forall hx 11) (getD_lt_of_forall hx 15)

/-- `cipher_round` of a byte matrix is a byte matrix. -/
theorem matB_cipher_round {S : List (List Nat)} (K : List Nat) (hS : MatB S) :
    MatB (cipher_round S K) :=
  matB_ark (matB_mix (matB_shiftF (matB_subF hS)) false) (matB_wordmat _)

/-- Folding `cipher_round` over any round list preserves byte matrices. -/
theorem matB_foldl_cipher (f : Nat → List Nat) (rs : List Nat) {S : List (List Nat)} (hS : MatB S) :
    MatB (rs.foldl (fun st r => cipher_round st (f r)) S) := by
  induction rs generalizing S with
  | nil => exact hS
  | cons r rs ih => exact ih (matB_cipher_round (f r) hS)

/-- A 4x4 matrix survives the byte round trip. -/
theorem b2m_m2b {m : List (List Nat)} (h : Mat4 m) :
    bytes_to_matrix (matrix_to_bytes m) = m := by
  obtain ⟨s00, s01, s02, s03, s10, s11, s12, s13, s20, s21, s22, s23, s30, s31, s32, s33, hq⟩ :=
    mat4_elim h
  subst hq
  exact b2m_m2b_explicit s00 s01 s02 s03 s10 s11 s12 s13 s20 s21 s22 s23 s30 s31 s32 s33

/-- Destructure a 16-element list. -/
theorem list_len_sixteen {α : Type} (l : List α) (h : l.length = 16) :
    ∃ b0 b1 b2 b3 b4 b5 b6 b7 b8 b9 b10 b11 b12 b13 b14 b15, l = [b0, b1, b2, b3, b4, b5, b6, b7, b8, b9, b10, b11, b12, b13, b14, b15] := by
  rcases l with _ | ⟨b0, l⟩
  · simp at h
  rcases l with _ | ⟨b1, l⟩
  · simp at h
  rcases l with _ | ⟨b2, l⟩
  · simp at h
  rcases l with _ | ⟨b3, l⟩
  · simp at h
  rcases l with _ | ⟨b4, l⟩
  · simp at h
  rcases l with _ | ⟨b5, l⟩
  · simp at h
  rcases l with _ | ⟨b6, l⟩
  · simp at h
  rcases l with _ | ⟨b7, l⟩
  · simp at h
  rcases l with _ | ⟨b8, l⟩
  · simp at h
  rcases l with _ | ⟨b9, l⟩
  · simp at h
  rcases l with _ | ⟨b10, l⟩
  · simp at h
  rcases l with _ | ⟨b11, l⟩
  · simp at h
  rcases l with _ | ⟨b12, l⟩
  · simp at h
  rcases l with _ | ⟨b13, l⟩
  · simp at h
  rcases l with _ | ⟨b14, l⟩
  · simp at h
  rcases l with _ | ⟨b15, l⟩
  · simp at h
  rcases l with _ | ⟨b16, l⟩
  · exact ⟨b0, b1, b2, b3, b4, b5, b6, b7, b8, b9, b10, b11, b12, b13, b14, b15, rfl⟩
  · simp at h

/-- A 16-byte string survives the matrix round trip. -/
theorem m2b_b2m {x : Bytes} (h : x.length = 16) :
    matrix_to_bytes (bytes_to_matrix x) = x := by
  obtain ⟨b0, b1, b2, b3, b4, b5, b6, b7, b8, b9, b10, b11, b12, b13, b14, b15, rfl⟩ := list_len_sixteen x h
  exact m2b_b2m_explicit b0 b1 b2 b3 b4 b5 b6 b7 b8 b9 b10 b11 b12 b13 b14 b15

/-- `matrix_to_bytes` on an explicit matrix: column-major flattening. -/
theorem m2b_explicit (s00 s01 s02 s03 s10 s11 s12 s13 s20 s21 s22 s23 s30 s31 s32 s33 : Nat) :
    matrix_to_bytes [[s00, s01, s02, s03],[s10, s11, s12, s13],[s20, s21, s22, s23],[s30, s31, s32, s33]] = [s00, s10, s20, s30, s01, s11, s21, s31, s02, s12, s22, s32, s03, s13, s23, s33] := rfl

/-- `matrix_to_bytes` of a byte matrix yields bytes. -/
theorem mem_m2b_lt {m : List (List Nat)} (hS : MatB m) : ∀ x ∈ matrix_to_bytes m, x < 256 := by
  obtain ⟨s00, s01, s02, s03, s10, s11, s12, s13, s20, s21, s22, s23, s30, s31, s32, s33, hq,
    h00, h01, h02, h03, h10, h11, h12, h13, h20, h21, h22, h23, h30, h31, h32, h33⟩ :=
    matB_elim hS
  subst hq
  rw [m2b_explicit]
  intro x hx
  simp only [List.mem_cons, List.not_mem_nil, or_false] at hx
  rcases hx with rfl|rfl|rfl|rfl|rfl|rfl|rfl|rfl|rfl|rfl|rfl|rfl|rfl|rfl|rfl|rfl <;> omega

/-- `matrix_to_bytes` always yields 16 bytes. -/
theorem m2b_len (m : List (List Nat)) : (matrix_to_bytes m).length = 16 := rfl

/-- `encrypt_block` always yields 16 bytes. -/
theorem encrypt_block_len (ks : List Nat) (b : Bytes) : (encrypt_block ks b).length = 16 :=
  m2b_len _

/-- `encrypt_block` of a byte string yields bytes. -/
theorem mem_encrypt_block_lt (ks : List Nat) {b : Bytes} (hb : ∀ y ∈ b, y < 256) :
    ∀ x ∈ encrypt_block ks b, x < 256 := by
  have h0 : MatB (add_round_key (bytes_to_matrix b)
      (word_array_to_4x4_matrix (word_slice ks 0 4))) :=
    matB_ark (matB_b2m b hb) (matB_wordmat _)
  have h1 := matB_foldl_cipher (fun r => word_slice ks (r * 4) ((r + 1) * 4))
    (List.range' 1 13 1) h0
  exact mem_m2b_lt (matB_ark (matB_shiftF (matB_subF h1)) (matB_wordmat (word_slice ks 56 60)))

/-- One decipher round undoes one cipher round, up to the shifted and
substituted form carried through the inverse cipher. -/
theorem round_step {S : List (List Nat)} (K : List Nat) (hS : MatB S) :
    decipher_round (shift_rows (sub_bytes (cipher_round S K) false) false) K =
      shift_rows (sub_bytes S false) false := by
  have hmixS : MatB (mix_columns (shift_rows (sub_bytes S false) false) false) :=
    matB_mix (matB_shiftF (matB_subF hS)) false
  have hCR : MatB (add_round_key (mix_columns (shift_rows (sub_bytes S false) false) false)
      (word_array_to_4x4_matrix K)) := matB_ark hmixS (matB_wordmat K)
  simp only [decipher_round, cipher_round]
  rw [shift_inv_shift (matB_subF hCR).1, sub_inv_sub hCR,
    add_add hmixS.1 (matB_wordmat K).1, mix_inv_mix (matB_shiftF (matB_subF hS))]

/-- Folding decipher rounds with the reversed key order undoes the cipher
round fold. -/
theorem fold_inv (f : Nat → List Nat) (rs : List Nat) {S : List (List Nat)} (hS : MatB S) :
    (rs.reverse).foldl (fun st r => decipher_round st (f r))
      (shift_rows (sub_bytes (rs.foldl (fun st r => cipher_round st (f r)) S) false) false) =
      shift_rows (sub_bytes S false) false := by
  induction rs generalizing S with
  | nil => rfl
  | cons r rs ih =>
    simp only [List.reverse_cons, List.foldl_append, List.foldl_cons, List.foldl_nil]
    rw [ih (matB_cipher_round (f r) hS)]
    exact round_step (f r) hS

/-- `decrypt_block` undoes `encrypt_block` on a 16-byte block. -/
theorem decrypt_encrypt_block (ks : List Nat) {block : Bytes} (hlen : block.length = 16)
    (hb : ∀ x ∈ block, x < 256) :
    decrypt_block ks (encrypt_block ks block) = block := by
  have hS0 : MatB (add_round_key (bytes_to_matrix block)
      (word_array_to_4x4_matrix (word_slice ks 0 4))) :=
    matB_ark (matB_b2m block hb) (matB_wordmat _)
  have hE := matB_foldl_cipher (fun r => word_slice ks (r * 4) ((r + 1) * 4))
    (List.range' 1 13 1) hS0
  have hL : List.range' 1 13 1 = [1, 2, 3, 4, 5, 6, 7, 8, 9, 10, 11, 12, 13] := rfl
  have hLr : ([1, 2, 3, 4, 5, 6, 7, 8, 9, 10, 11, 12, 13] : List Nat).reverse =
      [13, 12, 11, 10, 9, 8, 7, 6, 5, 4, 3, 2, 1] := rfl
  have hbridge : ∀ X : List (List Nat),
      (List.range' 1 13 1).foldl
        (fun st r => decipher_round st (word_slice ks (56 - r * 4) (60 - r * 4))) X =
      ((List.range' 1 13 1).reverse).foldl
        (fun st r => decipher_round st (word_slice ks (r * 4) ((r + 1) * 4))) X := by
    intro X
    rw [hL, hLr]
    simp only [List.foldl_cons, List.foldl_nil]
  simp only [decrypt_block, encrypt_block]
  rw [b2m_m2b (mat4_ark _ _)]
  rw [add_add (matB_shiftF (matB_subF hE)).1 (matB_wordmat (word_slice ks 56 60)).1]
  rw [hbridge]
  rw [fold_inv (fun r => word_slice ks (r * 4) ((r + 1) * 4)) (List.range' 1 13 1) hS0]
  rw [shift_inv_shift (matB_subF hS0).1, sub_inv_sub hS0,
    add_add (matB_b2m block hb).1 (matB_wordmat (word_slice ks 0 4)).1, m2b_b2m hlen]


/-- `xor_b` length. -/
theorem xor_b_length (a b : Bytes) : (xor_b a b).length = min a.length b.length := by
  simp [xor_b]

/-- `xor_b` of byte strings yields bytes. -/
theorem mem_xor_b_lt : ∀ (a b : Bytes), (∀ x ∈ a, x < 256) → (∀ x ∈ b, x < 256) →
    ∀ x ∈ xor_b a b, x < 256 := by
  intro a
  induction a with
  | nil => intro b ha hb; simp [xor_b]
  | cons y a ih =>
    intro b ha hb
    cases b with
    | nil => simp [xor_b]
    | cons z b =>
      intro x hx
      simp only [xor_b, List.zipWith_cons_cons, List.mem_cons] at hx
      rcases hx with rfl | hx
      · exact xor8 (ha y (by simp)) (hb z (by simp))
      · exact ih b (fun u hu => ha u (by simp [hu])) (fun u hu => hb u (by simp [hu])) x hx

/-- XOR with the same string twice is the identity on the shorter left side. -/
theorem xor_b_cancel : ∀ (a p : Bytes), a.length ≤ p.length → xor_b (xor_b a p) p = a := by
  intro a
  induction a with
  | nil => intro p h; rfl
  | cons y a ih =>
    intro p h
    cases p with
    | nil => simp at h
    | cons z p =>
      show ((y ^^^ z) ^^^ z) :: xor_b (xor_b a p) p = y :: a
      rw [Nat.xor_cancel_right, ih p (by simp only [List.length_cons] at h; omega)]

/-- `i_to_b_fixed` length. -/
theorem i_to_b_fixed_length (len n : Nat) : (i_to_b_fixed len n).length = len := by
  simp [i_to_b_fixed]

/-- `i_to_b_fixed` yields bytes. -/
theorem mem_i_to_b_fixed_lt (len n : Nat) : ∀ x ∈ i_to_b_fixed len n, x < 256 := by
  intro x hx
  simp only [i_to_b_fixed, List.mem_map, List.mem_range] at hx
  obtain ⟨i, -, rfl⟩ := hx
  exact Nat.mod_lt _ (by norm_num)

/-- `hmac_calculate` yields a 32-byte tag. -/
theorem hmac_calculate_length (ct : Bytes) (iv key : Nat) :
    (hmac_calculate ct iv key).length = 32 :=
  i_to_b_fixed_length 32 _

/-- `cbcEnc` yields one ciphertext block per plaintext block. -/
theorem cbcEnc_length (ks : List Nat) : ∀ (bl : List Bytes) (prev : Bytes),
    (cbcEnc ks prev bl).length = bl.length := by
  intro bl
  induction bl with
  | nil => intro prev; rfl
  | cons b bl ih => intro prev; simp only [cbcEnc, List.length_cons, ih]

/-- `cbcEnc` of 16-byte byte blocks yields 16-byte byte blocks. -/
theorem cbcEnc_mem (ks : List Nat) : ∀ (bl : List Bytes) (prev : Bytes),
    (∀ b ∈ bl, b.length = 16 ∧ ∀ x ∈ b, x < 256) → (∀ x ∈ prev, x < 256) →
    ∀ c ∈ cbcEnc ks prev bl, c.length = 16 ∧ ∀ x ∈ c, x < 256 := by
  intro bl
  induction bl with
  | nil => intro prev _ _ c hc; simp [cbcEnc] at hc
  | cons b bl ih =>
    intro prev hbl hprev c hc
    have hb := hbl b (by simp)
    have hxb : ∀ x ∈ xor_b b prev, x < 256 := mem_xor_b_lt b prev hb.2 hprev
    simp only [cbcEnc, List.mem_cons] at hc
    rcases hc with rfl | hc
    · exact ⟨encrypt_block_len _ _, mem_encrypt_block_lt ks hxb⟩
    · exact ih (encrypt_block ks (xor_b b prev))
        (fun x hx => hbl x (by simp [hx])) (mem_encrypt_block_lt ks hxb) c hc

/-- The CBC decryption formula undoes `cbcEnc` block by block. -/
theorem cbcDec_inv (ks : List Nat) : ∀ (bl : List Bytes) (prev : Bytes),
    (∀ b ∈ bl, b.length = 16 ∧ ∀ x ∈ b, x < 256) →
    prev.length = 16 → (∀ x ∈ prev, x < 256) →
    ((cbcEnc ks prev bl).zip (prev :: cbcEnc ks prev bl)).map
      (fun bp => xor_b (decrypt_block ks bp.1) bp.2) = bl := by
  intro bl
  induction bl with
  | nil => intro prev _ _ _; rfl
  | cons b bl ih =>
    intro prev hbl hplen hpb
    have hb := hbl b (by simp)
    have hxlen : (xor_b b prev).length = 16 := by
      rw [xor_b_length, hb.1, hplen]
      simp
    have hxb : ∀ x ∈ xor_b b prev, x < 256 := mem_xor_b_lt b prev hb.2 hpb
    simp only [cbcEnc, List.zip_cons_cons, List.map_cons]
    rw [decrypt_encrypt_block ks hxlen hxb, xor_b_cancel b prev (by rw [hb.1, hplen]),
      ih (encrypt_block ks (xor_b b prev)) (fun x hx => hbl x (by simp [hx]))
        (encrypt_block_len _ _) (mem_encrypt_block_lt ks hxb)]

/-- Chunking undoes flattening of 16-byte blocks when the fuel is ample. -/
theorem chunksAux_flatten : ∀ (f : Nat) (bl : List Bytes), bl.length < f →
    (∀ b ∈ bl, b.length = 16) → chunksAux 16 f bl.flatten = bl := by
  intro f
  induction f with
  | zero => intro bl h _; omega
  | succ f ih =>
    intro bl h hb
    cases bl with
    | nil => rfl
    | cons b bl =>
      have hblen : b.length = 16 := hb b (by simp)
      rw [List.flatten_cons]
      have hne : b ++ bl.flatten ≠ [] := by
        intro hemp
        have := congrArg List.length hemp
        simp [hblen] at this
      have ht : (b ++ bl.flatten).take 16 = b := by
        rw [← hblen]; exact List.take_left b _
      have hd : (b ++ bl.flatten).drop 16 = bl.flatten := by
        rw [← hblen]; exact List.drop_left b _
      simp only [chunksAux, if_neg hne, ht, hd]
      rw [ih bl (by simp only [List.length_cons] at h; omega) (fun x hx => hb x (by simp [hx]))]

/-- The flattening of a list of 16-byte blocks has length `16 *` count. -/
theorem flatten_len_16 : ∀ (bl : List Bytes), (∀ b ∈ bl, b.length = 16) →
    bl.flatten.length = 16 * bl.length := by
  intro bl
  induction bl with
  | nil => intro _; rfl
  | cons b bl ih =>
    intro hb
    rw [List.flatten_cons, List.length_append, hb b (by simp),
      ih (fun x hx => hb x (by simp [hx])), List.length_cons]
    ring

/-- `split_blocks` undoes flattening of 16-byte blocks. -/
theorem split_blocks_flatten (bl : List Bytes) (hb : ∀ b ∈ bl, b.length = 16) :
    split_blocks bl.flatten = .ok bl := by
  unfold split_blocks
  rw [flatten_len_16 bl hb]
  rw [if_neg (by omega : ¬16 * bl.length % 16 ≠ 0)]
  rw [Nat.mul_div_cancel_left _ (by norm_num : (0:Nat) < 16)]
  rw [chunksAux_flatten (bl.length + 1) bl (by omega) hb]

/-- Flattening undoes chunking when the fuel is ample. -/
theorem chunksAux_join : ∀ (f : Nat) (d : Bytes), d.length ≤ 16 * f →
    (chunksAux 16 f d).flatten = d := by
  intro f
  induction f with
  | zero =>
    intro d h
    have : d = [] := List.eq_nil_of_length_eq_zero (by omega)
    subst this
    rfl
  | succ f ih =>
    intro d h
    by_cases hne : d = []
    · subst hne; rfl
    · simp only [chunksAux, if_neg hne, List.flatten_cons]
      rw [ih (d.drop 16) (by simp only [List.length_drop]; omega), List.take_append_drop]

/-- Every chunk of a multiple-of-16-length string has 16 bytes. -/
theorem chunks_len : ∀ (f : Nat) (d : Bytes), d.length % 16 = 0 →
    ∀ b ∈ chunksAux 16 f d, b.length = 16 := by
  intro f
  induction f with
  | zero => intro d _ b hb; simp [chunksAux] at hb
  | succ f ih =>
    intro d hmod b hb
    by_cases hne : d = []
    · subst hne; simp [chunksAux] at hb
    · have hpos : 0 < d.length := List.length_pos_of_ne_nil hne
      simp only [chunksAux, if_neg hne, List.mem_cons] at hb
      rcases hb with rfl | hb
      · rw [List.length_take]; omega
      · exact ih (d.drop 16) (by simp only [List.length_drop]; omega) b hb

/-- Chunk members come from the chunked string. -/
theorem chunks_mem : ∀ (f : Nat) (d : Bytes) (b : Bytes), b ∈ chunksAux 16 f d →
    ∀ x ∈ b, x ∈ d := by
  intro f
  induction f with
  | zero => intro d b hb; simp [chunksAux] at hb
  | succ f ih =>
    intro d b hb x hx
    by_cases hne : d = []
    · subst hne; simp [chunksAux] at hb
    · simp only [chunksAux, if_neg hne, List.mem_cons] at hb
      rcases hb with rfl | hb
      · exact List.mem_of_mem_take hx
      · exact List.mem_of_mem_drop (ih (d.drop 16) b hb x hx)

/-- `add_pkcs7` always pads to a multiple of 16 bytes. -/
theorem add_pkcs7_mod (d : Bytes) : (add_pkcs7 d).length % 16 = 0 := by
  simp only [add_pkcs7, List.length_append, List.length_replicate]
  omega

/-- `add_pkcs7` of a byte string yields bytes. -/
theorem mem_add_pkcs7_lt {d : Bytes} (hd : ∀ x ∈ d, x < 256) :
    ∀ x ∈ add_pkcs7 d, x < 256 := by
  intro x hx
  simp only [add_pkcs7, List.mem_append, List.mem_replicate] at hx
  rcases hx with hx | ⟨-, rfl⟩
  · exact hd x hx
  · omega

/-- `remove_pkcs7` undoes `add_pkcs7`. -/
theorem remove_add_pkcs7 (d : Bytes) : remove_pkcs7 (add_pkcs7 d) = .ok d := by
  have hmod : d.length % 16 < 16 := Nat.mod_lt _ (by norm_num)
  obtain ⟨k, hk⟩ : ∃ k, 16 - d.length % 16 = k + 1 := ⟨15 - d.length % 16, by omega⟩
  show remove_pkcs7 (d ++ List.replicate (16 - d.length % 16) (16 - d.length % 16)) = .ok d
  have hgl : (d ++ List.replicate (16 - d.length % 16) (16 - d.length % 16)).getLast? =
      some (16 - d.length % 16) := by
    rw [hk, List.replicate_succ', ← List.append_assoc, List.getLast?_concat]
  have hlen : (d ++ List.replicate (16 - d.length % 16) (16 - d.length % 16)).length =
      d.length + (16 - d.length % 16) := by
    simp
  have hsub : (d ++ List.replicate (16 - d.length % 16) (16 - d.length % 16)).length -
      (16 - d.length % 16) = d.length := by
    rw [hlen]; omega
  have hdrop : (d ++ List.replicate (16 - d.length % 16) (16 - d.length % 16)).drop
      ((d ++ List.replicate (16 - d.length % 16) (16 - d.length % 16)).length -
        (16 - d.length % 16)) = List.replicate (16 - d.length % 16) (16 - d.length % 16) := by
    rw [hsub]; exact List.drop_left d _
  have htake : (d ++ List.replicate (16 - d.length % 16) (16 - d.length % 16)).take
      ((d ++ List.replicate (16 - d.length % 16) (16 - d.length % 16)).length -
        (16 - d.length % 16)) = d := by
    rw [hsub]; exact List.take_left d _
  have hall : (List.replicate (16 - d.length % 16) (16 - d.length % 16)).all
      (fun b => b = 16 - d.length % 16) = true := by
    simp [List.all_eq_true, List.mem_replicate]
  simp only [remove_pkcs7, hgl]
  rw [if_neg (by omega : ¬(16 < 16 - d.length % 16 ∨ 16 - d.length % 16 = 0))]
  rw [if_neg (by rw [hlen]; omega :
    ¬(d ++ List.replicate (16 - d.length % 16) (16 - d.length % 16)).length <
      16 - d.length % 16)]
  rw [hdrop, hall, if_pos rfl, htake]

/-- `unpad` undoes `aes_pad` when the padding lengths are recorded faithfully. -/
theorem unpad_aes_pad (nb na : Nat) (padB padA data : Bytes) (hnb : nb < 65536)
    (hna : na < 65536) (hB : padB.length = nb) (hA : padA.length = na) :
    unpad (aes_pad nb na padB padA data) = .ok data := by
  have h256 : (2:Nat) ^ 8 = 256 := by norm_num
  have h1 : bytesToNatBE ((aes_pad nb na padB padA data).take 2) = nb := by
    show bytesToNatBE [(nb >>> 8) % 256, nb % 256] = nb
    show (0 * 256 + (nb >>> 8) % 256) * 256 + nb % 256 = nb
    rw [Nat.shiftRight_eq_div_pow, h256]
    omega
  have h2 : bytesToNatBE (((aes_pad nb na padB padA data).drop 2).take 2) = na := by
    show bytesToNatBE [(na >>> 8) % 256, na % 256] = na
    show (0 * 256 + (na >>> 8) % 256) * 256 + na % 256 = na
    rw [Nat.shiftRight_eq_div_pow, h256]
    omega
  have hlen : (aes_pad nb na padB padA data).length = 4 + (nb + (data.length + na)) := by
    simp [aes_pad, hB, hA]
    omega
  have hdrop : (aes_pad nb na padB padA data).drop (nb + 4) = data ++ padA := by
    have h4 : (aes_pad nb na padB padA data).drop 4 = padB ++ data ++ padA := rfl
    rw [Nat.add_comm nb 4, ← List.drop_drop, h4, List.append_assoc, ← hB]
    exact List.drop_left padB _
  have htake : (data ++ padA).take
      ((aes_pad nb na padB padA data).length - na - (nb + 4)) = data := by
    have h5 : (aes_pad nb na padB padA data).length - na - (nb + 4) = data.length := by
      rw [hlen]; omega
    rw [h5]
    exact List.take_left data padA
  simp only [unpad, h1, h2]
  rw [if_neg (by rw [hlen]; omega :
    ¬(aes_pad nb na padB padA data).length < nb + na)]
  rw [hdrop, htake]

/-- A full AES-256-CBC round trip: in non-test mode, `decrypt_cbc` recovers
the plaintext that `encrypt_cbc` was given, for any randomness of the
length padding. -/
theorem aes_cbc_roundtrip (data padB padA : Bytes) (key iv nb na : Nat)
    (hd : ∀ x ∈ data, x < 256) (hBl : padB.length = nb) (hBb : ∀ x ∈ padB, x < 256)
    (hAl : padA.length = na) (hAb : ∀ x ∈ padA, x < 256)
    (hnb : nb < 65536) (hna : na < 65536) (hiv : iv < 2 ^ 128) :
    ∃ ct, encrypt_cbc data key iv false nb na padB padA = .ok ct ∧ (∀ x ∈ ct, x < 256) ∧
      decrypt_cbc ct key iv false = .ok data := by
  have hpadb : ∀ x ∈ aes_pad nb na padB padA data, x < 256 := by
    intro x hx
    simp only [aes_pad] at hx
    rcases List.mem_append.mp hx with hx | hx
    · rcases List.mem_append.mp hx with hx | hx
      · rcases List.mem_append.mp hx with hx | hx
        · rcases List.mem_append.mp hx with hx | hx
          · simp only [List.mem_cons, List.not_mem_nil, or_false] at hx
            rcases hx with rfl | rfl <;> exact Nat.mod_lt _ (by norm_num)
          · simp only [List.mem_cons, List.not_mem_nil, or_false] at hx
            rcases hx with rfl | rfl <;> exact Nat.mod_lt _ (by norm_num)
        · exact hBb x hx
      · exact hd x hx
    · exact hAb x hx
  have hdb : ∀ x ∈ add_pkcs7 (aes_pad nb na padB padA data), x < 256 := mem_add_pkcs7_lt hpadb
  have hmod : (add_pkcs7 (aes_pad nb na padB padA data)).length % 16 = 0 := add_pkcs7_mod _
  have hDpos : 0 < (add_pkcs7 (aes_pad nb na padB padA data)).length := by
    simp only [add_pkcs7, List.length_append, List.length_replicate]
    omega
  have hsb : split_blocks (add_pkcs7 (aes_pad nb na padB padA data)) = .ok (chunksAux 16 ((add_pkcs7 (aes_pad nb na padB padA data)).length / 16 + 1) (add_pkcs7 (aes_pad nb na padB padA data))) := by
    unfold split_blocks
    rw [if_neg (by omega)]
  have hBLlen : ∀ b ∈ chunksAux 16 ((add_pkcs7 (aes_pad nb na padB padA data)).length / 16 + 1) (add_pkcs7 (aes_pad nb na padB padA data)), b.length = 16 := chunks_len _ _ hmod
  have hBLb : ∀ b ∈ chunksAux 16 ((add_pkcs7 (aes_pad nb na padB padA data)).length / 16 + 1) (add_pkcs7 (aes_pad nb na padB padA data)), ∀ x ∈ b, x < 256 :=
    fun b hb x hx => hdb x (chunks_mem _ _ b hb x hx)
  have hBLflat : (chunksAux 16 ((add_pkcs7 (aes_pad nb na padB padA data)).length / 16 + 1) (add_pkcs7 (aes_pad nb na padB padA data))).flatten = add_pkcs7 (aes_pad nb na padB padA data) := chunksAux_join _ _ (by omega)
  have hD16 : (add_pkcs7 (aes_pad nb na padB padA data)).length = 16 * (chunksAux 16 ((add_pkcs7 (aes_pad nb na padB padA data)).length / 16 + 1) (add_pkcs7 (aes_pad nb na padB padA data))).length := by
    have h := flatten_len_16 _ hBLlen
    rw [hBLflat] at h
    exact h
  have hctmem : ∀ c ∈ cbcEnc (expand_key key) (i_to_b_fixed 16 iv) (chunksAux 16 ((add_pkcs7 (aes_pad nb na padB padA data)).length / 16 + 1) (add_pkcs7 (aes_pad nb na padB padA data))), c.length = 16 ∧ ∀ x ∈ c, x < 256 :=
    cbcEnc_mem _ _ _ (fun b hb => ⟨hBLlen b hb, hBLb b hb⟩) (mem_i_to_b_fixed_lt 16 iv)
  have hctlen : ∀ c ∈ cbcEnc (expand_key key) (i_to_b_fixed 16 iv) (chunksAux 16 ((add_pkcs7 (aes_pad nb na padB padA data)).length / 16 + 1) (add_pkcs7 (aes_pad nb na padB padA data))), c.length = 16 := fun c hc => (hctmem c hc).1
  have hCBlen : (cbcEnc (expand_key key) (i_to_b_fixed 16 iv) (chunksAux 16 ((add_pkcs7 (aes_pad nb na padB padA data)).length / 16 + 1) (add_pkcs7 (aes_pad nb na padB padA data)))).length = (chunksAux 16 ((add_pkcs7 (aes_pad nb na padB padA data)).length / 16 + 1) (add_pkcs7 (aes_pad nb na padB padA data))).length := cbcEnc_length _ _ _
  have hMlen : (hmac_calculate ((cbcEnc (expand_key key) (i_to_b_fixed 16 iv) (chunksAux 16 ((add_pkcs7 (aes_pad nb na padB padA data)).length / 16 + 1) (add_pkcs7 (aes_pad nb na padB padA data)))).flatten) iv key).length = 32 := hmac_calculate_length _ _ _
  have hCTlen : (((cbcEnc (expand_key key) (i_to_b_fixed 16 iv) (chunksAux 16 ((add_pkcs7 (aes_pad nb na padB padA data)).length / 16 + 1) (add_pkcs7 (aes_pad nb na padB padA data)))).flatten) ++ (hmac_calculate ((cbcEnc (expand_key key) (i_to_b_fixed 16 iv) (chunksAux 16 ((add_pkcs7 (aes_pad nb na padB padA data)).length / 16 + 1) (add_pkcs7 (aes_pad nb na padB padA data)))).flatten) iv key)).length - 32 = ((cbcEnc (expand_key key) (i_to_b_fixed 16 iv) (chunksAux 16 ((add_pkcs7 (aes_pad nb na padB padA data)).length / 16 + 1) (add_pkcs7 (aes_pad nb na padB padA data)))).flatten).length := by
    simp [hMlen]
  have htk : (((cbcEnc (expand_key key) (i_to_b_fixed 16 iv) (chunksAux 16 ((add_pkcs7 (aes_pad nb na padB padA data)).length / 16 + 1) (add_pkcs7 (aes_pad nb na padB padA data)))).flatten) ++ (hmac_calculate ((cbcEnc (expand_key key) (i_to_b_fixed 16 iv) (chunksAux 16 ((add_pkcs7 (aes_pad nb na padB padA data)).length / 16 + 1) (add_pkcs7 (aes_pad nb na padB padA data)))).flatten) iv key)).take ((((cbcEnc (expand_key key) (i_to_b_fixed 16 iv) (chunksAux 16 ((add_pkcs7 (aes_pad nb na padB padA data)).length / 16 + 1) (add_pkcs7 (aes_pad nb na padB padA data)))).flatten) ++ (hmac_calculate ((cbcEnc (expand_key key) (i_to_b_fixed 16 iv) (chunksAux 16 ((add_pkcs7 (aes_pad nb na padB padA data)).length / 16 + 1) (add_pkcs7 (aes_pad nb na padB padA data)))).flatten) iv key)).length - 32) = (cbcEnc (expand_key key) (i_to_b_fixed 16 iv) (chunksAux 16 ((add_pkcs7 (aes_pad nb na padB padA data)).length / 16 + 1) (add_pkcs7 (aes_pad nb na padB padA data)))).flatten := by
    rw [hCTlen]
    exact List.take_left _ _
  have hdk : (((cbcEnc (expand_key key) (i_to_b_fixed 16 iv) (chunksAux 16 ((add_pkcs7 (aes_pad nb na padB padA data)).length / 16 + 1) (add_pkcs7 (aes_pad nb na padB padA data)))).flatten) ++ (hmac_calculate ((cbcEnc (expand_key key) (i_to_b_fixed 16 iv) (chunksAux 16 ((add_pkcs7 (aes_pad nb na padB padA data)).length / 16 + 1) (add_pkcs7 (aes_pad nb na padB padA data)))).flatten) iv key)).drop ((((cbcEnc (expand_key key) (i_to_b_fixed 16 iv) (chunksAux 16 ((add_pkcs7 (aes_pad nb na padB padA data)).length / 16 + 1) (add_pkcs7 (aes_pad nb na padB padA data)))).flatten) ++ (hmac_calculate ((cbcEnc (expand_key key) (i_to_b_fixed 16 iv) (chunksAux 16 ((add_pkcs7 (aes_pad nb na padB padA data)).length / 16 + 1) (add_pkcs7 (aes_pad nb na padB padA data)))).flatten) iv key)).length - 32) = hmac_calculate ((cbcEnc (expand_key key) (i_to_b_fixed 16 iv) (chunksAux 16 ((add_pkcs7 (aes_pad nb na padB padA data)).length / 16 + 1) (add_pkcs7 (aes_pad nb na padB padA data)))).flatten) iv key := by
    rw [hCTlen]
    exact List.drop_left _ _
  have hsbF : split_blocks ((cbcEnc (expand_key key) (i_to_b_fixed 16 iv) (chunksAux 16 ((add_pkcs7 (aes_pad nb na padB padA data)).length / 16 + 1) (add_pkcs7 (aes_pad nb na padB padA data)))).flatten) = .ok (cbcEnc (expand_key key) (i_to_b_fixed 16 iv) (chunksAux 16 ((add_pkcs7 (aes_pad nb na padB padA data)).length / 16 + 1) (add_pkcs7 (aes_pad nb na padB padA data)))) := split_blocks_flatten _ hctlen
  have hCBne : (cbcEnc (expand_key key) (i_to_b_fixed 16 iv) (chunksAux 16 ((add_pkcs7 (aes_pad nb na padB padA data)).length / 16 + 1) (add_pkcs7 (aes_pad nb na padB padA data)))) ≠ [] := by
    intro h
    have h2 : (chunksAux 16 ((add_pkcs7 (aes_pad nb na padB padA data)).length / 16 + 1) (add_pkcs7 (aes_pad nb na padB padA data))).length = 0 := by
      rw [← hCBlen, h]
      rfl
    rw [h2] at hD16
    omega
  have hdec : cbcDec (expand_key key) iv (cbcEnc (expand_key key) (i_to_b_fixed 16 iv) (chunksAux 16 ((add_pkcs7 (aes_pad nb na padB padA data)).length / 16 + 1) (add_pkcs7 (aes_pad nb na padB padA data)))) = .ok (chunksAux 16 ((add_pkcs7 (aes_pad nb na padB padA data)).length / 16 + 1) (add_pkcs7 (aes_pad nb na padB padA data))) := by
    obtain ⟨c0, cbt, he⟩ := List.exists_cons_of_ne_nil hCBne
    rw [he]
    simp only [cbcDec]
    rw [if_neg (show ¬2 ^ 128 ≤ iv by omega), ← he]
    exact congrArg Except.ok (cbcDec_inv (expand_key key) (chunksAux 16 ((add_pkcs7 (aes_pad nb na padB padA data)).length / 16 + 1) (add_pkcs7 (aes_pad nb na padB padA data))) (i_to_b_fixed 16 iv)
      (fun b hb => ⟨hBLlen b hb, hBLb b hb⟩) (i_to_b_fixed_length 16 iv)
      (mem_i_to_b_fixed_lt 16 iv))
  have hver : hmac_verify (hmac_calculate ((cbcEnc (expand_key key) (i_to_b_fixed 16 iv) (chunksAux 16 ((add_pkcs7 (aes_pad nb na padB padA data)).length / 16 + 1) (add_pkcs7 (aes_pad nb na padB padA data)))).flatten) iv key) ((cbcEnc (expand_key key) (i_to_b_fixed 16 iv) (chunksAux 16 ((add_pkcs7 (aes_pad nb na padB padA data)).length / 16 + 1) (add_pkcs7 (aes_pad nb na padB padA data)))).flatten) iv key = true := by
    simp [hmac_verify]
  have henc : encrypt_cbc data key iv false nb na padB padA = .ok (((cbcEnc (expand_key key) (i_to_b_fixed 16 iv) (chunksAux 16 ((add_pkcs7 (aes_pad nb na padB padA data)).length / 16 + 1) (add_pkcs7 (aes_pad nb na padB padA data)))).flatten) ++ (hmac_calculate ((cbcEnc (expand_key key) (i_to_b_fixed 16 iv) (chunksAux 16 ((add_pkcs7 (aes_pad nb na padB padA data)).length / 16 + 1) (add_pkcs7 (aes_pad nb na padB padA data)))).flatten) iv key)) := by
    simp only [encrypt_cbc]
    rw [if_neg (show ¬(false = true ∧ data.length % 16 ≠ 0) by simp)]
    rw [if_neg (show ¬false = true by simp)]
    rw [hsb]
    exact if_neg (by omega)
  have hok : ¬(¬false = true ∧ (((cbcEnc (expand_key key) (i_to_b_fixed 16 iv) (chunksAux 16 ((add_pkcs7 (aes_pad nb na padB padA data)).length / 16 + 1) (add_pkcs7 (aes_pad nb na padB padA data)))).flatten) ++ (hmac_calculate ((cbcEnc (expand_key key) (i_to_b_fixed 16 iv) (chunksAux 16 ((add_pkcs7 (aes_pad nb na padB padA data)).length / 16 + 1) (add_pkcs7 (aes_pad nb na padB padA data)))).flatten) iv key)).length < 32) := by
    rintro ⟨-, h2⟩
    simp only [List.length_append, hMlen] at h2
    omega
  refine ⟨((cbcEnc (expand_key key) (i_to_b_fixed 16 iv) (chunksAux 16 ((add_pkcs7 (aes_pad nb na padB padA data)).length / 16 + 1) (add_pkcs7 (aes_pad nb na padB padA data)))).flatten) ++ (hmac_calculate ((cbcEnc (expand_key key) (i_to_b_fixed 16 iv) (chunksAux 16 ((add_pkcs7 (aes_pad nb na padB padA data)).length / 16 + 1) (add_pkcs7 (aes_pad nb na padB padA data)))).flatten) iv key), henc, ?_, ?_⟩
  · intro x hx
    rcases List.mem_append.mp hx with hx | hx
    · obtain ⟨c, hc, hxc⟩ := List.mem_flatten.mp hx
      exact (hctmem c hc).2 x hxc
    · exact mem_i_to_b_fixed_lt 32 _ x hx
  simp only [decrypt_cbc]
  rw [if_neg hok]
  simp only [Bool.false_eq_true, if_false, htk, hdk, hsbF, hdec, hBLflat, hver,
    eq_self_iff_true, not_true, remove_add_pkcs7,
    unpad_aes_pad nb na padB padA data hnb hna hBl hAl]


/-- Association-list lookup through a cons cell. -/
theorem alLookup_cons {α : Type} (p : PyStr × α) (l : List (PyStr × α)) (k : PyStr) :
    alLookup (p :: l) k = if p.1 = k then some p.2 else alLookup l k := by
  by_cases hp : p.1 = k
  · rw [if_pos hp]
    simp only [alLookup]
    rw [List.find?_cons_of_pos _ (by simp [hp])]
    rfl
  · rw [if_neg hp]
    simp only [alLookup]
    rw [List.find?_cons_of_neg _ (by simp [hp])]

/-- Updating a present key makes it map to the new value. -/
theorem alLookup_map_set {α : Type} (k : PyStr) (v : α) : ∀ (l : List (PyStr × α)),
    (alLookup l k).isSome →
    alLookup (l.map (fun p => if p.1 = k then (k, v) else p)) k = some v := by
  intro l
  induction l with
  | nil => intro h; simp [alLookup] at h
  | cons p l ih =>
    intro h
    rw [List.map_cons]
    by_cases hp : p.1 = k
    · rw [if_pos hp, alLookup_cons, if_pos rfl]
    · rw [if_neg hp, alLookup_cons, if_neg hp]
      apply ih
      rw [alLookup_cons, if_neg hp] at h
      exact h

/-- `alSet` on a present key rebinds it. -/
theorem alLookup_set_self {α : Type} (l : List (PyStr × α)) (k : PyStr) (v : α)
    (h : (alLookup l k).isSome) : alLookup (alSet l k v) k = some v := by
  unfold alSet
  rw [if_pos h]
  exact alLookup_map_set k v l h

/-- Appending a fresh binding makes the key map to it. -/
theorem alLookup_append_none {α : Type} (k : PyStr) (v : α) : ∀ (l : List (PyStr × α)),
    alLookup l k = none → alLookup (l ++ [(k, v)]) k = some v := by
  intro l
  induction l with
  | nil =>
    intro _
    simp only [List.nil_append]
    rw [alLookup_cons, if_pos rfl]
  | cons p l ih =>
    intro h
    rw [alLookup_cons] at h
    by_cases hp : p.1 = k
    · rw [if_pos hp] at h; simp at h
    · rw [if_neg hp] at h
      rw [List.cons_append, alLookup_cons, if_neg hp]
      exact ih h

/-- `alErase` removes the key. -/
theorem alLookup_erase {α : Type} (k : PyStr) : ∀ (l : List (PyStr × α)),
    alLookup (alErase l k) k = none := by
  intro l
  induction l with
  | nil => rfl
  | cons p l ih =>
    simp only [alErase, List.filter_cons] at ih ⊢
    by_cases hp : p.1 = k
    · rw [if_neg (by simp [hp])]
      exact ih
    · rw [if_pos (by simp [hp]), alLookup_cons, if_neg hp]
      exact ih

/-- `Server._send` leaves the recipient's outbox holding the pushed message
last, creating the outbox when absent. -/
theorem server_send_outbox (st : SrvState) (client : PyStr) (msg : Bytes) :
    ∃ q, alLookup (server_send st client msg).outboxes client = some (q ++ [msg]) := by
  rcases heq : alLookup st.outboxes client with _ | q
  · simp only [server_send, heq]
    refine ⟨[], ?_⟩
    simp only [List.nil_append]
    exact alLookup_append_none client [msg] st.outboxes heq
  · simp only [server_send, heq]
    exact ⟨q, alLookup_set_self st.outboxes client (q ++ [msg]) (by rw [heq]; rfl)⟩

/-- A separator-free string splits into itself. -/
theorem splitBy_no_sep : ∀ (a : Bytes), 58 ∉ a → splitBy 58 a = [a] := by
  intro a
  induction a with
  | nil => intro _; rfl
  | cons b rest ih =>
    intro h
    have hb : ¬b = 58 := fun hb => h (by simp [hb])
    simp only [splitBy, if_neg hb, ih (fun hm => h (by simp [hm]))]
    rfl

/-- Splitting at the first separator after a separator-free prefix. -/
theorem splitBy_sep (r : Bytes) : ∀ (a : Bytes), 58 ∉ a →
    splitBy 58 (a ++ 58 :: r) = a :: splitBy 58 r := by
  intro a
  induction a with
  | nil =>
    intro _
    simp [splitBy]
  | cons b rest ih =>
    intro h
    have hb : ¬b = 58 := fun hb => h (by simp [hb])
    simp only [List.cons_append, splitBy, List.append_eq, if_neg hb,
      ih (fun hm => h (by simp [hm]))]
    rfl

/-- A one-separator factorization of a byte string is unique. -/
theorem split_unique : ∀ (a c b d : Bytes), a ++ 58 :: b = c ++ 58 :: d → 58 ∉ a → 58 ∉ c →
    a = c ∧ b = d := by
  intro a
  induction a with
  | nil =>
    intro c b d heq _ hc
    cases c with
    | nil =>
      simp only [List.nil_append, List.cons.injEq] at heq
      exact ⟨rfl, heq.2⟩
    | cons c0 cr =>
      simp only [List.nil_append, List.cons_append, List.cons.injEq] at heq
      exact absurd (heq.1 ▸ List.mem_cons_self c0 cr) hc
  | cons a0 ar ih =>
    intro c b d heq ha hc
    cases c with
    | nil =>
      simp only [List.cons_append, List.nil_append, List.cons.injEq] at heq
      exact absurd (heq.1 ▸ List.mem_cons_self a0 ar) ha
    | cons c0 cr =>
      simp only [List.cons_append, List.cons.injEq] at heq
      obtain ⟨h1, h2⟩ := heq
      obtain ⟨h3, h4⟩ := ih cr b d h2 (fun hm => ha (by simp [hm])) (fun hm => hc (by simp [hm]))
      exact ⟨by rw [h1, h3], h4⟩

/-- A lowercase-hex string contains no colon. -/
theorem no_colon_of_hex {a : Bytes} (h : a.all lowerHexDigit = true) : 58 ∉ a := by
  intro hm
  have := List.all_eq_true.mp h 58 hm
  simp [lowerHexDigit] at this

/-- Every hex digit emitted by `hexDigitsAux` is lowercase hex. -/
theorem hexDigitsAux_all : ∀ (f n : Nat), (hexDigitsAux f n).all lowerHexDigit = true := by
  intro f
  induction f with
  | zero => intro n; rfl
  | succ f ih =>
    intro n
    simp only [hexDigitsAux]
    by_cases h : n < 16
    · rw [if_pos h]
      simp only [List.all_cons, List.all_nil, Bool.and_true]
      by_cases h2 : n < 10 <;> simp only [if_pos, if_neg, h2, lowerHexDigit, decide_eq_true_eq,
        ite_true, ite_false] <;> omega
    · rw [if_neg h, List.all_append, ih (n / 16)]
      simp only [List.all_cons, List.all_nil, Bool.and_true, Bool.true_and]
      have hm : n % 16 < 16 := Nat.mod_lt _ (by norm_num)
      by_cases h2 : n % 16 < 10 <;> simp only [if_pos, if_neg, h2, lowerHexDigit,
        decide_eq_true_eq, ite_true, ite_false] <;> omega

/-- `hexDigits` output is lowercase hex. -/
theorem hexDigits_all (n : Nat) : (hexDigits n).all lowerHexDigit = true := hexDigitsAux_all 300 n

/-- `hexDigitsAux` emits at most `k + 1` digits below `16 ^ (k + 1)`. -/
theorem hexDigitsAux_length : ∀ (f k n : Nat), n < 16 ^ (k + 1) → k < f →
    (hexDigitsAux f n).length ≤ k + 1 := by
  intro f
  induction f with
  | zero => intro k n _ h; omega
  | succ f ih =>
    intro k n hn hk
    simp only [hexDigitsAux]
    by_cases h : n < 16
    · rw [if_pos h]
      simp
    · rw [if_neg h, List.length_append]
      have hk1 : 1 ≤ k := by
        by_contra hk0
        have hkz : k = 0 := by omega
        subst hkz
        rw [pow_one] at hn
        omega
      have hdiv : n / 16 < 16 ^ k := by
        have h16 : (16:Nat) ^ (k + 1) = 16 ^ k * 16 := by ring
        rw [h16] at hn
        rw [Nat.div_lt_iff_lt_mul (by norm_num)]
        exact hn
      have := ih (k - 1) (n / 16) (by rw [show k - 1 + 1 = k by omega]; exact hdiv) (by omega)
      simp only [List.length_cons, List.length_nil]
      omega

/-- Below `2^128`, `hexDigits` emits at most 32 characters. -/
theorem hexDigits_length_le_32 (n : Nat) (h : n < 2 ^ 128) : (hexDigits n).length ≤ 32 := by
  have h1 : n < 16 ^ 32 := by
    have h2 : (16:Nat) ^ 32 = 2 ^ 128 := by norm_num
    omega
  have h3 := hexDigitsAux_length 300 31 n (by norm_num at h1 ⊢; omega) (by norm_num)
  show (hexDigitsAux 300 n).length ≤ 32
  omega

/-- `bytes.hex()` of a byte string is lowercase hex. -/
theorem bytesHex_all : ∀ (data : Bytes), (∀ x ∈ data, x < 256) →
    (bytesHex data).all lowerHexDigit = true := by
  intro data
  induction data with
  | nil => intro _; rfl
  | cons b rest ih =>
    intro hd
    have hb : b < 256 := hd b (by simp)
    have hs : b >>> 4 < 16 := by
      rw [Nat.shiftRight_eq_div_pow, show (2:Nat) ^ 4 = 16 by norm_num]
      omega
    have hm : b % 16 < 16 := Nat.mod_lt _ (by norm_num)
    simp only [bytesHex, List.flatMap_cons, List.all_append, List.all_cons, List.all_nil,
      Bool.and_true]
    have ih2 := ih (fun x hx => hd x (by simp [hx]))
    simp only [bytesHex] at ih2
    rw [ih2]
    simp only [Bool.and_true]
    rw [Bool.and_eq_true]
    constructor
    · by_cases h2 : b >>> 4 < 10 <;> simp only [if_pos, if_neg, h2, lowerHexDigit,
        decide_eq_true_eq, ite_true, ite_false] <;> omega
    · by_cases h2 : b % 16 < 10 <;> simp only [if_pos, if_neg, h2, lowerHexDigit,
        decide_eq_true_eq, ite_true, ite_false] <;> omega

/-- `bytes.hex()` has twice the byte length. -/
theorem bytesHex_length : ∀ (data : Bytes), (bytesHex data).length = 2 * data.length := by
  intro data
  induction data with
  | nil => rfl
  | cons b rest ih =>
    simp only [bytesHex, List.flatMap_cons, List.length_append, List.length_cons,
      List.length_nil] at ih ⊢
    omega

/-- A message built by `construct_message` starts with the recipient field
it was given. -/
theorem construct_message_sender {out : Schema} {rec t : PyStr} {vs : List MsgVal} {msg : Bytes}
    (h : construct_message out rec t vs = .ok msg) :
    ∃ rest, msg = utf8Encode rec ++ 58 :: rest := by
  unfold construct_message at h
  split at h
  · split at h
    · simp at h
    · split at h
      · simp only [Except.ok.injEq] at h
        subst h
        exact ⟨_, rfl⟩
      · simp at h
  · simp only [Except.ok.injEq] at h
    subst h
    exact ⟨_, rfl⟩

/-- `cbcDec` never raises below the IV bound. -/
theorem cbcDec_ok (ks : List Nat) (iv : Nat) (bl : List Bytes) (hiv : iv < 2 ^ 128) :
    ∃ r, cbcDec ks iv bl = .ok r := by
  cases bl with
  | nil => exact ⟨[], rfl⟩
  | cons b bl =>
    refine ⟨((b :: bl).zip (i_to_b_fixed 16 iv :: b :: bl)).map
      (fun bp => xor_b (decrypt_block ks bp.1) bp.2), ?_⟩
    simp only [cbcDec]
    rw [if_neg (by omega)]

/-- `remove_pkcs7` raises `ValueError` except on empty input, where it
raises `IndexError`. -/
theorem remove_pkcs7_err : ∀ (p : Bytes) (e : PyErr), remove_pkcs7 p = .error e →
    e = .valueError ∨ (e = .indexError ∧ p = []) := by
  intro p e h
  rcases hgl : p.getLast? with _ | last
  · simp only [remove_pkcs7, hgl, Except.error.injEq] at h
    subst h
    exact Or.inr ⟨rfl, List.getLast?_eq_none.mp hgl⟩
  · simp only [remove_pkcs7, hgl] at h
    split at h
    · simp only [Except.error.injEq] at h
      exact Or.inl h.symm
    · split at h
      · simp only [Except.error.injEq] at h
        exact Or.inl h.symm
      · split at h
        · simp at h
        · simp only [Except.error.injEq] at h
          exact Or.inl h.symm

/-- `decrypt_block` always yields 16 bytes. -/
theorem decrypt_block_len (ks : List Nat) (b : Bytes) : (decrypt_block ks b).length = 16 :=
  m2b_len _

/-- C10: `ServerConnection.send` raises `NetworkError` exactly on a
disconnected socket and otherwise appends to the out-queue;
`ServerConnection.recv` raises `NetworkError` on a disconnected socket and
otherwise blocks until the in-queue has a message and returns its head. -/
theorem C10_send_recv (c : ClientState) (d : Bytes) :
    (c.socket_connected = false →
      sc_send c d = .error .networkError ∧ sc_recv c = .err .networkError) ∧
    (c.socket_connected = true →
      sc_send c d = .ok { c with out_queue := c.out_queue ++ [d] } ∧
      (c.in_queue = [] → sc_recv c = .blocked) ∧
      (∀ m rest, c.in_queue = m :: rest → sc_recv c = .value m { c with in_queue := rest })) := by
  constructor
  · intro h
    exact ⟨by simp [sc_send, h], by simp [sc_recv, h]⟩
  · intro h
    refine ⟨by simp [sc_send, h], ?_, ?_⟩
    · intro hq
      simp [sc_recv, h, hq]
    · intro m rest hq
      simp [sc_recv, h, hq]

/-- C10 witness: both socket states at concrete queues. -/
theorem C10_send_recv_witness :
    (sc_send ⟨false, [], []⟩ [7] = .error .networkError ∧
      sc_recv ⟨false, [], []⟩ = .err .networkError) ∧
    (sc_send ⟨true, [[1]], [[2]]⟩ [7] = .ok ⟨true, [[1]], [[2], [7]]⟩ ∧
      sc_recv ⟨true, [[1]], [[2]]⟩ = .value [1] ⟨true, [], [[2]]⟩) :=
  ⟨(C10_send_recv ⟨false, [], []⟩ [7]).1 rfl,
   ((C10_send_recv ⟨true, [[1]], [[2]]⟩ [7]).2 rfl).1,
   ((C10_send_recv ⟨true, [[1]], [[2]]⟩ [7]).2 rfl).2.2 [1] [] rfl⟩

/-- C4: a post-handshake frame whose ciphertext field is not valid hex
(here `b"0:zz"`) crashes the in-worker with an uncaught `ValueError`
instead of producing any in-band reply: `bytes.fromhex` sits outside the
handled exception set, so this transient message-level error terminates
the session. -/
theorem C4_nonhex_ciphertext_crashes (st : SrvState) (client_id : PyStr) (key : Nat) :
    in_thread_step st client_id key (strA ("0:zz")) = (.crash .valueError, st) := rfl

/-- C5: a Diffie-Hellman packet with the right two-field shape and a valid
signature but a non-hexadecimal DH public value (here `b"zz"`) crashes
`Server._handshake` with an uncaught `ValueError`: `int(c_dhke_pub, 16)`
sits outside the `try`, so no `MalformedDiffieHellman` token is sent and
the server does not close the connection. -/
theorem C5_nonhex_dh_crashes (st : SrvState) :
    (server_handshake st (3, 5) (3, 5) 1 1 [0] 0 0 [] []
      [utf8Encode (fingerprintInt (3, 5) 32) ++ 58 :: (strA ("3") ++ 58 :: strA ("5")),
       strA ("zz") ++ 58 :: mock_sign (strA ("zz")) 5]).1 =
    { sent := [hexDigits 3 ++ 58 :: hexDigits 5,
               hexDigits (gen_signed_dh 1 (3, 5) group14_2048).1 ++ 58 ::
                 (gen_signed_dh 1 (3, 5) group14_2048).2],
      closed := false, session := none, err := some .valueError } := rfl

/-- C9: when the directory reports an ID collision, the server sends the
literal `IDCollision` token, closes, and the handshake leaves the server
state — outboxes, sockets and directory — exactly as it was. -/
theorem C9_idcollision (st : SrvState) (pub priv : Nat × Nat) (dp ei : Nat) (rd : Bytes)
    (nb na : Nat) (pb pa : Bytes) (idp authp : Bytes) (rest : List Bytes)
    (c_id_b c_exp c_mod : Bytes) (c_id : PyStr) (ce cm : Int) (dhb sigb : Bytes) (cdh : Int)
    (h1 : idp ≠ strA ("MalformedIdentity")) (h2 : idp ≠ strA ("PubKeyFpMismatch"))
    (h3 : splitBy 58 idp = [c_id_b, c_exp, c_mod])
    (h4 : utf8Decode c_id_b = some c_id)
    (h5 : pyIntHex c_exp = some ce) (h6 : pyIntHex c_mod = some cm)
    (h7 : fingerprintInt (ce, cm) 32 = c_id)
    (h8 : authp ≠ strA ("BadSignature")) (h9 : authp ≠ strA ("MalformedDiffieHellman"))
    (h10 : splitBy 58 authp = [dhb, sigb])
    (h11 : signing_verify dhb sigb (ce, cm) = true)
    (h12 : pyIntHex dhb = some cdh)
    (h13 : db_user_login st.db c_id (ce, cm) = none) :
    server_handshake st pub priv dp ei rd nb na pb pa (idp :: authp :: rest) =
      ({ sent := [hexDigits pub.1 ++ 58 :: hexDigits pub.2,
                  hexDigits (gen_signed_dh dp priv group14_2048).1 ++ 58 ::
                    (gen_signed_dh dp priv group14_2048).2,
                  strA ("IDCollision")],
         closed := true, session := none, err := none }, st) ∧
    (server_handshake st pub priv dp ei rd nb na pb pa (idp :: authp :: rest)).2.outboxes =
      st.outboxes ∧
    (server_handshake st pub priv dp ei rd nb na pb pa (idp :: authp :: rest)).2.sockets =
      st.sockets := by
  rcases hgen : gen_signed_dh dp priv group14_2048 with ⟨dhp, dhs⟩
  have hmain : server_handshake st pub priv dp ei rd nb na pb pa (idp :: authp :: rest) =
      ({ sent := [hexDigits pub.1 ++ 58 :: hexDigits pub.2,
                  hexDigits (gen_signed_dh dp priv group14_2048).1 ++ 58 ::
                    (gen_signed_dh dp priv group14_2048).2,
                  strA ("IDCollision")],
         closed := true, session := none, err := none }, st) := by
    simp only [server_handshake, if_neg h1, if_neg h2, h3, h4, h5, h6, h7, ne_eq,
      eq_self_iff_true, not_true, if_false, hgen, if_neg h8, if_neg h9, h10, h11,
      h12, h13, List.cons_append, List.nil_append]
  rw [hgen] at hmain
  exact ⟨hmain, by rw [hmain], by rw [hmain]⟩

/-- C9 witness: a concrete colliding directory entry. -/
theorem C9_idcollision_witness :
    server_handshake ⟨[], [], ⟨[(fingerprintInt (3, 5) 32, (7, 9))], []⟩⟩ (3, 5) (3, 5) 1 1 [0]
      0 0 [] []
      [utf8Encode (fingerprintInt (3, 5) 32) ++ 58 :: (strA ("3") ++ 58 :: strA ("5")),
       strA ("2") ++ 58 :: mock_sign (strA ("2")) 5] =
      ({ sent := [hexDigits 3 ++ 58 :: hexDigits 5,
                  hexDigits (gen_signed_dh 1 (3, 5) group14_2048).1 ++ 58 ::
                    (gen_signed_dh 1 (3, 5) group14_2048).2,
                  strA ("IDCollision")],
         closed := true, session := none, err := none },
       ⟨[], [], ⟨[(fingerprintInt (3, 5) 32, (7, 9))], []⟩⟩) :=
  (C9_idcollision ⟨[], [], ⟨[(fingerprintInt (3, 5) 32, (7, 9))], []⟩⟩ (3, 5) (3, 5) 1 1 [0]
    0 0 [] []
    (utf8Encode (fingerprintInt (3, 5) 32) ++ 58 :: (strA ("3") ++ 58 :: strA ("5")))
    (strA ("2") ++ 58 :: mock_sign (strA ("2")) 5) []
    (utf8Encode (fingerprintInt (3, 5) 32)) (strA ("3")) (strA ("5"))
    (fingerprintInt (3, 5) 32) 3 5 (strA ("2")) (mock_sign (strA ("2")) 5) 2
    (by decide) (by decide) (by decide) (by decide) (by decide) (by decide) (by decide)
    (by decide) (by decide) (by decide) (by decide) (by decide) (by decide)).1

/-- C3: a frame that decrypts and parses to an envelope with a non-`"0"`
recipient is relayed as `construct_message(client_id, type, values)` —
its sender field is the authenticated client id of the connection, no
matter what sender the payload claimed — and is pushed onto the
recipient's outbox, which is created when absent. -/
theorem C3_relay (st : SrvState) (client_id : PyStr) (key : Nat) (raw dec ivs cts ctB data : Bytes)
    (aes_iv : Int) (recipient mtype : PyStr) (values : List MsgVal) (to_send : Bytes)
    (h1 : utf8Decode raw = some dec)
    (h2 : splitFirst 58 dec = some (ivs, cts))
    (h3 : pyIntHex ivs = some aes_iv)
    (h4 : pyBytesFromHex cts = some ctB)
    (h5 : decrypt_cbc_int ctB key aes_iv = .ok data)
    (h6 : parse_message INCOMING_MESSAGE_TYPES data = .ok (recipient, mtype, values))
    (h7 : recipient ≠ strA ("0"))
    (h8 : construct_message OUTGOING_MESSAGE_TYPES client_id mtype values = .ok to_send) :
    in_thread_step st client_id key raw = (.next, server_send st recipient to_send) ∧
    (∃ rest, to_send = utf8Encode client_id ++ 58 :: rest) ∧
    (∃ q, alLookup (server_send st recipient to_send).outboxes recipient =
      some (q ++ [to_send])) := by
  refine ⟨?_, construct_message_sender h8, server_send_outbox st recipient to_send⟩
  simp only [in_thread_step, h1, h2, h3, h4, h5, h6, h8, if_neg h7]

set_option maxRecDepth 100000 in
/-- C3 witness: a concrete encrypted relay frame from client `"aa"` whose
payload is addressed to `"bb"`. -/
theorem C3_relay_witness :
    in_thread_step ⟨[], [], ⟨[], []⟩⟩ (strA ("aa")) 7
        (strA ("1:") ++
          bytesHex ((encrypt_cbc (strA ("bb:Echo:hi")) 7 1 false 0 0 [] []).toOption.getD [])) =
      (.next, server_send ⟨[], [], ⟨[], []⟩⟩ (strA ("bb")) (strA ("aa:Echo:hi"))) ∧
    (∃ rest, strA ("aa:Echo:hi") = utf8Encode (strA ("aa")) ++ 58 :: rest) ∧
    (∃ q, alLookup (server_send ⟨[], [], ⟨[], []⟩⟩ (strA ("bb"))
        (strA ("aa:Echo:hi"))).outboxes (strA ("bb")) = some (q ++ [strA ("aa:Echo:hi")])) :=
  C3_relay ⟨[], [], ⟨[], []⟩⟩ (strA ("aa")) 7
    (strA ("1:") ++
      bytesHex ((encrypt_cbc (strA ("bb:Echo:hi")) 7 1 false 0 0 [] []).toOption.getD []))
    (strA ("1:") ++
      bytesHex ((encrypt_cbc (strA ("bb:Echo:hi")) 7 1 false 0 0 [] []).toOption.getD []))
    (strA ("1"))
    (bytesHex ((encrypt_cbc (strA ("bb:Echo:hi")) 7 1 false 0 0 [] []).toOption.getD []))
    ((encrypt_cbc (strA ("bb:Echo:hi")) 7 1 false 0 0 [] []).toOption.getD [])
    (strA ("bb:Echo:hi")) 1 (strA ("bb")) (strA ("Echo")) [.raw (strA ("hi"))]
    (strA ("aa:Echo:hi"))
    (by rfl) (by rfl) (by rfl) (by rfl) (by rfl) (by rfl) (by decide)
    (by rfl)

/-- C6 (amended): the client's out-worker frames conform to the claimed
`iv_hex:ct_hex` form — lowercase hex, no `0x`, IV of at most 32
characters, even ciphertext hex — while the server's out-worker emits the
same frame with Python's `0x` prefix kept on the IV field. -/
theorem C6_frames (message : Bytes) (key iv nb na : Nat) (pb pa : Bytes)
    (hm : ∀ x ∈ message, x < 256) (hBl : pb.length = nb) (hBb : ∀ x ∈ pb, x < 256)
    (hAl : pa.length = na) (hAb : ∀ x ∈ pa, x < 256) (hnb : nb < 65536) (hna : na < 65536)
    (hiv : iv < 2 ^ 128) :
    ∃ ct, client_out_frame message key iv nb na pb pa = .ok (hexDigits iv ++ 58 :: bytesHex ct) ∧
      claimFrameForm (hexDigits iv ++ 58 :: bytesHex ct) ∧
      server_out_frame message key iv nb na pb pa =
        .ok (strA ("0x") ++ (hexDigits iv ++ 58 :: bytesHex ct)) := by
  obtain ⟨ct, henc, hb, -⟩ :=
    aes_cbc_roundtrip message pb pa key iv nb na hm hBl hBb hAl hAb hnb hna hiv
  refine ⟨ct, ?_, ?_, ?_⟩
  · simp [client_out_frame, henc, Except.map]
  · refine ⟨hexDigits iv, bytesHex ct, rfl, hexDigits_all iv, hexDigits_length_le_32 iv hiv,
      bytesHex_all ct hb, ?_⟩
    rw [bytesHex_length]
    omega
  · simp only [server_out_frame, henc, Except.map]
    have hpx : pyHex iv = strA ("0x") ++ hexDigits iv := by
      simp [pyHex, strA]
    rw [hpx, List.append_assoc]

/-- C6 witness: a concrete one-byte message under key 7, IV 1. -/
theorem C6_frames_witness : 1 < 2 ^ 128 ∧
    ∃ ct, client_out_frame (strA ("x")) 7 1 0 0 [] [] =
        .ok (hexDigits 1 ++ 58 :: bytesHex ct) ∧
      claimFrameForm (hexDigits 1 ++ 58 :: bytesHex ct) ∧
      server_out_frame (strA ("x")) 7 1 0 0 [] [] =
        .ok (strA ("0x") ++ (hexDigits 1 ++ 58 :: bytesHex ct)) :=
  ⟨by norm_num,
   C6_frames (strA ("x")) 7 1 0 0 [] [] (by decide) rfl (by decide) rfl (by decide)
     (by norm_num) (by norm_num) (by norm_num)⟩

/-- C6 counterexample: the server's out-worker frame is not of the claimed
form — its IV field keeps Python's `0x` prefix, and `x` is not a
lowercase hex digit. -/
theorem C6_counterexample :
    ∃ f, server_out_frame (strA ("x")) 7 1 0 0 [] [] = .ok f ∧ ¬claimFrameForm f := by
  obtain ⟨ct, henc, hb, -⟩ := aes_cbc_roundtrip (strA ("x")) [] [] 7 1 0 0 (by decide) rfl
    (by decide) rfl (by decide) (by norm_num) (by norm_num) (by norm_num)
  refine ⟨pyHex 1 ++ 58 :: bytesHex ct, ?_, ?_⟩
  · simp [server_out_frame, henc, Except.map]
  · rintro ⟨ivh, cth, heq, hall, -, hallc, -⟩
    have hnc1 : 58 ∉ pyHex 1 := by decide
    have hnc2 : (58:Nat) ∉ ivh := no_colon_of_hex hall
    obtain ⟨h3, -⟩ := split_unique (pyHex 1) ivh (bytesHex ct) cth heq hnc1 hnc2
    have h120 : (120:Nat) ∈ pyHex 1 := by decide
    rw [h3] at h120
    have := List.all_eq_true.mp hall 120 h120
    simp [lowerHexDigit] at this

/-- C1 (amended): the client ID both sides use is `keys.fingerprint` at its
default length 32 — the first 32 characters of the hex SHA-256 of
`hex(exp)[2:] + hex(mod)[2:]`, serialized without a separator: the client
announces `fingerprint(pub, 32)` as the first field of its identity
packet, and the server accepts an identity exactly when its first field
equals the 32-character fingerprint of the announced key. -/
theorem C1_client_id :
    (∀ (pub priv : Nat × Nat) (dp : Nat) (kp se sm : Bytes) (e m : Int),
      splitBy 58 kp = [se, sm] → pyIntHex se = some e → pyIntHex sm = some m →
      (client_handshake pub priv (fingerprintInt (e, m) 64) dp [kp]).sent =
        [fingerprint pub 32 ++ 58 :: hexDigits pub.1 ++ 58 :: hexDigits pub.2]) ∧
    (∀ (st : SrvState) (pub priv : Nat × Nat) (dp ei : Nat) (rd : Bytes) (nb na : Nat)
       (pb pa : Bytes) (idp c_id_b c_exp c_mod : Bytes) (c_id : PyStr) (ce cm : Int),
      idp ≠ strA ("MalformedIdentity") → idp ≠ strA ("PubKeyFpMismatch") →
      splitBy 58 idp = [c_id_b, c_exp, c_mod] → utf8Decode c_id_b = some c_id →
      pyIntHex c_exp = some ce → pyIntHex c_mod = some cm →
      ((fingerprintInt (ce, cm) 32 ≠ c_id →
        server_handshake st pub priv dp ei rd nb na pb pa [idp] =
          ({ sent := [hexDigits pub.1 ++ 58 :: hexDigits pub.2, strA ("PubKeyIdMismatch")],
             closed := true, session := none, err := none }, st)) ∧
       (fingerprintInt (ce, cm) 32 = c_id →
        server_handshake st pub priv dp ei rd nb na pb pa [idp] =
          ({ sent := [hexDigits pub.1 ++ 58 :: hexDigits pub.2,
                      hexDigits (gen_signed_dh dp priv group14_2048).1 ++ 58 ::
                        (gen_signed_dh dp priv group14_2048).2],
             closed := false, session := none, err := some .socketException }, st)))) := by
  constructor
  · intro pub priv dp kp se sm e m h0 h1 h2
    simp only [client_handshake, h0, h1, h2, ne_eq, eq_self_iff_true, not_true, if_false]
  · intro st pub priv dp ei rd nb na pb pa idp c_id_b c_exp c_mod c_id ce cm ha hb h3 h4 h5 h6
    constructor
    · intro hne
      simp only [server_handshake, if_neg ha, if_neg hb, h3, h4, h5, h6, if_pos hne,
        List.cons_append, List.nil_append]
    · intro heq
      rcases hgen : gen_signed_dh dp priv group14_2048 with ⟨dhp, dhs⟩
      simp only [server_handshake, if_neg ha, if_neg hb, h3, h4, h5, h6, heq, ne_eq,
        eq_self_iff_true, not_true, if_false, hgen, List.cons_append, List.nil_append]

/-- C1 witness: key `(3, 5)` on both sides; the server branches on the
32-character fingerprint of the announced key. -/
theorem C1_client_id_witness :
    (client_handshake (3, 5) (3, 5) (fingerprintInt (3, 5) 64) 1 [strA ("3:5")]).sent =
      [fingerprint (3, 5) 32 ++ 58 :: hexDigits 3 ++ 58 :: hexDigits 5] ∧
    server_handshake ⟨[], [], ⟨[], []⟩⟩ (3, 5) (3, 5) 1 1 [0] 0 0 [] []
        [strA ("xx") ++ 58 :: (strA ("3") ++ 58 :: strA ("5"))] =
      ({ sent := [hexDigits 3 ++ 58 :: hexDigits 5, strA ("PubKeyIdMismatch")],
         closed := true, session := none, err := none }, ⟨[], [], ⟨[], []⟩⟩) ∧
    server_handshake ⟨[], [], ⟨[], []⟩⟩ (3, 5) (3, 5) 1 1 [0] 0 0 [] []
        [utf8Encode (fingerprintInt (3, 5) 32) ++ 58 :: (strA ("3") ++ 58 :: strA ("5"))] =
      ({ sent := [hexDigits 3 ++ 58 :: hexDigits 5,
                  hexDigits (gen_signed_dh 1 (3, 5) group14_2048).1 ++ 58 ::
                    (gen_signed_dh 1 (3, 5) group14_2048).2],
         closed := false, session := none, err := some .socketException }, ⟨[], [], ⟨[], []⟩⟩) :=
  ⟨C1_client_id.1 (3, 5) (3, 5) 1 (strA ("3:5")) (strA ("3")) (strA ("5")) 3 5 rfl rfl rfl,
   (C1_client_id.2 ⟨[], [], ⟨[], []⟩⟩ (3, 5) (3, 5) 1 1 [0] 0 0 [] []
     (strA ("xx") ++ 58 :: (strA ("3") ++ 58 :: strA ("5"))) (strA ("xx")) (strA ("3"))
     (strA ("5")) (strA ("xx")) 3 5 (by decide) (by decide) (by decide) (by decide)
     (by decide) (by decide)).1 (by decide),
   (C1_client_id.2 ⟨[], [], ⟨[], []⟩⟩ (3, 5) (3, 5) 1 1 [0] 0 0 [] []
     (utf8Encode (fingerprintInt (3, 5) 32) ++ 58 :: (strA ("3") ++ 58 :: strA ("5")))
     (utf8Encode (fingerprintInt (3, 5) 32)) (strA ("3")) (strA ("5"))
     (fingerprintInt (3, 5) 32) 3 5 (by decide) (by decide) (by decide) (by decide)
     (by decide) (by decide)).2 (by decide)⟩

/-- C1 counterexample: at key `(3, 5)` the ID the client announces is the
32-character truncation of the hash of the separator-free serialization —
it is not the spec's 64-character fingerprint of `hex(exp):hex(mod)`. -/
theorem C1_counterexample :
    (splitBy 58 ((client_handshake (3, 5) (3, 5) (fingerprintInt (3, 5) 64) 1
        [strA ("3:5")]).sent.headD [])).headD [] ≠ spec_fingerprint (3, 5) ∧
    ((splitBy 58 ((client_handshake (3, 5) (3, 5) (fingerprintInt (3, 5) 64) 1
        [strA ("3:5")]).sent.headD [])).headD []).length = 32 := by
  refine ⟨by decide, by decide⟩

/-- C7 (amended): with an in-range IV, `decrypt_cbc` fails only with
`DecryptionFailureException` — except that a MAC-valid ciphertext whose
plaintext is empty raises `IndexError` from `remove_pkcs7` — a MAC
mismatch on well-formed blocks always yields
`DecryptionFailureException`, and decryption of an `encrypt_cbc` output
returns exactly the original plaintext. -/
theorem C7_decrypt :
    (∀ (ct : Bytes) (key iv : Nat), iv < 2 ^ 128 → ∀ e, decrypt_cbc ct key iv false = .error e →
      e = .decryptionFailure ∨ (e = .indexError ∧ ct.take (ct.length - 32) = [])) ∧
    (∀ (ct : Bytes) (key iv : Nat) (bl : List Bytes), iv < 2 ^ 128 → 32 ≤ ct.length →
      split_blocks (ct.take (ct.length - 32)) = .ok bl →
      hmac_verify (ct.drop (ct.length - 32)) (ct.take (ct.length - 32)) iv key = false →
      decrypt_cbc ct key iv false = .error .decryptionFailure) ∧
    (∀ (data padB padA : Bytes) (key iv nb na : Nat),
      (∀ x ∈ data, x < 256) → padB.length = nb → (∀ x ∈ padB, x < 256) →
      padA.length = na → (∀ x ∈ padA, x < 256) → nb < 65536 → na < 65536 → iv < 2 ^ 128 →
      ∃ ct, encrypt_cbc data key iv false nb na padB padA = .ok ct ∧
        decrypt_cbc ct key iv false = .ok data) := by
  refine ⟨?_, ?_, ?_⟩
  · intro ct key iv hiv e he
    simp only [decrypt_cbc] at he
    by_cases hlen : ct.length < 32
    · rw [if_pos ⟨by simp, hlen⟩] at he
      simp only [Except.error.injEq] at he
      exact Or.inl he.symm
    · rw [if_neg (fun hc => hlen hc.2)] at he
      simp only [Bool.false_eq_true, if_false] at he
      rcases hsp : split_blocks (ct.take (ct.length - 32)) with e1 | bl
      · simp only [hsp, Except.error.injEq] at he
        exact Or.inl he.symm
      · simp only [hsp] at he
        obtain ⟨r, hr⟩ := cbcDec_ok (expand_key key) iv bl hiv
        simp only [hr, Bool.false_eq_true, if_false] at he
        by_cases hv : hmac_verify (ct.drop (ct.length - 32)) (ct.take (ct.length - 32)) iv key =
          true
        · rw [if_neg (by simp [hv])] at he
          rcases hrp : remove_pkcs7 r.flatten with e2 | p
          · rcases remove_pkcs7_err r.flatten e2 hrp with he2 | ⟨he2, hfl⟩
            · subst he2
              simp only [hrp, Except.error.injEq] at he
              exact Or.inl he.symm
            · subst he2
              simp only [hrp, Except.error.injEq] at he
              refine Or.inr ⟨he.symm, ?_⟩
              cases bl with
              | nil =>
                simp only [split_blocks] at hsp
                split at hsp
                · exact absurd hsp (by simp)
                · simp only [Except.ok.injEq] at hsp
                  by_contra hne
                  simp only [chunksAux, if_neg hne] at hsp
                  exact absurd hsp (by simp)
              | cons b bl2 =>
                exfalso
                simp only [cbcDec] at hr
                rw [if_neg (by omega : ¬2 ^ 128 ≤ iv)] at hr
                simp only [Except.ok.injEq] at hr
                rw [← hr] at hfl
                simp only [List.zip_cons_cons, List.map_cons, List.flatten_cons] at hfl
                have h16 : (xor_b (decrypt_block (expand_key key) b)
                    (i_to_b_fixed 16 iv)).length = 16 := by
                  rw [xor_b_length, decrypt_block_len, i_to_b_fixed_length]
                  simp
                have hL := congrArg List.length hfl
                simp only [List.length_append, List.length_nil] at hL
                rw [h16] at hL
                omega
          · simp only [hrp] at he
            rcases hup : unpad p with e3 | q
            · simp only [hup, Except.error.injEq] at he
              exact Or.inl he.symm
            · simp only [hup] at he
              exact absurd he (by simp)
        · rw [if_pos hv] at he
          simp only [Except.error.injEq] at he
          exact Or.inl he.symm
  · intro ct key iv bl hiv hlen hsp hfail
    simp only [decrypt_cbc]
    rw [if_neg (by rintro ⟨-, h2⟩; omega)]
    simp only [Bool.false_eq_true, if_false, hsp]
    obtain ⟨r, hr⟩ := cbcDec_ok (expand_key key) iv bl hiv
    simp only [hr, Bool.false_eq_true, if_false, hfail, not_false_eq_true, if_true]
  · intro data padB padA key iv nb na h1 h2 h3 h4 h5 h6 h7 h8
    obtain ⟨ct, he, -, hd⟩ := aes_cbc_roundtrip data padB padA key iv nb na h1 h2 h3 h4 h5 h6
      h7 h8
    exact ⟨ct, he, hd⟩

set_option maxRecDepth 100000 in
/-- C7 witness: the empty-plaintext `IndexError` corner, a concrete MAC
mismatch, and an empty-plaintext round trip. -/
theorem C7_decrypt_witness :
    (7 < 2 ^ 128 ∧
      (PyErr.indexError = PyErr.decryptionFailure ∨ (PyErr.indexError = PyErr.indexError ∧
        (hmac_calculate [] 7 9).take ((hmac_calculate [] 7 9).length - 32) = []))) ∧
    decrypt_cbc (List.replicate 48 0) 9 7 false = .error .decryptionFailure ∧
    (∃ ct, encrypt_cbc [] 9 7 false 0 0 [] [] = .ok ct ∧ decrypt_cbc ct 9 7 false = .ok []) :=
  ⟨⟨by norm_num, C7_decrypt.1 (hmac_calculate [] 7 9) 9 7 (by norm_num) .indexError (by rfl)⟩,
   C7_decrypt.2.1 (List.replicate 48 0) 9 7 [List.replicate 16 0] (by norm_num) (by decide)
     (by rfl) (by rfl),
   C7_decrypt.2.2 [] [] [] 9 7 0 0 (by simp) rfl (by simp) rfl (by simp) (by norm_num)
     (by norm_num) (by norm_num)⟩

set_option maxRecDepth 100000 in
/-- C7 counterexample: a MAC-valid 32-byte ciphertext (the MAC of the empty
ciphertext) makes `decrypt_cbc` raise `IndexError` from `remove_pkcs7`,
not `DecryptionFailureException`. -/
theorem C7_counterexample :
    decrypt_cbc (hmac_calculate [] 7 9) 9 7 false = .error .indexError ∧
    PyErr.indexError ≠ PyErr.decryptionFailure :=
  ⟨by rfl, by decide⟩

/-- C8: on socket closure the in-worker removes the live socket handle and
logs the user out but leaves every outbox untouched; a subsequent
successful handshake for an ID that already has an outbox keeps that
outbox instead of replacing it. -/
theorem C8_disconnect_preserves_outboxes :
    (∀ (st : SrvState) (cid : PyStr) (b : Bool), alLookup st.sockets cid = some b →
      in_thread_cleanup st cid =
        (.next, { st with db := db_user_logout st.db cid,
                          sockets := alErase st.sockets cid }) ∧
      alLookup (alErase st.sockets cid) cid = none ∧
      cid ∉ (db_user_logout st.db cid).logged_in ∧
      SrvState.outboxes { st with db := db_user_logout st.db cid,
                                  sockets := alErase st.sockets cid } = st.outboxes) ∧
    (∀ (st : SrvState) (pub priv : Nat × Nat) (dp ei : Nat) (rd : Bytes) (nb na : Nat)
       (pb pa : Bytes) (idp authp confp : Bytes) (rest : List Bytes)
       (c_id_b c_exp c_mod : Bytes) (c_id : PyStr) (ce cm : Int) (dhb sigb : Bytes) (cdh : Int)
       (db1 : ServerDB) (conf : Bytes),
      idp ≠ strA ("MalformedIdentity") → idp ≠ strA ("PubKeyFpMismatch") →
      splitBy 58 idp = [c_id_b, c_exp, c_mod] → utf8Decode c_id_b = some c_id →
      pyIntHex c_exp = some ce → pyIntHex c_mod = some cm →
      fingerprintInt (ce, cm) 32 = c_id →
      authp ≠ strA ("BadSignature") → authp ≠ strA ("MalformedDiffieHellman") →
      splitBy 58 authp = [dhb, sigb] → signing_verify dhb sigb (ce, cm) = true →
      pyIntHex dhb = some cdh →
      db_user_login st.db c_id (ce, cm) = some db1 →
      encrypt_cbc rd (sha256_hash (i_to_b (calculate_shared_key dp cdh group14_2048))) ei
        false nb na pb pa = .ok conf →
      confp ≠ strA ("MalformedChallenge") → confp ≠ strA ("CouldNotDecrypt") →
      (utf8Decode confp).bind pyBytesFromHex = some rd →
      server_handshake st pub priv dp ei rd nb na pb pa (idp :: authp :: confp :: rest) =
        ({ sent := [hexDigits pub.1 ++ 58 :: hexDigits pub.2,
                    hexDigits (gen_signed_dh dp priv group14_2048).1 ++ 58 ::
                      (gen_signed_dh dp priv group14_2048).2,
                    hexDigits ei ++ 58 :: bytesHex conf,
                    strA ("OK")],
           closed := false,
           session := some (c_id,
             sha256_hash (i_to_b (calculate_shared_key dp cdh group14_2048))),
           err := none },
         { outboxes := if (alLookup st.outboxes c_id).isSome then st.outboxes
                       else st.outboxes ++ [(c_id, [])],
           sockets := alSet st.sockets c_id true,
           db := db1 }) ∧
      (∀ q, alLookup st.outboxes c_id = some q →
        (server_handshake st pub priv dp ei rd nb na pb pa
          (idp :: authp :: confp :: rest)).2.outboxes = st.outboxes)) := by
  constructor
  · intro st cid b h
    refine ⟨?_, alLookup_erase cid st.sockets, ?_, rfl⟩
    · simp only [in_thread_cleanup, h]
    · simp [db_user_logout, List.mem_filter]
  · intro st pub priv dp ei rd nb na pb pa idp authp confp rest c_id_b c_exp c_mod c_id ce cm
      dhb sigb cdh db1 conf h1 h2 h3 h4 h5 h6 h7 h8 h9 h10 h11 h12 h13 h14 h15 h16 h17
    rcases hgen : gen_signed_dh dp priv group14_2048 with ⟨dhp, dhs⟩
    have hmain : server_handshake st pub priv dp ei rd nb na pb pa
        (idp :: authp :: confp :: rest) =
        ({ sent := [hexDigits pub.1 ++ 58 :: hexDigits pub.2,
                    hexDigits (gen_signed_dh dp priv group14_2048).1 ++ 58 ::
                      (gen_signed_dh dp priv group14_2048).2,
                    hexDigits ei ++ 58 :: bytesHex conf,
                    strA ("OK")],
           closed := false,
           session := some (c_id,
             sha256_hash (i_to_b (calculate_shared_key dp cdh group14_2048))),
           err := none },
         { outboxes := if (alLookup st.outboxes c_id).isSome then st.outboxes
                       else st.outboxes ++ [(c_id, [])],
           sockets := alSet st.sockets c_id true,
           db := db1 }) := by
      simp only [server_handshake, if_neg h1, if_neg h2, h3, h4, h5, h6, h7, ne_eq,
        eq_self_iff_true, not_true, if_false, hgen, if_neg h8, if_neg h9, h10, h11, h12, h13,
        h14, if_neg h15, if_neg h16, h17, List.cons_append, List.nil_append]
    rw [hgen] at hmain
    refine ⟨hmain, ?_⟩
    intro q hq
    rw [hmain]
    simp [hq]

set_option maxRecDepth 100000 in
/-- C8 witness: a concrete disconnect, and a concrete re-handshake for an
ID whose outbox already holds a queued message. -/
theorem C8_disconnect_preserves_outboxes_witness :
    (in_thread_cleanup ⟨[(strA ("q"), [[1]])], [(strA ("q"), true)], ⟨[], [strA ("q")]⟩⟩
        (strA ("q")) =
      (.next, { outboxes := [(strA ("q"), [[1]])],
                sockets := alErase [(strA ("q"), true)] (strA ("q")),
                db := db_user_logout ⟨[], [strA ("q")]⟩ (strA ("q")) }) ∧
      alLookup (alErase [(strA ("q"), true)] (strA ("q"))) (strA ("q")) = none ∧
      strA ("q") ∉ (db_user_logout (⟨[], [strA ("q")]⟩ : ServerDB) (strA ("q"))).logged_in) ∧
    (server_handshake ⟨[(fingerprintInt (3, 5) 32, [[9]])], [], ⟨[], []⟩⟩ (3, 5) (3, 5) 1 1
        [1, 2, 3] 0 0 [] []
        [utf8Encode (fingerprintInt (3, 5) 32) ++ 58 :: (strA ("3") ++ 58 :: strA ("5")),
         strA ("2") ++ 58 :: mock_sign (strA ("2")) 5,
         strA ("010203")]).2.outboxes = [(fingerprintInt (3, 5) 32, [[9]])] := by
  constructor
  · have h := (C8_disconnect_preserves_outboxes.1
      ⟨[(strA ("q"), [[1]])], [(strA ("q"), true)], ⟨[], [strA ("q")]⟩⟩ (strA ("q")) true rfl)
    exact ⟨h.1, h.2.1, h.2.2.1⟩
  · exact (C8_disconnect_preserves_outboxes.2
      ⟨[(fingerprintInt (3, 5) 32, [[9]])], [], ⟨[], []⟩⟩ (3, 5) (3, 5) 1 1 [1, 2, 3] 0 0 [] []
      (utf8Encode (fingerprintInt (3, 5) 32) ++ 58 :: (strA ("3") ++ 58 :: strA ("5")))
      (strA ("2") ++ 58 :: mock_sign (strA ("2")) 5) (strA ("010203")) []
      (utf8Encode (fingerprintInt (3, 5) 32)) (strA ("3")) (strA ("5"))
      (fingerprintInt (3, 5) 32) 3 5 (strA ("2")) (mock_sign (strA ("2")) 5) 2
      { users := [(fingerprintInt (3, 5) 32, (3, 5))],
        logged_in := [fingerprintInt (3, 5) 32] }
      ((encrypt_cbc [1, 2, 3] (sha256_hash (i_to_b (calculate_shared_key 1 2 group14_2048))) 1
        false 0 0 [] []).toOption.getD [])
      (by decide) (by decide) (by decide) (by decide) (by decide) (by decide) (by decide)
      (by decide) (by decide) (by decide) (by decide) (by decide) (by rfl) (by rfl)
      (by decide) (by decide) (by rfl)).2 [[9]] (by rfl)
